import Mathlib

/-! Slashing keeper of bnc-cosmos-sdk: a shallow embedding.

Sources embedded here: `x/slashing/keeper.go`, `x/slashing/handler.go`,
`x/stake/keeper/key.go`.

Conventions of the embedding.

* Go `int64` values are `Int`; every `int64` addition, subtraction, increment and
  decrement is followed by `wrapInt64` (two's-complement wrap-around).  Go `uint64`
  values are `Nat`, subtraction is taken modulo `2^64`.
* `[]byte`, `crypto.Address`, `sdk.ConsAddress` are `Bytes` (a list of byte values).
* `time.Time` is an `Int` (nanoseconds since the Unix epoch), `time.Duration` an `Int`
  (nanoseconds); `Time.Add` is addition.
* A Go panic is the result `none`; the two side-chain handlers return, with the state
  they reached, `none` for a panic and `some err` for the return of `err`.
* `logger.Info(...)` calls have no effect on the state and are left out.
* The key-value store reached through `ctx.KVStore(k.storeKey)` is a family of tables
  indexed by the side-chain scope carried by the context (empty for the main chain).
* The validator set (`sdk.ValidatorSet`, a Go interface) is an external collaborator:
  every mutating call made through it is appended to `Keeper.calls`, and the answers
  it gives are read from the functions of `ValidatorSet`, which may depend on the
  calls made so far.
-/

namespace Slashing

/-- Byte strings: Go `[]byte`, `crypto.Address`, `sdk.ConsAddress`. -/
abbrev Bytes := List Nat

/-- Fixed-point decimal `sdk.Dec`, represented by its raw integer (`RawInt()`). -/
abbrev Dec := Int

/-- The largest `int64`, Go `math.MaxInt64`. -/
def MaxInt64 : Int := 9223372036854775807

/-- The smallest `int64`, Go `math.MinInt64`. -/
def MinInt64 : Int := -9223372036854775808

/-- Two's-complement wrap-around of a mathematical integer into the `int64` range. -/
def wrapInt64 (x : Int) : Int :=
  (x + 9223372036854775808) % 18446744073709551616 - 9223372036854775808

/-- Wrap-around of a mathematical integer into the `uint64` range. -/
def wrapUint64 (x : Int) : Nat :=
  (x % 18446744073709551616).toNat

/-- The part of `sdk.Context` the slashing keeper reads: block header height and time,
the deliver-tx flag, and the side-chain scope of the stores. -/
structure Context where
  BlockHeight : Int
  BlockTime : Int
  IsDeliverTx : Bool
  sideChainScope : Bytes
deriving DecidableEq, Repr

/-- Modelled from the spec: the parameter set of `params.go` (not part of the presented
sources), one field per parameter of spec section 3; durations in nanoseconds. -/
structure Params where
  MaxEvidenceAge : Int
  SignedBlocksWindow : Int
  MinSignedPerWindow : Int
  DoubleSignUnbondDuration : Int
  DowntimeUnbondDuration : Int
  SlashFractionDoubleSign : Dec
  SlashFractionDowntime : Dec
  DoubleSignSlashAmount : Int
  DowntimeSlashAmount : Int
  DowntimeSlashFee : Int
deriving DecidableEq, Repr

/-- Modelled from the spec: `ValidatorSigningInfo` of `signing_info.go` (not part of the
presented sources).  `IndexOffset` and `MissedBlocksCounter` are `int64`: the handler
combines them with the `int64` window size without conversion. -/
structure ValidatorSigningInfo where
  StartHeight : Int
  IndexOffset : Int
  JailedUntil : Int
  MissedBlocksCounter : Int
deriving DecidableEq, Repr

/-- What the keeper reads of an `sdk.Validator`. -/
structure Validator where
  Jailed : Bool
  Operator : Bytes
  SideChainConsAddr : Bytes
deriving DecidableEq, Repr

/-- Infraction kinds of a slash record. -/
inductive InfractionType where
  | DoubleSign
  | Downtime
  | MaliciousVote
deriving DecidableEq, Repr

/-- Modelled from the spec: `SlashRecord` of `slash_record.go` (not part of the presented
sources), with the fields the keeper fills in. -/
structure SlashRecord where
  ConsAddr : Bytes
  InfractionType : InfractionType
  InfractionHeight : Nat
  SlashHeight : Int
  JailUntil : Int
  SlashAmt : Int
  SideChainId : String
deriving DecidableEq, Repr

/-- The event handed to the publisher by the side-chain handlers. -/
structure SideSlashEvent where
  Validator : Bytes
  InfractionType : InfractionType
  InfractionHeight : Int
  SlashHeight : Int
  JailUtil : Int
  SlashAmt : Int
  ToFeePool : Int
  SideChainId : String
  ValidatorsCompensation : List (String × Int)
deriving DecidableEq, Repr

/-- A fee committed by `fees.Pool.AddAndCommitFee(name, fee)`: name, denomination, amount. -/
structure CommittedFee where
  name : String
  denom : String
  amount : Int
deriving DecidableEq, Repr

/-- The mutating calls the keeper makes on the validator set, with their arguments. -/
inductive ValidatorSetCall where
  | Slash (ctx : Context) (consAddr : Bytes) (distributionHeight : Int) (power : Int)
      (fraction : Dec)
  | Jail (ctx : Context) (consAddr : Bytes)
  | SlashSideChain (ctx : Context) (sideChainId : String) (sideConsAddr : Bytes)
      (slashAmount : Dec)
  | AllocateSlashAmtToValidators (ctx : Context) (slashedConsAddr : Bytes) (amount : Dec)
deriving DecidableEq, Repr

/-- The answers of the validator set (`sdk.ValidatorSet`), as functions of the calls made
on it so far and of the arguments of the query.  A validator answered is an interface
value and may be nil (`none`), also the one `SlashSideChain` returns without an error. -/
structure ValidatorSet where
  ValidatorByConsAddr : List ValidatorSetCall → Context → Bytes → Option Validator
  ValidatorByVoteAddr : List ValidatorSetCall → Context → Bytes → Option Validator
  SlashSideChain : List ValidatorSetCall → Context → String → Bytes → Dec →
    Except String (Option Validator × Dec)
  AllocateSlashAmtToValidators : List ValidatorSetCall → Context → Bytes → Dec →
    Except String (Bool × List (String × Int))
  BondDenom : List ValidatorSetCall → Context → String

/-- The two functions of the side-chain keeper (`sidechain.Keeper`) the handlers use. -/
structure SideChainKeeper where
  GetDestChainName : Nat → Option String
  PrepareCtxForSideChain : Context → String → Option Context

/-- Modelled from the spec: `SideSlashPackage` (declared outside the presented sources),
the packet of spec section 3 with its four decoded fields, and the unexported `addrType`
tag that `checkSideSlashPackage` fills in.  `SideHeight` and `SideTimestamp` are `uint64`,
`addrType` is a small unsigned integer. -/
structure SideSlashPackage where
  SideAddr : Bytes
  SideHeight : Nat
  SideChainId : Nat
  SideTimestamp : Nat
  addrType : Nat
deriving DecidableEq, Repr

/-- The errors (`sdk.Error`) the keeper returns, with the codespace they are built with and
their message. -/
inductive SdkError where
  | InvalidInput (codespace : Nat) (msg : String)
  | InvalidClaim (codespace : Nat) (msg : String)
  | InvalidSideChainId (codespace : Nat)
  | ExpiredEvidence (codespace : Nat)
  | DuplicateDowntimeClaim (codespace : Nat)
  | DuplicateMaliciousVoteClaim (codespace : Nat)
  | NoValidatorWithVoteAddr (codespace : Nat)
  | FailedToSlash (codespace : Nat) (msg : String)
  | Internal (msg : String)
deriving DecidableEq, Repr

/-- Modelled from the spec: the common ack package (declared outside the presented
sources), "a common-ack record wrapping a single uint32 result code" (spec section 6). -/
structure CommonAckPackage where
  Code : Nat
deriving DecidableEq, Repr

/-- Result `sdk.ExecuteResult` of executing a cross-chain package; `Tags` is always
`sdk.EmptyTags()` and is left out. -/
structure ExecuteResult where
  Payload : CommonAckPackage
  Err : Option SdkError
deriving DecidableEq, Repr

/-- Constants and helpers that the presented sources use without defining:
`sdk.AddrLen`, `sdk.VoteAddrLen`, `stake.ValidatorUpdateDelay`, `sdk.NewDec`, the tags
`SideConsAddrType` and `SideVoteAddrType`, `DefaultCodespace`, `sdk.HexEncode`, the result
code `err.ABCICode()` of an error, `rlp.DecodeBytes` into a `SideSlashPackage`
(`none` when decoding fails), the keeper method `capBySlashingPeriod` of
`slashing_period.go` (its answer for a context, a consensus address, a fraction and a
distribution height; the slashing-period table it keeps is not part of the state modelled
here), and `strings.ToLower`. -/
structure Env where
  AddrLen : Nat
  VoteAddrLen : Nat
  ValidatorUpdateDelay : Int
  NewDec : Int → Dec
  SideConsAddrType : Nat
  SideVoteAddrType : Nat
  DefaultCodespace : Nat
  HexEncode : Bytes → String
  ABCICode : SdkError → Nat
  DecodeBytes : Bytes → Option SideSlashPackage
  capBySlashingPeriod : Context → Bytes → Dec → Int → Dec
  ToLower : String → String

/-- The keeper together with everything it reads and writes: its configuration, its
store tables (indexed by side-chain scope), the validator set with the calls made on it,
the fee pool and the published events. -/
structure Keeper where
  Codespace : Nat
  validatorSet : ValidatorSet
  ScKeeper : SideChainKeeper
  PbsbServer : Bool
  params : Bytes → Params
  addrPubkey : Bytes → Bytes → Option Bytes
  signingInfo : Bytes → Bytes → Option ValidatorSigningInfo
  missedBlockBitArray : Bytes → Bytes → Int → Bool
  slashRecords : Bytes → List SlashRecord
  calls : List ValidatorSetCall
  feePool : List CommittedFee
  published : List SideSlashEvent

namespace Keeper

/-- Parameter accessor `k.SignedBlocksWindow(ctx)`. -/
def SignedBlocksWindow (k : Keeper) (ctx : Context) : Int :=
  (k.params ctx.sideChainScope).SignedBlocksWindow

/-- Parameter accessor `k.MinSignedPerWindow(ctx)`. -/
def MinSignedPerWindow (k : Keeper) (ctx : Context) : Int :=
  (k.params ctx.sideChainScope).MinSignedPerWindow

/-- Parameter accessor `k.SlashFractionDowntime(ctx)`. -/
def SlashFractionDowntime (k : Keeper) (ctx : Context) : Dec :=
  (k.params ctx.sideChainScope).SlashFractionDowntime

/-- Parameter accessor `k.DowntimeUnbondDuration(ctx)`. -/
def DowntimeUnbondDuration (k : Keeper) (ctx : Context) : Int :=
  (k.params ctx.sideChainScope).DowntimeUnbondDuration

/-- Lookup `k.getPubkey(ctx, address)`: `none` is the error return. -/
def getPubkey (k : Keeper) (ctx : Context) (address : Bytes) : Option Bytes :=
  k.addrPubkey ctx.sideChainScope address

/-- Modelled from the spec: `getValidatorSigningInfo` of `signing_info.go` (not part of
the presented sources), the operation `get(consAddr) -> (info, found)` of spec 4.2. -/
def getValidatorSigningInfo (k : Keeper) (ctx : Context) (address : Bytes) :
    Option ValidatorSigningInfo :=
  k.signingInfo ctx.sideChainScope address

/-- Modelled from the spec: `setValidatorSigningInfo` of `signing_info.go` (not part of
the presented sources), the operation `set(consAddr, info)` of spec 4.2. -/
def setValidatorSigningInfo (k : Keeper) (ctx : Context) (address : Bytes)
    (info : ValidatorSigningInfo) : Keeper :=
  { k with signingInfo := fun scope a =>
      if scope = ctx.sideChainScope ∧ a = address then some info else k.signingInfo scope a }

/-- Modelled from the spec: `getValidatorMissedBlockBitArray` of `signing_info.go` (not
part of the presented sources), the operation `getMissed(consAddr, index)` of spec 4.2;
an index without entry reads as not missed. -/
def getValidatorMissedBlockBitArray (k : Keeper) (ctx : Context) (address : Bytes)
    (index : Int) : Bool :=
  k.missedBlockBitArray ctx.sideChainScope address index

/-- Modelled from the spec: `setValidatorMissedBlockBitArray` of `signing_info.go` (not
part of the presented sources), the operation `setMissed(consAddr, index, bool)` of
spec 4.2. -/
def setValidatorMissedBlockBitArray (k : Keeper) (ctx : Context) (address : Bytes)
    (index : Int) (missed : Bool) : Keeper :=
  { k with missedBlockBitArray := fun scope a i =>
      if scope = ctx.sideChainScope ∧ a = address ∧ i = index then missed
      else k.missedBlockBitArray scope a i }

/-- Modelled from the spec: `clearValidatorMissedBlockBitArray` of `signing_info.go` (not
part of the presented sources), the operation `clearMissed(consAddr)` of spec 4.2: all
bit entries of the validator are removed. -/
def clearValidatorMissedBlockBitArray (k : Keeper) (ctx : Context) (address : Bytes) :
    Keeper :=
  { k with missedBlockBitArray := fun scope a i =>
      if scope = ctx.sideChainScope ∧ a = address then false
      else k.missedBlockBitArray scope a i }

/-- Query `k.validatorSet.ValidatorByConsAddr(ctx, consAddr)`; `none` is Go `nil`. -/
def ValidatorByConsAddr (k : Keeper) (ctx : Context) (consAddr : Bytes) :
    Option Validator :=
  k.validatorSet.ValidatorByConsAddr k.calls ctx consAddr

/-- Call `k.validatorSet.Slash(ctx, consAddr, distributionHeight, power, fraction)`. -/
def Slash (k : Keeper) (ctx : Context) (consAddr : Bytes) (distributionHeight power : Int)
    (fraction : Dec) : Keeper :=
  { k with calls := k.calls ++ [ValidatorSetCall.Slash ctx consAddr distributionHeight
      power fraction] }

/-- Call `k.validatorSet.Jail(ctx, consAddr)`. -/
def Jail (k : Keeper) (ctx : Context) (consAddr : Bytes) : Keeper :=
  { k with calls := k.calls ++ [ValidatorSetCall.Jail ctx consAddr] }

/-- Lines 144-163 of `handleValidatorSignature`: the bitmap index is taken from
`IndexOffset`, the offset is incremented, and the bit at the index and the missed-blocks
counter are brought up to date with the new observation.  Returns the updated keeper
and the updated in-memory signing info (which is not yet persisted). -/
def updateSignedBlockBit (k : Keeper) (ctx : Context) (consAddr : Bytes)
    (signInfo : ValidatorSigningInfo) (signed : Bool) : Keeper × ValidatorSigningInfo :=
  let index := Int.tmod signInfo.IndexOffset (k.SignedBlocksWindow ctx)
  let signInfo := { signInfo with IndexOffset := wrapInt64 (signInfo.IndexOffset + 1) }
  let previous := k.getValidatorMissedBlockBitArray ctx consAddr index
  let missed := !signed
  if !previous && missed then
    (k.setValidatorMissedBlockBitArray ctx consAddr index true,
      { signInfo with MissedBlocksCounter := wrapInt64 (signInfo.MissedBlocksCounter + 1) })
  else if previous && !missed then
    (k.setValidatorMissedBlockBitArray ctx consAddr index false,
      { signInfo with MissedBlocksCounter := wrapInt64 (signInfo.MissedBlocksCounter - 1) })
  else
    (k, signInfo)

/-- Embedding of `Keeper.handleValidatorSignature` (keeper.go lines 130-198).  The result
is `none` when the Go code panics: unknown pubkey, missing signing info, or the integer
division by a zero window in `IndexOffset % SignedBlocksWindow`. -/
def handleValidatorSignature (env : Env) (k : Keeper) (ctx : Context) (addr : Bytes)
    (power : Int) (signed : Bool) : Option Keeper :=
  let height := ctx.BlockHeight
  let consAddr := addr
  match k.getPubkey ctx addr with
  | none => none
  | some _ =>
    match k.getValidatorSigningInfo ctx consAddr with
    | none => none
    | some signInfo =>
      if k.SignedBlocksWindow ctx = 0 then none
      else
        let updated := k.updateSignedBlockBit ctx consAddr signInfo signed
        let k := updated.1
        let signInfo := updated.2
        let minHeight := wrapInt64 (signInfo.StartHeight + k.SignedBlocksWindow ctx)
        let maxMissed := wrapInt64 (k.SignedBlocksWindow ctx - k.MinSignedPerWindow ctx)
        if height > minHeight ∧ signInfo.MissedBlocksCounter > maxMissed then
          match k.ValidatorByConsAddr ctx consAddr with
          | some validator =>
            if !validator.Jailed then
              let distributionHeight :=
                wrapInt64 (wrapInt64 (height - env.ValidatorUpdateDelay) - 1)
              let k := k.Slash ctx consAddr distributionHeight power
                (k.SlashFractionDowntime ctx)
              let k := k.Jail ctx consAddr
              let signInfo := { signInfo with
                JailedUntil := ctx.BlockTime + k.DowntimeUnbondDuration ctx }
              let signInfo := { signInfo with MissedBlocksCounter := 0 }
              let signInfo := { signInfo with IndexOffset := 0 }
              let k := k.clearValidatorMissedBlockBitArray ctx consAddr
              some (k.setValidatorSigningInfo ctx consAddr signInfo)
            else
              some (k.setValidatorSigningInfo ctx consAddr signInfo)
          | none => some (k.setValidatorSigningInfo ctx consAddr signInfo)
        else
          some (k.setValidatorSigningInfo ctx consAddr signInfo)

/-- Parameter accessor `k.MaxEvidenceAge(ctx)`. -/
def MaxEvidenceAge (k : Keeper) (ctx : Context) : Int :=
  (k.params ctx.sideChainScope).MaxEvidenceAge

/-- Parameter accessor `k.DowntimeSlashAmount(ctx)`. -/
def DowntimeSlashAmount (k : Keeper) (ctx : Context) : Int :=
  (k.params ctx.sideChainScope).DowntimeSlashAmount

/-- Parameter accessor `k.DowntimeSlashFee(ctx)`. -/
def DowntimeSlashFee (k : Keeper) (ctx : Context) : Int :=
  (k.params ctx.sideChainScope).DowntimeSlashFee

/-- Parameter accessor `k.DoubleSignSlashAmount(ctx)`. -/
def DoubleSignSlashAmount (k : Keeper) (ctx : Context) : Int :=
  (k.params ctx.sideChainScope).DoubleSignSlashAmount

/-- Parameter accessor `k.DoubleSignUnbondDuration(ctx)`. -/
def DoubleSignUnbondDuration (k : Keeper) (ctx : Context) : Int :=
  (k.params ctx.sideChainScope).DoubleSignUnbondDuration

/-- Seconds since the epoch of a time, Go `Time.Unix()`. -/
def unixSeconds (t : Int) : Int := t / 1000000000

/-- Rounding of the rational `n / d` to the nearest integer, ties to the even one. -/
def roundHalfEven (n d : Nat) : Nat :=
  let q := n / d
  let r := n % d
  if 2 * r < d then q
  else if d < 2 * r then q + 1
  else if q % 2 = 0 then q
  else q + 1

/-- The number of doublings of `n` after which `2^52 * d ≤ n`, at most `fuel`. -/
def scaleUp : Nat → Nat → Nat → Nat
  | 0, _, _ => 0
  | fuel + 1, n, d =>
    if 4503599627370496 * d ≤ n then 0 else scaleUp fuel (2 * n) d + 1

/-- The number of doublings of `d` after which `n < 2^53 * d`, at most `fuel`. -/
def scaleDown : Nat → Nat → Nat → Nat
  | 0, _, _ => 0
  | fuel + 1, n, d =>
    if n < 9007199254740992 * d then 0 else scaleDown fuel n (2 * d) + 1

/-- The `float64` nearest to the rational `n / d` (`d > 0`): the value is scaled by a
power of two into the range of a 53-bit significand, rounded to the nearest integer with
ties to even, and scaled back.  The result is the fraction of its two components.
Overflow and subnormal numbers, out of reach of the values converted here, are not
modelled. -/
def float64Nearest (n d : Nat) : Nat × Nat :=
  if n = 0 then (0, 1)
  else
    let up := scaleUp 1100 n d
    let down := scaleDown 1100 n d
    (roundHalfEven (n * 2 ^ up) (d * 2 ^ down) * 2 ^ down, 2 ^ up)

/-- Go `d.Seconds()` of a non-negative duration of `d` nanoseconds, as a fraction:
`sec := d / Second; nsec := d % Second; float64(sec) + float64(nsec)/1e9`, each
conversion and operation rounded to the nearest `float64`. -/
def durationSecondsFloat (d : Nat) : Nat × Nat :=
  let sec := d / 1000000000
  let nsec := d % 1000000000
  let secF := float64Nearest sec 1
  let nsecF := float64Nearest nsec 1
  let quotient := float64Nearest nsecF.1 (nsecF.2 * 1000000000)
  float64Nearest (secF.1 * quotient.2 + quotient.1 * secF.2) (secF.2 * quotient.2)

/-- The conversion `uint64(d.Seconds())` of a duration: the floating-point seconds,
truncated.  For a negative duration the seconds are the negated seconds of `-d`
(rounding is symmetric) and the conversion of the negative value, which Go leaves to the
implementation, wraps around as on amd64. -/
def durationSecondsUint64 (d : Int) : Nat :=
  if 0 ≤ d then
    (durationSecondsFloat d.toNat).1 / (durationSecondsFloat d.toNat).2
  else
    wrapUint64 (-(((durationSecondsFloat (-d).toNat).1
      / (durationSecondsFloat (-d).toNat).2 : Nat) : Int))

/-- Modelled from the spec: `hasSlashRecord` of `slash_record.go` (not part of the presented
sources), the operation `has(consAddr, kind, infractionHeight)` of spec 4.3. -/
def hasSlashRecord (k : Keeper) (ctx : Context) (consAddr : Bytes) (kind : InfractionType)
    (infractionHeight : Nat) : Bool :=
  (k.slashRecords ctx.sideChainScope).any fun r =>
    decide (r.ConsAddr = consAddr ∧ r.InfractionType = kind
      ∧ r.InfractionHeight = infractionHeight)

/-- Modelled from the spec: `setSlashRecord` of `slash_record.go` (not part of the presented
sources), the operation `put(record)` of spec 4.3; a record with the same composite key
is replaced. -/
def setSlashRecord (k : Keeper) (ctx : Context) (record : SlashRecord) : Keeper :=
  { k with slashRecords := fun scope =>
      if scope = ctx.sideChainScope then
        record :: (k.slashRecords scope).filter fun r =>
          !decide (r.ConsAddr = record.ConsAddr ∧ r.InfractionType = record.InfractionType
            ∧ r.InfractionHeight = record.InfractionHeight)
      else k.slashRecords scope }

/-- Modelled from the spec: `isMaliciousVoteSlashed` of `slash_record.go` (not part of the
presented sources), the operation `isSlashed(consAddr, kind)` of spec 4.3 for the kind
malicious vote. -/
def isMaliciousVoteSlashed (k : Keeper) (ctx : Context) (consAddr : Bytes) : Bool :=
  (k.slashRecords ctx.sideChainScope).any fun r =>
    decide (r.ConsAddr = consAddr ∧ r.InfractionType = InfractionType.MaliciousVote)

/-- Call `k.validatorSet.SlashSideChain(ctx, sideChainId, sideConsAddr, slashAmount)`: the
keeper with the call recorded, and the answer. -/
def SlashSideChain (k : Keeper) (ctx : Context) (sideChainId : String) (sideConsAddr : Bytes)
    (slashAmount : Dec) : Keeper × Except String (Option Validator × Dec) :=
  ({ k with calls := k.calls ++
      [ValidatorSetCall.SlashSideChain ctx sideChainId sideConsAddr slashAmount] },
    k.validatorSet.SlashSideChain k.calls ctx sideChainId sideConsAddr slashAmount)

/-- Call `k.validatorSet.AllocateSlashAmtToValidators(ctx, slashedConsAddr, amount)`: the
keeper with the call recorded, and the answer. -/
def AllocateSlashAmtToValidators (k : Keeper) (ctx : Context) (slashedConsAddr : Bytes)
    (amount : Dec) : Keeper × Except String (Bool × List (String × Int)) :=
  ({ k with calls := k.calls ++
      [ValidatorSetCall.AllocateSlashAmtToValidators ctx slashedConsAddr amount] },
    k.validatorSet.AllocateSlashAmtToValidators k.calls ctx slashedConsAddr amount)

/-- Query `k.validatorSet.ValidatorByVoteAddr(ctx, voteAddr)`; `none` is Go `nil`. -/
def ValidatorByVoteAddr (k : Keeper) (ctx : Context) (voteAddr : Bytes) : Option Validator :=
  k.validatorSet.ValidatorByVoteAddr k.calls ctx voteAddr

/-- Query `k.validatorSet.BondDenom(ctx)`. -/
def BondDenom (k : Keeper) (ctx : Context) : String :=
  k.validatorSet.BondDenom k.calls ctx

/-- The commit `fees.Pool.AddAndCommitFee(name, sdk.NewFee(sdk.Coins{coin}, sdk.FeeForAll))`
of one coin of the given denomination and amount. -/
def AddAndCommitFee (k : Keeper) (name denom : String) (amount : Int) : Keeper :=
  { k with feePool := k.feePool ++ [{ name := name, denom := denom, amount := amount }] }

/-- The call `k.PbsbServer.Publish(event)`, made when a publisher is set. -/
def Publish (k : Keeper) (event : SideSlashEvent) : Keeper :=
  if k.PbsbServer then { k with published := k.published ++ [event] } else k

/-- Lines 351-388 of `slashingSideDowntime`: the slash record is written, the jail term of
the signing info is overwritten and, when a publisher is set, the event is published.
`validator` is the validator `SlashSideChain` returned.  The result is the state reached
and the outcome: `some err` when the function returns `err` (`some none` is the return of
Go `nil`), `none` when the Go code panics, on the method call `validator.GetOperator()`
of line 375 on a nil validator. -/
def slashingSideDowntimeRecord (env : Env) (k : Keeper) (sideCtx : Context)
    (pack : SideSlashPackage) (sideChainName : String) (validator : Option Validator)
    (slashedAmt : Dec) (toFeePool : Int) (validatorsAllocatedAmt : List (String × Int)) :
    Keeper × Option (Option SdkError) :=
  let sideConsAddr := pack.SideAddr
  let jailUntil := sideCtx.BlockTime + k.DowntimeUnbondDuration sideCtx
  let sr : SlashRecord :=
    { ConsAddr := sideConsAddr
      InfractionType := InfractionType.Downtime
      InfractionHeight := pack.SideHeight
      SlashHeight := sideCtx.BlockHeight
      JailUntil := jailUntil
      SlashAmt := slashedAmt
      SideChainId := sideChainName }
  let k := k.setSlashRecord sideCtx sr
  match k.getValidatorSigningInfo sideCtx sideConsAddr with
  | none =>
    (k, some (some (SdkError.Internal
      ("Expected signing info for validator " ++ env.HexEncode sideConsAddr
        ++ " but not found"))))
  | some signInfo =>
    let signInfo := { signInfo with JailedUntil := jailUntil }
    let k := k.setValidatorSigningInfo sideCtx sideConsAddr signInfo
    if k.PbsbServer then
      match validator with
      | none => (k, none)
      | some validator =>
        let k := k.Publish
          { Validator := validator.Operator
            InfractionType := InfractionType.Downtime
            InfractionHeight := wrapInt64 (pack.SideHeight : Int)
            SlashHeight := sideCtx.BlockHeight
            JailUtil := jailUntil
            SlashAmt := slashedAmt
            ToFeePool := toFeePool
            SideChainId := sideChainName
            ValidatorsCompensation := validatorsAllocatedAmt }
        (k, some none)
    else (k, some none)

/-- Embedding of `Keeper.slashingSideDowntime` (keeper.go lines 299-389): the state reached
and the outcome, `some err` when the function returns `err` (`some none` is the return of
Go `nil`) and `none` when the Go code panics. -/
def slashingSideDowntime (env : Env) (k : Keeper) (ctx : Context) (pack : SideSlashPackage) :
    Keeper × Option (Option SdkError) :=
  let sideConsAddr := pack.SideAddr
  match k.ScKeeper.GetDestChainName pack.SideChainId with
  | none => (k, some (some (SdkError.InvalidSideChainId env.DefaultCodespace)))
  | some sideChainName =>
    match k.ScKeeper.PrepareCtxForSideChain ctx sideChainName with
    | none => (k, some (some (SdkError.InvalidSideChainId env.DefaultCodespace)))
    | some sideCtx =>
      let age := wrapUint64
        ((wrapUint64 (unixSeconds sideCtx.BlockTime) : Int) - (pack.SideTimestamp : Int))
      if age > durationSecondsUint64 (k.MaxEvidenceAge sideCtx) then
        (k, some (some (SdkError.ExpiredEvidence env.DefaultCodespace)))
      else if k.hasSlashRecord sideCtx sideConsAddr InfractionType.Downtime pack.SideHeight
      then
        (k, some (some (SdkError.DuplicateDowntimeClaim k.Codespace)))
      else
        let slashAmt := k.DowntimeSlashAmount sideCtx
        let slashed := k.SlashSideChain ctx sideChainName sideConsAddr (env.NewDec slashAmt)
        let k := slashed.1
        match slashed.2 with
        | Except.error e => (k, some (some (SdkError.FailedToSlash k.Codespace e)))
        | Except.ok (validator, slashedAmt) =>
          let downtimeClaimFee := k.DowntimeSlashFee sideCtx
          let downtimeClaimFeeReal := min downtimeClaimFee slashedAmt
          let bondDenom := k.BondDenom sideCtx
          let commitFee : Bool := decide (downtimeClaimFeeReal > 0) && ctx.IsDeliverTx
          let k := if commitFee then
              k.AddAndCommitFee "side_downtime_slash" bondDenom downtimeClaimFeeReal
            else k
          let toFeePool : Int := if commitFee then downtimeClaimFeeReal else 0
          let remaining := wrapInt64 (slashedAmt - downtimeClaimFeeReal)
          if remaining > 0 then
            let allocated := k.AllocateSlashAmtToValidators sideCtx sideConsAddr
              (env.NewDec remaining)
            let k := allocated.1
            match allocated.2 with
            | Except.error e => (k, some (some (SdkError.FailedToSlash k.Codespace e)))
            | Except.ok (found, validatorsAllocatedAmt) =>
              if !found && ctx.IsDeliverTx then
                let k := k.AddAndCommitFee "side_downtime_slash_remaining" bondDenom remaining
                let toFeePool := wrapInt64 (toFeePool + remaining)
                slashingSideDowntimeRecord env k sideCtx pack sideChainName validator
                  slashedAmt toFeePool validatorsAllocatedAmt
              else
                slashingSideDowntimeRecord env k sideCtx pack sideChainName validator
                  slashedAmt toFeePool validatorsAllocatedAmt
          else
            slashingSideDowntimeRecord env k sideCtx pack sideChainName validator slashedAmt
              toFeePool []

/-- Lines 454-487 of `slashingSideMaliciousVote`: the slash record is written, the jail
term of the signing info is extended if the new one is later, and, when a publisher is
set, the event is published.  `validator` is the validator `SlashSideChain` returned.  The
result is the state reached and the outcome: `some none` when the function returns Go
`nil`, `none` when the Go code panics, on the method call `validator.GetOperator()` of
line 474 on a nil validator. -/
def slashingSideMaliciousVoteRecord (k : Keeper) (sideCtx : Context)
    (pack : SideSlashPackage) (sideChainName : String) (sideConsAddr : Bytes)
    (signInfo : ValidatorSigningInfo) (validator : Option Validator) (slashedAmt : Dec)
    (toFeePool : Int) (validatorsCompensation : List (String × Int)) :
    Keeper × Option (Option SdkError) :=
  let jailUntil := sideCtx.BlockTime + k.DoubleSignUnbondDuration sideCtx
  let sr : SlashRecord :=
    { ConsAddr := sideConsAddr
      InfractionType := InfractionType.MaliciousVote
      InfractionHeight := pack.SideHeight
      SlashHeight := sideCtx.BlockHeight
      JailUntil := jailUntil
      SlashAmt := slashedAmt
      SideChainId := sideChainName }
  let k := k.setSlashRecord sideCtx sr
  let signInfo :=
    if jailUntil > signInfo.JailedUntil then { signInfo with JailedUntil := jailUntil }
    else signInfo
  let k := k.setValidatorSigningInfo sideCtx sideConsAddr signInfo
  if k.PbsbServer then
    match validator with
    | none => (k, none)
    | some validator =>
      let k := k.Publish
        { Validator := validator.Operator
          InfractionType := InfractionType.MaliciousVote
          InfractionHeight := wrapInt64 (pack.SideHeight : Int)
          SlashHeight := sideCtx.BlockHeight
          JailUtil := jailUntil
          SlashAmt := slashedAmt
          ToFeePool := toFeePool
          SideChainId := sideChainName
          ValidatorsCompensation := validatorsCompensation }
      (k, some none)
  else (k, some none)

/-- Embedding of `Keeper.slashingSideMaliciousVote` (keeper.go lines 391-488): the state
reached and the outcome, `some err` when the function returns `err` (`some none` is the
return of Go `nil`) and `none` when the Go code panics. -/
def slashingSideMaliciousVote (env : Env) (k : Keeper) (ctx : Context)
    (pack : SideSlashPackage) : Keeper × Option (Option SdkError) :=
  let sideVoteAddr := pack.SideAddr
  match k.ScKeeper.GetDestChainName pack.SideChainId with
  | none => (k, some (some (SdkError.InvalidSideChainId env.DefaultCodespace)))
  | some sideChainName =>
    match k.ScKeeper.PrepareCtxForSideChain ctx sideChainName with
    | none => (k, some (some (SdkError.InvalidSideChainId env.DefaultCodespace)))
    | some sideCtx =>
      let age := wrapUint64
        ((wrapUint64 (unixSeconds sideCtx.BlockTime) : Int) - (pack.SideTimestamp : Int))
      let maxEvidenceAge := durationSecondsUint64 (k.MaxEvidenceAge sideCtx)
      if age > maxEvidenceAge then
        (k, some (some (SdkError.ExpiredEvidence env.DefaultCodespace)))
      else
        match k.ValidatorByVoteAddr sideCtx sideVoteAddr with
        | none => (k, some (some (SdkError.NoValidatorWithVoteAddr k.Codespace)))
        | some validator =>
          let sideConsAddr := validator.SideChainConsAddr
          match k.getValidatorSigningInfo sideCtx sideConsAddr with
          | none =>
            (k, some (some (SdkError.Internal
              ("Expected signing info for validator " ++ env.HexEncode sideConsAddr
                ++ " but not found"))))
          | some signInfo =>
            if k.isMaliciousVoteSlashed sideCtx sideConsAddr
                && decide (pack.SideTimestamp < wrapUint64 (unixSeconds signInfo.JailedUntil))
            then
              (k, some (some (SdkError.FailedToSlash k.Codespace
                "still in duration of lastest malicious vote slash")))
            else if k.hasSlashRecord sideCtx sideConsAddr InfractionType.MaliciousVote
                pack.SideHeight then
              (k, some (some (SdkError.DuplicateMaliciousVoteClaim k.Codespace)))
            else
              let slashAmt := k.DoubleSignSlashAmount sideCtx
              let slashed := k.SlashSideChain ctx sideChainName sideConsAddr
                (env.NewDec slashAmt)
              let k := slashed.1
              match slashed.2 with
              | Except.error e => (k, some (some (SdkError.FailedToSlash k.Codespace e)))
              | Except.ok (validator, slashedAmt) =>
                if slashAmt > 0 then
                  let allocated := k.AllocateSlashAmtToValidators sideCtx sideConsAddr
                    (env.NewDec slashAmt)
                  let k := allocated.1
                  match allocated.2 with
                  | Except.error e =>
                    (k, some (some (SdkError.FailedToSlash k.Codespace e)))
                  | Except.ok (found, validatorsCompensation) =>
                    if !found && ctx.IsDeliverTx then
                      let bondDenom := k.BondDenom sideCtx
                      let toFeePool := slashAmt
                      let k := k.AddAndCommitFee "side_malicious_vote_slash" bondDenom slashAmt
                      slashingSideMaliciousVoteRecord k sideCtx pack sideChainName sideConsAddr
                        signInfo validator slashedAmt toFeePool validatorsCompensation
                    else
                      slashingSideMaliciousVoteRecord k sideCtx pack sideChainName sideConsAddr
                        signInfo validator slashedAmt 0 validatorsCompensation
                else
                  slashingSideMaliciousVoteRecord k sideCtx pack sideChainName sideConsAddr
                    signInfo validator slashedAmt 0 []

/-- Embedding of `Keeper.checkSideSlashPackage` (keeper.go lines 270-297). -/
def checkSideSlashPackage (env : Env) (k : Keeper) (payload : Bytes) :
    Except SdkError SideSlashPackage :=
  match env.DecodeBytes payload with
  | none => Except.error (SdkError.InvalidInput k.Codespace "failed to parse the payload")
  | some slashEvent =>
    let classified : Except SdkError SideSlashPackage :=
      if slashEvent.SideAddr.length = env.AddrLen then
        Except.ok { slashEvent with addrType := env.SideConsAddrType }
      else if slashEvent.SideAddr.length = env.VoteAddrLen then
        Except.ok { slashEvent with addrType := env.SideVoteAddrType }
      else
        Except.error (SdkError.InvalidClaim k.Codespace
          ("wrong sideAddr length:" ++ toString slashEvent.SideAddr.length ++ ", expected:"
            ++ toString env.AddrLen ++ " or " ++ toString env.VoteAddrLen))
    match classified with
    | Except.error e => Except.error e
    | Except.ok slashEvent =>
      if slashEvent.SideHeight ≤ 0 then
        Except.error (SdkError.InvalidClaim k.Codespace "side height must be positive")
      else if (slashEvent.SideHeight : Int) > MaxInt64 then
        Except.error (SdkError.InvalidClaim k.Codespace "side height overflow")
      else if slashEvent.SideTimestamp ≤ 0 then
        Except.error (SdkError.InvalidClaim k.Codespace "invalid side timestamp")
      else Except.ok slashEvent

/-- Modelled from the spec: `sTypes.GenCommonAckPackage` (not part of the presented
sources): every result code has an ack, the record wrapping it (spec 4.5.2 and 6). -/
def GenCommonAckPackage (resCode : Nat) : Except String CommonAckPackage :=
  Except.ok { Code := resCode }

/-- Embedding of `Keeper.ExecuteSynPackage` (keeper.go lines 238-260): the state left and
the result; `none` is a panic, of the handler or on a failed ack encoding. -/
def ExecuteSynPackage (env : Env) (k : Keeper) (ctx : Context) (payload : Bytes)
    (_ : Int) : Option (Keeper × ExecuteResult) :=
  let handled : Keeper × Option (Option SdkError) :=
    match k.checkSideSlashPackage env payload with
    | Except.ok sideSlashPack =>
      if sideSlashPack.addrType = env.SideConsAddrType then
        k.slashingSideDowntime env ctx sideSlashPack
      else if sideSlashPack.addrType = env.SideVoteAddrType then
        k.slashingSideMaliciousVote env ctx sideSlashPack
      else (k, some none)
    | Except.error e => (k, some (some e))
  let k := handled.1
  match handled.2 with
  | none => none
  | some err =>
    let resCode : Nat :=
      match err with
      | some e => env.ABCICode e % 4294967296
      | none => 0
    match GenCommonAckPackage resCode with
    | Except.error _ => none
    | Except.ok ackPackage => some (k, { Payload := ackPackage, Err := err })

/-- Parameter accessor `k.SlashFractionDoubleSign(ctx)`. -/
def SlashFractionDoubleSign (k : Keeper) (ctx : Context) : Dec :=
  (k.params ctx.sideChainScope).SlashFractionDoubleSign

/-- The duration `t.Sub(u)` between two times: their difference in nanoseconds, or the
largest (smallest) duration when the difference does not fit an `int64`. -/
def timeSub (t u : Int) : Int :=
  if t - u > MaxInt64 then MaxInt64
  else if t - u < MinInt64 then MinInt64
  else t - u

/-- Embedding of `Keeper.handleDoubleSign` (keeper.go lines 72-126).  The result is `none`
when the Go code panics: unknown pubkey, a nil validator (the method call
`validator.GetJailed()` on nil), or missing signing info. -/
def handleDoubleSign (env : Env) (k : Keeper) (ctx : Context) (addr : Bytes)
    (infractionHeight : Int) (timestamp : Int) (power : Int) : Option Keeper :=
  let time := ctx.BlockTime
  let age := timeSub time timestamp
  let consAddr := addr
  match k.getPubkey ctx addr with
  | none => none
  | some _ =>
    let maxEvidenceAge := k.MaxEvidenceAge ctx
    if age > maxEvidenceAge then some k
    else
      let distributionHeight := wrapInt64 (infractionHeight - env.ValidatorUpdateDelay)
      let fraction := k.SlashFractionDoubleSign ctx
      let revisedFraction := env.capBySlashingPeriod ctx consAddr fraction distributionHeight
      let k := k.Slash ctx consAddr distributionHeight power revisedFraction
      match k.ValidatorByConsAddr ctx consAddr with
      | none => none
      | some validator =>
        let k := if !validator.Jailed then k.Jail ctx consAddr else k
        match k.getValidatorSigningInfo ctx consAddr with
        | none => none
        | some signInfo =>
          let signInfo := { signInfo with
            JailedUntil := (time + k.DoubleSignUnbondDuration ctx) }
          some (k.setValidatorSigningInfo ctx consAddr signInfo)

/-- Number of set bits of the validator's missed-block bitmap among the indexes
`0 .. W-1`. -/
def missedBitsInWindow (k : Keeper) (ctx : Context) (consAddr : Bytes) (W : Int) : Int :=
  ((List.range W.toNat).countP
    (fun i => k.getValidatorMissedBlockBitArray ctx consAddr (Int.ofNat i)) : Nat)

end Keeper

/-- One observation handed to `handleValidatorSignature`: the block context, the power of
the validator and whether it signed. -/
structure Observation where
  ctx : Context
  power : Int
  signed : Bool
deriving DecidableEq, Repr

/-- Successive calls of `handleValidatorSignature` for one validator, one per observation,
each on the state left by the previous one; `none` as soon as one call panics. -/
def handleValidatorSignatures (env : Env) (k : Keeper) (addr : Bytes) :
    List Observation → Option Keeper
  | [] => some k
  | o :: os =>
    match k.handleValidatorSignature env o.ctx addr o.power o.signed with
    | none => none
    | some k' => handleValidatorSignatures env k' addr os

/-- The observations of a validator that misses the `n` blocks at heights
`s+1, ..., s+n`; `base` gives the remaining context fields, `time` and `power` the block
time and the power at each of the blocks. -/
def missedBlocks (base : Context) (s : Int) (time power : Nat → Int) (n : Nat) :
    List Observation :=
  (List.range n).map fun (i : Nat) =>
    { ctx := { base with BlockHeight := s + 1 + (i : Int), BlockTime := time i }
      power := power i
      signed := false }

/-- Whether the observation with index `j` (counted from 0) of the sequence exists and
was a miss. -/
def missedAt (obs : List Observation) (j : Nat) : Bool :=
  match obs[j]? with
  | some o => !o.signed
  | none => false

/-- The side-chain id `SideChainIdBsc` of handler.go. -/
def SideChainIdBsc : Nat := 56

/-- The side-chain id `SideChainIdChapel` of handler.go. -/
def SideChainIdChapel : Nat := 97

/-- The side-chain id `SideChainIdRialto` of handler.go. -/
def SideChainIdRialto : Nat := 714

/-- Embedding of `SideChainIdFromText` (handler.go lines 17-28): the id, or the error
message. -/
def SideChainIdFromText (env : Env) (str : String) : Except String Nat :=
  let lower := env.ToLower str
  if lower = "bsc" then Except.ok SideChainIdBsc
  else if lower = "chapel" then Except.ok SideChainIdChapel
  else if lower = "rialto" then Except.ok SideChainIdRialto
  else Except.error "Provided sidechain name is not supported."

namespace Stake

/-- The fields of `types.Validator` (package `x/stake/types`, declared outside the
presented sources) that key.go reads: the operator address, `Tokens.RawInt()` (an
`int64`), `BondHeight` (an `int64`) and `BondIntraTxCounter` (an `int16`). -/
structure Validator where
  OperatorAddr : Bytes
  Tokens : Int
  BondHeight : Int
  BondIntraTxCounter : Int
deriving DecidableEq, Repr

/-- Store prefix `ValidatorsByPowerIndexKey` of key.go. -/
def ValidatorsByPowerIndexKey : Bytes := [0x23]

/-- Store prefix `UnbondingDelegationKey` of key.go. -/
def UnbondingDelegationKey : Bytes := [0x32]

/-- Store prefix `UnbondingDelegationByValIndexKey` of key.go. -/
def UnbondingDelegationByValIndexKey : Bytes := [0x33]

/-- Store prefix `RedelegationKey` of key.go. -/
def RedelegationKey : Bytes := [0x34]

/-- Store prefix `RedelegationByValSrcIndexKey` of key.go. -/
def RedelegationByValSrcIndexKey : Bytes := [0x35]

/-- Store prefix `RedelegationByValDstIndexKey` of key.go. -/
def RedelegationByValDstIndexKey : Bytes := [0x36]

/-- Go `make([]byte, n)`: `n` zero bytes. -/
def makeBytes (n : Nat) : Bytes := List.replicate n 0

/-- Go `copy(key[lo:hi], src)` for `lo ≤ hi ≤ len(key)`: the first
`min(hi - lo, len(src))` bytes of `src` overwrite `key` from position `lo`. -/
def copyInto (key : Bytes) (lo hi : Nat) (src : Bytes) : Bytes :=
  key.take lo ++ src.take (min (hi - lo) src.length)
    ++ key.drop (lo + min (hi - lo) src.length)

/-- Go slice expression `b[lo:hi]` for `lo ≤ hi ≤ len(b)`. -/
def sliceBytes (b : Bytes) (lo hi : Nat) : Bytes := (b.take hi).drop lo

/-- The eight bytes `binary.BigEndian.PutUint64` writes for a `uint64`. -/
def bigEndianUint64 (v : Nat) : Bytes :=
  [v / 72057594037927936 % 256, v / 281474976710656 % 256, v / 1099511627776 % 256,
   v / 4294967296 % 256, v / 16777216 % 256, v / 65536 % 256, v / 256 % 256, v % 256]

/-- The two bytes `binary.BigEndian.PutUint16` writes for a `uint16`. -/
def bigEndianUint16 (v : Nat) : Bytes := [v / 256 % 256, v % 256]

/-- Conversion `uint16(x)` of a signed integer. -/
def wrapUint16 (x : Int) : Nat := (x % 65536).toNat

/-- Bitwise complement `^v` of a `uint64`. -/
def complementUint64 (v : Nat) : Nat := 18446744073709551615 - v

/-- Bitwise complement `^v` of a `uint16`. -/
def complementUint16 (v : Nat) : Nat := 65535 - v

/-- Bitwise complement `^b` of a byte. -/
def complementByte (b : Nat) : Nat := 255 - b

/-- Embedding of `getValidatorPowerRank` (key.go lines 106-128). -/
def getValidatorPowerRank (validator : Validator) : Bytes :=
  let tendermintPower := validator.Tokens
  let tendermintPowerBytes := makeBytes 8
  let tendermintPowerBytes := copyInto tendermintPowerBytes 0 8
    (bigEndianUint64 (wrapUint64 tendermintPower))
  let powerBytes := tendermintPowerBytes
  let powerBytesLen := powerBytes.length
  let key := makeBytes (1 + powerBytesLen + 8 + 2)
  let key := key.set 0 (ValidatorsByPowerIndexKey.getD 0 0)
  let key := copyInto key 1 (powerBytesLen + 1) powerBytes
  let key := copyInto key (powerBytesLen + 1) (powerBytesLen + 9)
    (bigEndianUint64 (complementUint64 (wrapUint64 validator.BondHeight)))
  let key := copyInto key (powerBytesLen + 9) (powerBytesLen + 11)
    (bigEndianUint16 (complementUint16 (wrapUint16 validator.BondIntraTxCounter)))
  key

/-- Embedding of `getValidatorPowerRankNew` (key.go lines 130-147); `AddrLen` is
`sdk.AddrLen`. -/
def getValidatorPowerRankNew (AddrLen : Nat) (validator : Validator) : Bytes :=
  let power := validator.Tokens
  let prefixLen := ValidatorsByPowerIndexKey.length
  let powerLen := 8
  let key := makeBytes (prefixLen + powerLen + AddrLen)
  let key := copyInto key 0 prefixLen ValidatorsByPowerIndexKey
  let key := copyInto key prefixLen (prefixLen + powerLen)
    (bigEndianUint64 (wrapUint64 power))
  let operAddrInvr := makeBytes validator.OperatorAddr.length
  let operAddrInvr := copyInto operAddrInvr 0 operAddrInvr.length validator.OperatorAddr
  let operAddrInvr := operAddrInvr.map complementByte
  let key := copyInto key (prefixLen + powerLen) key.length operAddrInvr
  key

/-- Embedding of `GetUBDsKey` (key.go). -/
def GetUBDsKey (delAddr : Bytes) : Bytes := UnbondingDelegationKey ++ delAddr

/-- Embedding of `GetUBDKey` (key.go lines 198-202). -/
def GetUBDKey (delAddr valAddr : Bytes) : Bytes := GetUBDsKey delAddr ++ valAddr

/-- Embedding of `GetUBDsByValIndexKey` (key.go). -/
def GetUBDsByValIndexKey (valAddr : Bytes) : Bytes :=
  UnbondingDelegationByValIndexKey ++ valAddr

/-- Embedding of `GetUBDByValIndexKey` (key.go lines 206-208). -/
def GetUBDByValIndexKey (delAddr valAddr : Bytes) : Bytes :=
  GetUBDsByValIndexKey valAddr ++ delAddr

/-- Embedding of `GetUBDKeyFromValIndexKey` (key.go lines 211-219); `none` is a panic:
the slice `IndexKey[1:]` of an empty key, or "unexpected key length". -/
def GetUBDKeyFromValIndexKey (AddrLen : Nat) (IndexKey : Bytes) : Option Bytes :=
  if IndexKey.length < 1 then none
  else
    let addrs := IndexKey.drop 1
    if addrs.length ≠ 2 * AddrLen then none
    else
      let valAddr := sliceBytes addrs 0 AddrLen
      let delAddr := sliceBytes addrs AddrLen addrs.length
      some (GetUBDKey delAddr valAddr)

/-- Embedding of `GetREDsKey` (key.go). -/
def GetREDsKey (delAddr : Bytes) : Bytes := RedelegationKey ++ delAddr

/-- Embedding of `GetREDsFromValSrcIndexKey` (key.go). -/
def GetREDsFromValSrcIndexKey (valSrcAddr : Bytes) : Bytes :=
  RedelegationByValSrcIndexKey ++ valSrcAddr

/-- Embedding of `GetREDsToValDstIndexKey` (key.go). -/
def GetREDsToValDstIndexKey (valDstAddr : Bytes) : Bytes :=
  RedelegationByValDstIndexKey ++ valDstAddr

/-- Embedding of `GetREDKey` (key.go lines 243-251). -/
def GetREDKey (AddrLen : Nat) (delAddr valSrcAddr valDstAddr : Bytes) : Bytes :=
  let key := makeBytes (1 + AddrLen * 3)
  let key := copyInto key 0 (AddrLen + 1) (GetREDsKey delAddr)
  let key := copyInto key (AddrLen + 1) (2 * AddrLen + 1) valSrcAddr
  let key := copyInto key (2 * AddrLen + 1) (3 * AddrLen + 1) valDstAddr
  key

/-- Embedding of `GetREDByValSrcIndexKey` (key.go lines 255-265). -/
def GetREDByValSrcIndexKey (AddrLen : Nat) (delAddr valSrcAddr valDstAddr : Bytes) :
    Bytes :=
  let REDSFromValsSrcKey := GetREDsFromValSrcIndexKey valSrcAddr
  let offset := REDSFromValsSrcKey.length
  let key := makeBytes (REDSFromValsSrcKey.length + 2 * AddrLen)
  let key := copyInto key 0 offset REDSFromValsSrcKey
  let key := copyInto key offset (offset + AddrLen) delAddr
  let key := copyInto key (offset + AddrLen) (offset + 2 * AddrLen) valDstAddr
  key

/-- Embedding of `GetREDByValDstIndexKey` (key.go lines 269-281). -/
def GetREDByValDstIndexKey (AddrLen : Nat) (delAddr valSrcAddr valDstAddr : Bytes) :
    Bytes :=
  let REDSToValsDstKey := GetREDsToValDstIndexKey valDstAddr
  let offset := REDSToValsDstKey.length
  let key := makeBytes (REDSToValsDstKey.length + 2 * AddrLen)
  let key := copyInto key 0 offset REDSToValsDstKey
  let key := copyInto key offset (offset + AddrLen) delAddr
  let key := copyInto key (offset + AddrLen) (offset + 2 * AddrLen) valSrcAddr
  key

/-- Embedding of `GetREDKeyFromValSrcIndexKey` (key.go lines 284-294); `none` is the
panic "unexpected key length". -/
def GetREDKeyFromValSrcIndexKey (AddrLen : Nat) (indexKey : Bytes) : Option Bytes :=
  if indexKey.length ≠ 3 * AddrLen + 1 then none
  else
    let valSrcAddr := sliceBytes indexKey 1 (AddrLen + 1)
    let delAddr := sliceBytes indexKey (AddrLen + 1) (2 * AddrLen + 1)
    let valDstAddr := sliceBytes indexKey (2 * AddrLen + 1) (3 * AddrLen + 1)
    some (GetREDKey AddrLen delAddr valSrcAddr valDstAddr)

/-- Embedding of `GetREDKeyFromValDstIndexKey` (key.go lines 297-307); `none` is the
panic "unexpected key length". -/
def GetREDKeyFromValDstIndexKey (AddrLen : Nat) (indexKey : Bytes) : Option Bytes :=
  if indexKey.length ≠ 3 * AddrLen + 1 then none
  else
    let valDstAddr := sliceBytes indexKey 1 (AddrLen + 1)
    let delAddr := sliceBytes indexKey (AddrLen + 1) (2 * AddrLen + 1)
    let valSrcAddr := sliceBytes indexKey (2 * AddrLen + 1) (3 * AddrLen + 1)
    some (GetREDKey AddrLen delAddr valSrcAddr valDstAddr)

/-- The number a byte string denotes when read big-endian. -/
def beValue : Bytes → Nat
  | [] => 0
  | b :: bs => b * 256 ^ bs.length + beValue bs

end Stake

/-! ## Concrete data used to instantiate the theorems -/

/-- A stand-in for the RLP decoder: the payload lists chain id, height and timestamp,
followed by the bytes of the address. -/
def exampleDecodeBytes : Bytes → Option SideSlashPackage
  | chainId :: height :: timestamp :: sideAddr =>
    some { SideAddr := sideAddr, SideHeight := height, SideChainId := chainId,
           SideTimestamp := timestamp, addrType := 0 }
  | _ => none

/-- A stand-in for the result codes: the codespace (16 bits) in the high half, a number
per kind of error in the low half. -/
def exampleABCICode : SdkError → Nat
  | SdkError.InvalidInput cs _ => (cs % 65536) * 65536 + 101
  | SdkError.InvalidClaim cs _ => (cs % 65536) * 65536 + 102
  | SdkError.InvalidSideChainId cs => (cs % 65536) * 65536 + 103
  | SdkError.ExpiredEvidence cs => (cs % 65536) * 65536 + 104
  | SdkError.DuplicateDowntimeClaim cs => (cs % 65536) * 65536 + 105
  | SdkError.DuplicateMaliciousVoteClaim cs => (cs % 65536) * 65536 + 106
  | SdkError.NoValidatorWithVoteAddr cs => (cs % 65536) * 65536 + 107
  | SdkError.FailedToSlash cs _ => (cs % 65536) * 65536 + 108
  | SdkError.Internal _ => 65536 + 1

/-- A stand-in for `strings.ToLower`: the letters `A` to `Z` are lower-cased, every
other character is kept. -/
def exampleToLower (s : String) : String := String.mk (s.data.map Char.toLower)

/-- Constants as in the repository: 20-byte addresses, 48-byte vote addresses, a
validator-update delay of one block; stand-ins for the helpers (no cap by slashing
period, lower-casing of the letters `A` to `Z`). -/
def exampleEnv : Env :=
  { AddrLen := 20
    VoteAddrLen := 48
    ValidatorUpdateDelay := 1
    NewDec := fun i => i
    SideConsAddrType := 1
    SideVoteAddrType := 2
    DefaultCodespace := 10
    HexEncode := fun b => toString b
    ABCICode := exampleABCICode
    DecodeBytes := exampleDecodeBytes
    capBySlashingPeriod := fun _ _ fraction _ => fraction
    ToLower := exampleToLower }

/-- Parameters with window `W` and minimum `M`; the remaining values are fixed. -/
def exampleParams (W M : Int) : Params :=
  { MaxEvidenceAge := 120000000000
    SignedBlocksWindow := W
    MinSignedPerWindow := M
    DoubleSignUnbondDuration := 300000000000
    DowntimeUnbondDuration := 60000000000
    SlashFractionDoubleSign := 5000000
    SlashFractionDowntime := 1000000
    DoubleSignSlashAmount := 2000
    DowntimeSlashAmount := 1000
    DowntimeSlashFee := 100 }

/-- A validator set that answers every lookup with `v`, slashes the full requested amount
and finds no recipient for allocations. -/
def exampleValidatorSet (v : Option Validator) : ValidatorSet :=
  { ValidatorByConsAddr := fun _ _ _ => v
    ValidatorByVoteAddr := fun _ _ _ => v
    SlashSideChain := fun _ _ _ _ amount =>
      match v with
      | some val => Except.ok (some val, amount)
      | none => Except.error "validator not found"
    AllocateSlashAmtToValidators := fun _ _ _ _ => Except.ok (false, [])
    BondDenom := fun _ _ => "BNB" }

/-- A side-chain keeper that knows the chain id 56 under the name "bsc". -/
def exampleScKeeper : SideChainKeeper :=
  { GetDestChainName := fun id => if id = 56 then some "bsc" else none
    PrepareCtxForSideChain := fun ctx name =>
      if name = "bsc" then some { ctx with sideChainScope := [98, 115, 99] } else none }

/-- A keeper in which every address has a pubkey, every validator has the signing info
`info` and the missed-block bitmap `bits`, and no call has been made yet. -/
def exampleKeeper (p : Params) (info : Option ValidatorSigningInfo) (bits : Int → Bool)
    (v : Option Validator) : Keeper :=
  { Codespace := 10
    validatorSet := exampleValidatorSet v
    ScKeeper := exampleScKeeper
    PbsbServer := true
    params := fun _ => p
    addrPubkey := fun _ a => some a
    signingInfo := fun _ _ => info
    missedBlockBitArray := fun _ _ i => bits i
    slashRecords := fun _ => []
    calls := []
    feePool := []
    published := [] }

/-- A main-chain deliver-tx context at the given height and time. -/
def exampleCtx (height time : Int) : Context :=
  { BlockHeight := height, BlockTime := time, IsDeliverTx := true, sideChainScope := [] }

/-- An unjailed validator. -/
def exampleValidator : Validator :=
  { Jailed := false, Operator := [7], SideChainConsAddr := [9] }

/-- Signing info of a validator observed five times since height 0, with two misses. -/
def downtimeInfo : ValidatorSigningInfo :=
  { StartHeight := 0, IndexOffset := 5, JailedUntil := 0, MissedBlocksCounter := 2 }

/-- A keeper with window 3 and minimum 2 whose validators have the signing info
`downtimeInfo` and the bits 0 and 1 of the bitmap set. -/
def downtimeKeeper (v : Option Validator) : Keeper :=
  exampleKeeper (exampleParams 3 2) (some downtimeInfo) (fun i => decide (i = 0 ∨ i = 1)) v

/-- Fresh signing info of a validator that became observable at height 0. -/
def freshInfo : ValidatorSigningInfo :=
  { StartHeight := 0, IndexOffset := 0, JailedUntil := 0, MissedBlocksCounter := 0 }

/-- A keeper with window 100 and minimum 50 whose validators are known, unjailed and have
fresh signing info and an empty bitmap. -/
def freshKeeper : Keeper :=
  exampleKeeper (exampleParams 100 50) (some freshInfo) (fun _ => false)
    (some exampleValidator)

/-- Four observations at heights 1 to 4 on the main chain: miss, signed, signed, miss. -/
def exampleObservations : List Observation :=
  [{ ctx := exampleCtx 1 10, power := 50, signed := false },
   { ctx := exampleCtx 2 20, power := 50, signed := true },
   { ctx := exampleCtx 3 30, power := 50, signed := true },
   { ctx := exampleCtx 4 40, power := 50, signed := false }]

/-- A keeper with window 3 and minimum 2 whose validators are known, unjailed and have
fresh signing info and an empty bitmap. -/
def freshSmallKeeper : Keeper :=
  exampleKeeper (exampleParams 3 2) (some freshInfo) (fun _ => false) (some exampleValidator)

/-- A payload that the stand-in decoder reads as a packet for chain 56 at side height 100
and side timestamp 950 with a 20-byte address. -/
def exampleDowntimePayload : Bytes := [56, 100, 950] ++ List.replicate 20 7

/-- The packet `checkSideSlashPackage` returns for `exampleDowntimePayload`. -/
def exampleDowntimePackage : SideSlashPackage :=
  { SideAddr := List.replicate 20 7, SideHeight := 100, SideChainId := 56,
    SideTimestamp := 950, addrType := 1 }

/-- A payload that the stand-in decoder reads as a packet with side height 0. -/
def exampleZeroHeightPayload : Bytes := [56, 0, 950] ++ List.replicate 20 7

/-- A main-chain deliver-tx context at height 500 and block time 1000 s. -/
def exampleBlockCtx : Context := exampleCtx 500 1000000000000

/-- The side-chain context `exampleScKeeper` prepares from `exampleBlockCtx`. -/
def exampleSideCtx : Context := { exampleBlockCtx with sideChainScope := [98, 115, 99] }

/-- The keeper left by applying the downtime packet `exampleDowntimePackage` to
`freshSmallKeeper`. -/
def downtimeAppliedKeeper : Keeper :=
  (freshSmallKeeper.slashingSideDowntime exampleEnv exampleBlockCtx exampleDowntimePackage).1

/-- A downtime packet for chain 56 at side height 100 whose side timestamp 800 is 200 s
before the block time of `exampleBlockCtx`. -/
def exampleOldPackage : SideSlashPackage :=
  { SideAddr := List.replicate 20 7, SideHeight := 100, SideChainId := 56,
    SideTimestamp := 800, addrType := 1 }

/-- An unjailed validator whose side-chain consensus address is the 20-byte address of the
example downtime packets. -/
def sideValidator : Validator :=
  { Jailed := false, Operator := [7], SideChainConsAddr := List.replicate 20 7 }

/-- A keeper whose validator set resolves every address to `sideValidator`, with fresh
signing info, no slash record, and the parameters of `exampleParams`. -/
def sideKeeper : Keeper :=
  exampleKeeper (exampleParams 3 2) (some freshInfo) (fun _ => false) (some sideValidator)

/-- A malicious-vote packet for chain 56 at side height 100 and side timestamp 950 with a
48-byte vote address. -/
def exampleVotePackage : SideSlashPackage :=
  { SideAddr := List.replicate 48 5, SideHeight := 100, SideChainId := 56,
    SideTimestamp := 950, addrType := 2 }

/-- The keeper left by applying the malicious-vote packet `exampleVotePackage` to
`sideKeeper` in the block of `exampleBlockCtx`. -/
def voteAppliedKeeper : Keeper :=
  (sideKeeper.slashingSideMaliciousVote exampleEnv exampleBlockCtx exampleVotePackage).1

/-- A validator set like `exampleValidatorSet` whose AllocateSlashAmtToValidators finds two
recipients. -/
def sharingValidatorSet (v : Option Validator) : ValidatorSet :=
  { exampleValidatorSet v with
    AllocateSlashAmtToValidators := fun _ _ _ _ =>
      Except.ok (true, [("val1", 500), ("val2", 400)]) }

/-- The keeper `sideKeeper` with the validator set `sharingValidatorSet`. -/
def sharingKeeper : Keeper :=
  { sideKeeper with validatorSet := sharingValidatorSet (some sideValidator) }

/-- A validator set like `exampleValidatorSet` whose validator has only 500 left to slash:
SlashSideChain takes the requested amount capped at 500 and returns what it took. -/
def poorValidatorSet (v : Option Validator) : ValidatorSet :=
  { exampleValidatorSet v with
    SlashSideChain := fun _ _ _ _ amount =>
      match v with
      | some val => Except.ok (some val, min amount 500)
      | none => Except.error "validator not found" }

/-- The keeper `sideKeeper` with the validator set `poorValidatorSet`. -/
def poorKeeper : Keeper :=
  { sideKeeper with validatorSet := poorValidatorSet (some sideValidator) }

/-- The block of `exampleBlockCtx` in check-tx phase. -/
def exampleCheckCtx : Context := { exampleBlockCtx with IsDeliverTx := false }

/-- A main-chain deliver-tx context at height 501 and block time 1010 s. -/
def laterDowntimeCtx : Context := exampleCtx 501 1010000000000

/-- A downtime packet for chain 56 at side height 101 and side timestamp 1000 for the
consensus address of `sideValidator`. -/
def laterDowntimePackage : SideSlashPackage :=
  { SideAddr := List.replicate 20 7, SideHeight := 101, SideChainId := 56,
    SideTimestamp := 1000, addrType := 1 }

/-- The keeper left by applying `laterDowntimePackage` to `voteAppliedKeeper` in the block
of `laterDowntimeCtx`. -/
def downtimeAfterVoteKeeper : Keeper :=
  (voteAppliedKeeper.slashingSideDowntime exampleEnv laterDowntimeCtx laterDowntimePackage).1

/-- A main-chain deliver-tx context at height 502 and block time 1100 s. -/
def secondVoteCtx : Context := exampleCtx 502 1100000000000

/-- A malicious-vote packet for chain 56 at side height 102 and side timestamp 1080. -/
def secondVotePackage : SideSlashPackage :=
  { SideAddr := List.replicate 48 5, SideHeight := 102, SideChainId := 56,
    SideTimestamp := 1080, addrType := 2 }

/-- A keeper like `freshSmallKeeper` whose validators are jailed until 5000 s. -/
def longJailedKeeper : Keeper :=
  exampleKeeper (exampleParams 3 2) (some { freshInfo with JailedUntil := 5000000000000 })
    (fun _ => false) (some exampleValidator)

/-- A downtime packet for chain 56 whose side timestamp 2000 is 1000 s after the block
time of `exampleBlockCtx`. -/
def exampleFuturePackage : SideSlashPackage :=
  { SideAddr := List.replicate 20 7, SideHeight := 100, SideChainId := 56,
    SideTimestamp := 2000, addrType := 1 }

/-- A keeper like `sideKeeper` with a MaxEvidenceAge of 2 000 000 000 s. -/
def longAgeKeeper : Keeper :=
  exampleKeeper { exampleParams 3 2 with MaxEvidenceAge := 2000000000000000000 }
    (some freshInfo) (fun _ => false) (some sideValidator)

/-- A main-chain deliver-tx context at height 500 and block time 1 700 000 000 s. -/
def recentBlockCtx : Context := exampleCtx 500 1700000000000000000

/-- A downtime packet for chain 56 whose side timestamp is the largest `uint64`. -/
def farFuturePackage : SideSlashPackage :=
  { SideAddr := List.replicate 20 7, SideHeight := 100, SideChainId := 56,
    SideTimestamp := 18446744073709551615, addrType := 1 }

/-- A malicious-vote packet for chain 56 whose side timestamp is the largest `uint64`. -/
def farFutureVotePackage : SideSlashPackage :=
  { SideAddr := List.replicate 48 5, SideHeight := 100, SideChainId := 56,
    SideTimestamp := 18446744073709551615, addrType := 2 }

/-- A validator set like `exampleValidatorSet` whose AllocateSlashAmtToValidators fails. -/
def failingAllocationValidatorSet (v : Option Validator) : ValidatorSet :=
  { exampleValidatorSet v with
    AllocateSlashAmtToValidators := fun _ _ _ _ => Except.error "allocation failed" }

/-- The keeper `sideKeeper` with the validator set `failingAllocationValidatorSet`. -/
def failingAllocationKeeper : Keeper :=
  { sideKeeper with validatorSet := failingAllocationValidatorSet (some sideValidator) }

/-- A keeper like `sideKeeper` in which no validator has signing info. -/
def noSigningInfoKeeper : Keeper :=
  exampleKeeper (exampleParams 3 2) none (fun _ => false) (some sideValidator)

/-- A validator set like `exampleValidatorSet` that no longer finds the validator to
slash: SlashSideChain slashes nothing and returns a nil validator without an error. -/
def vanishedValidatorSet (v : Option Validator) : ValidatorSet :=
  { exampleValidatorSet v with
    SlashSideChain := fun _ _ _ _ _ => Except.ok (none, 0) }

/-- The keeper `sideKeeper` with the validator set `vanishedValidatorSet`. -/
def vanishedKeeper : Keeper :=
  { sideKeeper with validatorSet := vanishedValidatorSet (some sideValidator) }

/-- A keeper like `sideKeeper` with a MaxEvidenceAge of 16 777 216.999 999 999 s, one
nanosecond short of 16 777 217 s. -/
def roundedAgeKeeper : Keeper :=
  exampleKeeper { exampleParams 3 2 with MaxEvidenceAge := 16777216999999999 }
    (some freshInfo) (fun _ => false) (some sideValidator)

/-- A downtime packet for chain 56 whose side timestamp is 16 777 217 s before the block
time of `recentBlockCtx`. -/
def roundedAgePackage : SideSlashPackage :=
  { SideAddr := List.replicate 20 7, SideHeight := 100, SideChainId := 56,
    SideTimestamp := 1683222783, addrType := 1 }

/-- A malicious-vote packet for chain 56 whose side timestamp is 16 777 217 s before the
block time of `recentBlockCtx`. -/
def roundedAgeVotePackage : SideSlashPackage :=
  { SideAddr := List.replicate 48 5, SideHeight := 100, SideChainId := 56,
    SideTimestamp := 1683222783, addrType := 2 }

/-- An unjailed validator with another side-chain consensus address than
`sideValidator`. -/
def otherValidator : Validator :=
  { Jailed := false, Operator := [8], SideChainConsAddr := List.replicate 20 8 }

/-- A validator set like `exampleValidatorSet` in which every vote address resolves to
`sideValidator` as long as no call was made, and to `otherValidator` afterwards. -/
def movingValidatorSet : ValidatorSet :=
  { exampleValidatorSet (some sideValidator) with
    ValidatorByVoteAddr := fun calls _ _ =>
      if calls.isEmpty then some sideValidator else some otherValidator }

/-- The keeper `sideKeeper` with the validator set `movingValidatorSet`. -/
def movingKeeper : Keeper :=
  { sideKeeper with validatorSet := movingValidatorSet }

/-- The keeper left by applying the malicious-vote packet `exampleVotePackage` to
`movingKeeper` in the block of `exampleBlockCtx`. -/
def movedKeeper : Keeper :=
  (movingKeeper.slashingSideMaliciousVote exampleEnv exampleBlockCtx exampleVotePackage).1

/-- A side-chain keeper like `exampleScKeeper` that prepares the chain "bsc" in another
store scope above height 500. -/
def shiftingScKeeper : SideChainKeeper :=
  { GetDestChainName := fun id => if id = 56 then some "bsc" else none
    PrepareCtxForSideChain := fun ctx name =>
      if name = "bsc" then
        some { ctx with sideChainScope := if ctx.BlockHeight ≤ 500 then [98, 115, 99] else [1] }
      else none }

/-- The keeper `sideKeeper` with the side-chain keeper `shiftingScKeeper`. -/
def shiftingKeeper : Keeper :=
  { sideKeeper with ScKeeper := shiftingScKeeper }

/-- The keeper left by applying the malicious-vote packet `exampleVotePackage` to
`shiftingKeeper` in the block of `exampleBlockCtx`. -/
def shiftedKeeper : Keeper :=
  (shiftingKeeper.slashingSideMaliciousVote exampleEnv exampleBlockCtx exampleVotePackage).1

/-! ## Theorems -/

section Arithmetic

theorem wrapInt64_eq_self {x : Int} (hlo : -9223372036854775808 ≤ x)
    (hhi : x ≤ 9223372036854775807) : wrapInt64 x = x := by
  unfold wrapInt64
  omega

/-- Counting the set bits of a bit function on `0 .. n-1` after one bit inside the range
was overwritten. -/
theorem countP_range_overwrite (f : Nat → Bool) (b : Bool) (j n : Nat) (hj : j < n) :
    (((List.range n).countP (fun i => if i = j then b else f i) : Nat) : Int)
      = ((List.range n).countP f : Nat) - (if f j then 1 else 0) + (if b then 1 else 0) := by
  induction n with
  | zero => omega
  | succ n ih =>
    rw [List.range_succ, List.countP_append, List.countP_append]
    by_cases hjn : j = n
    · subst hjn
      have hsame : (List.range j).countP (fun i => if i = j then b else f i)
          = (List.range j).countP f := by
        apply List.countP_congr
        intro i hi
        have : i ≠ j := Nat.ne_of_lt (List.mem_range.mp hi)
        simp [this]
      rw [hsame]
      cases hb : b <;> cases hf : f j <;> simp [List.countP_cons, hf]
    · have hlt : j < n := by omega
      have ih' := ih hlt
      have hn : n ≠ j := fun h => hjn h.symm
      simp only [List.countP_cons, List.countP_nil, hn, if_false] at ih' ⊢
      push_cast
      omega

end Arithmetic

namespace Keeper

section SingleCall

variable (env : Env) (k : Keeper) (ctx : Context) (addr : Bytes) (power : Int)
  (signed : Bool) (info : ValidatorSigningInfo)

theorem updateSignedBlockBit_calls :
    (k.updateSignedBlockBit ctx addr info signed).1.calls = k.calls := by
  unfold updateSignedBlockBit
  simp only []
  split_ifs <;> rfl

theorem updateSignedBlockBit_params :
    (k.updateSignedBlockBit ctx addr info signed).1.params = k.params := by
  unfold updateSignedBlockBit
  simp only []
  split_ifs <;> rfl

theorem updateSignedBlockBit_validatorSet :
    (k.updateSignedBlockBit ctx addr info signed).1.validatorSet = k.validatorSet := by
  unfold updateSignedBlockBit
  simp only []
  split_ifs <;> rfl

theorem updateSignedBlockBit_StartHeight :
    (k.updateSignedBlockBit ctx addr info signed).2.StartHeight = info.StartHeight := by
  unfold updateSignedBlockBit
  simp only []
  split_ifs <;> rfl

theorem updateSignedBlockBit_JailedUntil :
    (k.updateSignedBlockBit ctx addr info signed).2.JailedUntil = info.JailedUntil := by
  unfold updateSignedBlockBit
  simp only []
  split_ifs <;> rfl

theorem updateSignedBlockBit_IndexOffset :
    (k.updateSignedBlockBit ctx addr info signed).2.IndexOffset
      = wrapInt64 (info.IndexOffset + 1) := by
  unfold updateSignedBlockBit
  simp only []
  split_ifs <;> rfl

/-- The state in which a call that does not slash leaves the keeper: the bit and counter
update, persisted. -/
theorem handleValidatorSignature_quiet (pk : Bytes)
    (hpk : k.getPubkey ctx addr = some pk)
    (hinfo : k.getValidatorSigningInfo ctx addr = some info)
    (hW : k.SignedBlocksWindow ctx ≠ 0)
    (hq : ¬ (ctx.BlockHeight > wrapInt64 (info.StartHeight + k.SignedBlocksWindow ctx)
        ∧ (k.updateSignedBlockBit ctx addr info signed).2.MissedBlocksCounter
            > wrapInt64 (k.SignedBlocksWindow ctx - k.MinSignedPerWindow ctx)
        ∧ ∃ v, k.ValidatorByConsAddr ctx addr = some v ∧ v.Jailed = false)) :
    k.handleValidatorSignature env ctx addr power signed
      = some ((k.updateSignedBlockBit ctx addr info signed).1.setValidatorSigningInfo ctx
          addr (k.updateSignedBlockBit ctx addr info signed).2) := by
  have hc := updateSignedBlockBit_calls k ctx addr signed info
  have hp := updateSignedBlockBit_params k ctx addr signed info
  have hv := updateSignedBlockBit_validatorSet k ctx addr signed info
  have hs := updateSignedBlockBit_StartHeight k ctx addr signed info
  unfold handleValidatorSignature
  simp only [hpk, hinfo, hW, if_false]
  simp only [SignedBlocksWindow, MinSignedPerWindow, ValidatorByConsAddr, hc, hp, hv, hs]
    at hq ⊢
  split_ifs with hg
  · cases hval : k.validatorSet.ValidatorByConsAddr k.calls ctx addr with
    | none => rfl
    | some v =>
      cases hj : v.Jailed with
      | true => simp [hj]
      | false => exact absurd ⟨hg.1, hg.2, v, hval, hj⟩ hq
  · rfl

/-- The state in which a call that slashes leaves the keeper. -/
theorem handleValidatorSignature_fires (pk : Bytes) (v : Validator)
    (hpk : k.getPubkey ctx addr = some pk)
    (hinfo : k.getValidatorSigningInfo ctx addr = some info)
    (hW : k.SignedBlocksWindow ctx ≠ 0)
    (hh : ctx.BlockHeight > wrapInt64 (info.StartHeight + k.SignedBlocksWindow ctx))
    (hm : (k.updateSignedBlockBit ctx addr info signed).2.MissedBlocksCounter
            > wrapInt64 (k.SignedBlocksWindow ctx - k.MinSignedPerWindow ctx))
    (hv : k.ValidatorByConsAddr ctx addr = some v) (hj : v.Jailed = false) :
    k.handleValidatorSignature env ctx addr power signed
      = some (((((k.updateSignedBlockBit ctx addr info signed).1.Slash ctx addr
            (wrapInt64 (wrapInt64 (ctx.BlockHeight - env.ValidatorUpdateDelay) - 1)) power
            (k.SlashFractionDowntime ctx)).Jail ctx addr).clearValidatorMissedBlockBitArray
            ctx addr).setValidatorSigningInfo ctx addr
          { StartHeight := info.StartHeight
            IndexOffset := 0
            JailedUntil := ctx.BlockTime + k.DowntimeUnbondDuration ctx
            MissedBlocksCounter := 0 }) := by
  have hc := updateSignedBlockBit_calls k ctx addr signed info
  have hp := updateSignedBlockBit_params k ctx addr signed info
  have hvs := updateSignedBlockBit_validatorSet k ctx addr signed info
  have hs := updateSignedBlockBit_StartHeight k ctx addr signed info
  unfold handleValidatorSignature
  simp only [hpk, hinfo, hW, if_false]
  simp only [SignedBlocksWindow, MinSignedPerWindow, ValidatorByConsAddr, hc, hp, hvs, hs,
    SlashFractionDowntime, DowntimeUnbondDuration, Slash, Jail] at hh hm hv ⊢
  simp [hh, hm, hv, hj, hs]

theorem missedBitsInWindow_set (W index : Int) (b : Bool) (h0 : 0 ≤ index)
    (hlt : index < W) :
    (k.setValidatorMissedBlockBitArray ctx addr index b).missedBitsInWindow ctx addr W
      = k.missedBitsInWindow ctx addr W
        - (if k.getValidatorMissedBlockBitArray ctx addr index then 1 else 0)
        + (if b then 1 else 0) := by
  unfold missedBitsInWindow
  have hj : index.toNat < W.toNat := by omega
  have key := countP_range_overwrite
    (fun i => k.getValidatorMissedBlockBitArray ctx addr (Int.ofNat i)) b index.toNat
    W.toNat hj
  have hidx : Int.ofNat index.toNat = index := by
    simp [Int.toNat_of_nonneg h0]
  simp only [hidx] at key
  rw [← key]
  congr 2
  funext i
  have hiff : ((i : Int) = index) ↔ (i = index.toNat) := by omega
  simp [getValidatorMissedBlockBitArray, setValidatorMissedBlockBitArray, hiff]

theorem missedBitsInWindow_bounds (W : Int) :
    0 ≤ k.missedBitsInWindow ctx addr W ∧ k.missedBitsInWindow ctx addr W ≤ max W 0 := by
  unfold missedBitsInWindow
  have h := List.countP_le_length
    (fun i => k.getValidatorMissedBlockBitArray ctx addr (Int.ofNat i))
    (l := List.range W.toNat)
  rw [List.length_range] at h
  omega

/-- After the bit and counter update the counter is again the number of set bits in the
window, provided it was so before. -/
theorem updateSignedBlockBit_counter
    (hW1 : 1 ≤ k.SignedBlocksWindow ctx) (hWmax : k.SignedBlocksWindow ctx ≤ MaxInt64)
    (hoff : 0 ≤ info.IndexOffset)
    (hinv : info.MissedBlocksCounter
      = k.missedBitsInWindow ctx addr (k.SignedBlocksWindow ctx)) :
    (k.updateSignedBlockBit ctx addr info signed).2.MissedBlocksCounter
      = (k.updateSignedBlockBit ctx addr info signed).1.missedBitsInWindow ctx addr
          (k.SignedBlocksWindow ctx) := by
  have hi0 : 0 ≤ Int.tmod info.IndexOffset (k.SignedBlocksWindow ctx) :=
    Int.tmod_nonneg _ hoff
  have hilt : Int.tmod info.IndexOffset (k.SignedBlocksWindow ctx)
      < k.SignedBlocksWindow ctx := Int.tmod_lt_of_pos _ (by omega)
  have hb := missedBitsInWindow_bounds k ctx addr (k.SignedBlocksWindow ctx)
  unfold MaxInt64 at hWmax
  unfold updateSignedBlockBit
  simp only []
  split_ifs with h1 h2
  · have hset := missedBitsInWindow_set k ctx addr (k.SignedBlocksWindow ctx) _ true hi0 hilt
    have hb2 := missedBitsInWindow_bounds
      (k.setValidatorMissedBlockBitArray ctx addr
        (Int.tmod info.IndexOffset (k.SignedBlocksWindow ctx)) true) ctx addr
      (k.SignedBlocksWindow ctx)
    simp only [Bool.and_eq_true, Bool.not_eq_true'] at h1
    simp only [h1.1, if_true, Bool.false_eq_true, if_false] at hset
    simp only [hset] at hb2 ⊢
    rw [wrapInt64_eq_self (by omega) (by omega)]
    omega
  · have hset := missedBitsInWindow_set k ctx addr (k.SignedBlocksWindow ctx) _ false hi0 hilt
    have hb2 := missedBitsInWindow_bounds
      (k.setValidatorMissedBlockBitArray ctx addr
        (Int.tmod info.IndexOffset (k.SignedBlocksWindow ctx)) false) ctx addr
      (k.SignedBlocksWindow ctx)
    simp only [Bool.and_eq_true, Bool.not_eq_true'] at h2
    simp only [h2.1, if_true, Bool.false_eq_true, if_false] at hset
    simp only [hset] at hb2 ⊢
    rw [wrapInt64_eq_self (by omega) (by omega)]
    omega
  · exact hinv

theorem getValidatorSigningInfo_set (i : ValidatorSigningInfo) :
    (k.setValidatorSigningInfo ctx addr i).getValidatorSigningInfo ctx addr = some i := by
  simp [getValidatorSigningInfo, setValidatorSigningInfo]

theorem missedBitsInWindow_setValidatorSigningInfo (i : ValidatorSigningInfo) (W : Int) :
    (k.setValidatorSigningInfo ctx addr i).missedBitsInWindow ctx addr W
      = k.missedBitsInWindow ctx addr W := rfl

theorem missedBitsInWindow_clear (W : Int) :
    (k.clearValidatorMissedBlockBitArray ctx addr).missedBitsInWindow ctx addr W = 0 := by
  simp [missedBitsInWindow, getValidatorMissedBlockBitArray,
    clearValidatorMissedBlockBitArray]

theorem quiet_calls (i : ValidatorSigningInfo) :
    ((k.updateSignedBlockBit ctx addr info signed).1.setValidatorSigningInfo ctx addr
      i).calls = k.calls :=
  updateSignedBlockBit_calls k ctx addr signed info

/-- Every call that returns either leaves the quiet state or the slashed state. -/
theorem handleValidatorSignature_cases (pk : Bytes)
    (hpk : k.getPubkey ctx addr = some pk)
    (hinfo : k.getValidatorSigningInfo ctx addr = some info)
    (hW : k.SignedBlocksWindow ctx ≠ 0) :
    (k.handleValidatorSignature env ctx addr power signed
        = some ((k.updateSignedBlockBit ctx addr info signed).1.setValidatorSigningInfo ctx
            addr (k.updateSignedBlockBit ctx addr info signed).2)
      ∧ ¬ (ctx.BlockHeight > wrapInt64 (info.StartHeight + k.SignedBlocksWindow ctx)
        ∧ (k.updateSignedBlockBit ctx addr info signed).2.MissedBlocksCounter
            > wrapInt64 (k.SignedBlocksWindow ctx - k.MinSignedPerWindow ctx)
        ∧ ∃ v, k.ValidatorByConsAddr ctx addr = some v ∧ v.Jailed = false))
    ∨ (k.handleValidatorSignature env ctx addr power signed
        = some (((((k.updateSignedBlockBit ctx addr info signed).1.Slash ctx addr
            (wrapInt64 (wrapInt64 (ctx.BlockHeight - env.ValidatorUpdateDelay) - 1)) power
            (k.SlashFractionDowntime ctx)).Jail ctx addr).clearValidatorMissedBlockBitArray
            ctx addr).setValidatorSigningInfo ctx addr
          { StartHeight := info.StartHeight
            IndexOffset := 0
            JailedUntil := ctx.BlockTime + k.DowntimeUnbondDuration ctx
            MissedBlocksCounter := 0 })
      ∧ (ctx.BlockHeight > wrapInt64 (info.StartHeight + k.SignedBlocksWindow ctx)
        ∧ (k.updateSignedBlockBit ctx addr info signed).2.MissedBlocksCounter
            > wrapInt64 (k.SignedBlocksWindow ctx - k.MinSignedPerWindow ctx)
        ∧ ∃ v, k.ValidatorByConsAddr ctx addr = some v ∧ v.Jailed = false)) := by
  by_cases hq : (ctx.BlockHeight > wrapInt64 (info.StartHeight + k.SignedBlocksWindow ctx)
        ∧ (k.updateSignedBlockBit ctx addr info signed).2.MissedBlocksCounter
            > wrapInt64 (k.SignedBlocksWindow ctx - k.MinSignedPerWindow ctx)
        ∧ ∃ v, k.ValidatorByConsAddr ctx addr = some v ∧ v.Jailed = false)
  · right
    obtain ⟨hh, hm, v, hv, hj⟩ := hq
    exact ⟨handleValidatorSignature_fires env k ctx addr power signed info pk v hpk hinfo hW
      hh hm hv hj, hh, hm, v, hv, hj⟩
  · left
    exact ⟨handleValidatorSignature_quiet env k ctx addr power signed info pk hpk hinfo hW hq,
      hq⟩

theorem fired_calls (dh : Int) (fr : Dec) (i : ValidatorSigningInfo) :
    (((((k.updateSignedBlockBit ctx addr info signed).1.Slash ctx addr dh power
        fr).Jail ctx addr).clearValidatorMissedBlockBitArray ctx addr).setValidatorSigningInfo
        ctx addr i).calls
      = k.calls ++ [ValidatorSetCall.Slash ctx addr dh power fr,
          ValidatorSetCall.Jail ctx addr] := by
  have hc := updateSignedBlockBit_calls k ctx addr signed info
  simp [setValidatorSigningInfo, clearValidatorMissedBlockBitArray, Jail, Slash, hc]

/-- After the update the bit at the index of the observation records whether it was a
miss; every other bit is unchanged. -/
theorem updateSignedBlockBit_bits (index : Int) :
    (k.updateSignedBlockBit ctx addr info signed).1.missedBlockBitArray ctx.sideChainScope
        addr index
      = if index = Int.tmod info.IndexOffset (k.SignedBlocksWindow ctx) then !signed
        else k.missedBlockBitArray ctx.sideChainScope addr index := by
  unfold updateSignedBlockBit
  simp only [getValidatorMissedBlockBitArray]
  split_ifs with h1 h2 h3 h4 h5 <;>
    simp_all [setValidatorMissedBlockBitArray]
  · cases hs : signed <;>
      cases hb : k.missedBlockBitArray ctx.sideChainScope addr
        (Int.tmod info.IndexOffset (k.SignedBlocksWindow ctx)) <;> simp_all

/-- The counter after the update, when no int64 overflow is possible: one less if the
overwritten bit was set, one more if the new observation is a miss. -/
theorem updateSignedBlockBit_counter_value
    (hlo : MinInt64 < info.MissedBlocksCounter) (hhi : info.MissedBlocksCounter < MaxInt64) :
    (k.updateSignedBlockBit ctx addr info signed).2.MissedBlocksCounter
      = info.MissedBlocksCounter
        - (if k.missedBlockBitArray ctx.sideChainScope addr
              (Int.tmod info.IndexOffset (k.SignedBlocksWindow ctx)) then 1 else 0)
        + (if signed then 0 else 1) := by
  unfold MinInt64 at hlo
  unfold MaxInt64 at hhi
  unfold updateSignedBlockBit
  simp only [getValidatorMissedBlockBitArray]
  cases hs : signed <;>
    cases hb : k.missedBlockBitArray ctx.sideChainScope addr
      (Int.tmod info.IndexOffset (k.SignedBlocksWindow ctx)) <;>
    simp <;> rw [wrapInt64_eq_self (by omega) (by omega)]

theorem updateSignedBlockBit_addrPubkey :
    (k.updateSignedBlockBit ctx addr info signed).1.addrPubkey = k.addrPubkey := by
  unfold updateSignedBlockBit
  simp only []
  split_ifs <;> rfl

/-- Every call on a state with a known pubkey, signing info and a non-zero window returns;
it leaves parameters, pubkeys and the validator set's answers alone, keeps a signing info
for the validator, and only appends to the calls made on the validator set. -/
theorem handleValidatorSignature_returns (pk : Bytes)
    (hpk : k.getPubkey ctx addr = some pk)
    (hinfo : k.getValidatorSigningInfo ctx addr = some info)
    (hW : k.SignedBlocksWindow ctx ≠ 0) :
    ∃ k', k.handleValidatorSignature env ctx addr power signed = some k'
      ∧ k'.params = k.params ∧ k'.addrPubkey = k.addrPubkey
      ∧ k'.validatorSet = k.validatorSet
      ∧ (∃ i, k'.signingInfo ctx.sideChainScope addr = some i)
      ∧ ∃ l, k'.calls = k.calls ++ l := by
  have hp := updateSignedBlockBit_params k ctx addr signed info
  have ha := updateSignedBlockBit_addrPubkey k ctx addr signed info
  have hv := updateSignedBlockBit_validatorSet k ctx addr signed info
  rcases handleValidatorSignature_cases env k ctx addr power signed info pk hpk hinfo hW
    with ⟨h, _⟩ | ⟨h, _⟩
  · refine ⟨_, h, hp, ha, hv, ⟨_, getValidatorSigningInfo_set _ ctx addr _⟩, [], ?_⟩
    rw [quiet_calls, List.append_nil]
  · refine ⟨_, h, ?_, ?_, ?_, ⟨_, getValidatorSigningInfo_set _ ctx addr _⟩, _,
      fired_calls k ctx addr power signed info
        (wrapInt64 (wrapInt64 (ctx.BlockHeight - env.ValidatorUpdateDelay) - 1))
        (k.SlashFractionDowntime ctx)
        { StartHeight := info.StartHeight
          IndexOffset := 0
          JailedUntil := ctx.BlockTime + k.DowntimeUnbondDuration ctx
          MissedBlocksCounter := 0 }⟩
    · simp only [setValidatorSigningInfo, clearValidatorMissedBlockBitArray, Jail, Slash, hp]
    · simp only [setValidatorSigningInfo, clearValidatorMissedBlockBitArray, Jail, Slash, ha]
    · simp only [setValidatorSigningInfo, clearValidatorMissedBlockBitArray, Jail, Slash, hv]

end SingleCall

/-- C1: for every window size W >= 1 (an int64) and every signing state with
IndexOffset >= 0 whose MissedBlocksCounter equals the number of set bits among the bitmap
indexes 0..W-1, and for every value of the signed flag, handleValidatorSignature returns,
and in the state it leaves MissedBlocksCounter again equals the number of set bits among
the bitmap indexes 0..W-1 (the window is unchanged), whether or not downtime jailing
fires in that call. -/
theorem C1_counter_equals_window_popcount (env : Env) (k : Keeper) (ctx : Context)
    (addr : Bytes) (power : Int) (signed : Bool) (pk : Bytes) (info : ValidatorSigningInfo)
    (hW1 : 1 ≤ k.SignedBlocksWindow ctx) (hWmax : k.SignedBlocksWindow ctx ≤ MaxInt64)
    (hpk : k.getPubkey ctx addr = some pk)
    (hinfo : k.getValidatorSigningInfo ctx addr = some info)
    (hoff : 0 ≤ info.IndexOffset)
    (hinv : info.MissedBlocksCounter
      = k.missedBitsInWindow ctx addr (k.SignedBlocksWindow ctx)) :
    ∃ k' info', k.handleValidatorSignature env ctx addr power signed = some k'
      ∧ k'.getValidatorSigningInfo ctx addr = some info'
      ∧ k'.SignedBlocksWindow ctx = k.SignedBlocksWindow ctx
      ∧ info'.MissedBlocksCounter
          = k'.missedBitsInWindow ctx addr (k.SignedBlocksWindow ctx) := by
  have hW : k.SignedBlocksWindow ctx ≠ 0 := by omega
  have hp := updateSignedBlockBit_params k ctx addr signed info
  rcases handleValidatorSignature_cases env k ctx addr power signed info pk hpk hinfo hW
    with ⟨h, _⟩ | ⟨h, _⟩
  · refine ⟨_, _, h, getValidatorSigningInfo_set _ ctx addr _, ?_, ?_⟩
    · simp [SignedBlocksWindow, setValidatorSigningInfo, hp]
    · rw [missedBitsInWindow_setValidatorSigningInfo]
      exact updateSignedBlockBit_counter k ctx addr signed info hW1 hWmax hoff hinv
  · refine ⟨_, _, h, getValidatorSigningInfo_set _ ctx addr _, ?_, ?_⟩
    · simp [SignedBlocksWindow, setValidatorSigningInfo, clearValidatorMissedBlockBitArray,
        Jail, Slash, hp]
    · rw [missedBitsInWindow_setValidatorSigningInfo, missedBitsInWindow_clear]

/-- Instance of C1 in which downtime jailing fires: window 3, minimum 2, bits 0 and 1
set, counter 2, offset 5, a missed block at height 10. -/
theorem C1_counter_equals_window_popcount_witness :
    ∃ k' info',
      (downtimeKeeper (some exampleValidator)).handleValidatorSignature
        exampleEnv (exampleCtx 10 1000) [1, 2, 3] 50 false = some k'
      ∧ k'.getValidatorSigningInfo (exampleCtx 10 1000) [1, 2, 3] = some info'
      ∧ k'.SignedBlocksWindow (exampleCtx 10 1000) = 3
      ∧ info'.MissedBlocksCounter
          = k'.missedBitsInWindow (exampleCtx 10 1000) [1, 2, 3] 3 :=
  C1_counter_equals_window_popcount exampleEnv
    (downtimeKeeper (some exampleValidator))
    (exampleCtx 10 1000) [1, 2, 3] 50 false [1, 2, 3]
    downtimeInfo
    (by decide) (by decide) rfl rfl (by decide) (by decide)

/-- C2: for every call of handleValidatorSignature that gets past its lookups (the sums
StartHeight + W and W - M being int64 values), with c the MissedBlocksCounter after the
bit update of that call: the call returns, and a Slash followed by a Jail is issued for
the validator if and only if height > StartHeight + W and c > W - M and the validator
exists in the validator set and is not already jailed; otherwise no call is issued at
all.  In particular nothing is issued when height = StartHeight + W, and nothing when
c = W - M. -/
theorem C2_downtime_slash_iff (env : Env) (k : Keeper) (ctx : Context) (addr : Bytes)
    (power : Int) (signed : Bool) (pk : Bytes) (info : ValidatorSigningInfo)
    (hpk : k.getPubkey ctx addr = some pk)
    (hinfo : k.getValidatorSigningInfo ctx addr = some info)
    (hW : k.SignedBlocksWindow ctx ≠ 0)
    (hmin : MinInt64 ≤ info.StartHeight + k.SignedBlocksWindow ctx
      ∧ info.StartHeight + k.SignedBlocksWindow ctx ≤ MaxInt64)
    (hmax : MinInt64 ≤ k.SignedBlocksWindow ctx - k.MinSignedPerWindow ctx
      ∧ k.SignedBlocksWindow ctx - k.MinSignedPerWindow ctx ≤ MaxInt64) :
    ∃ k', k.handleValidatorSignature env ctx addr power signed = some k'
      ∧ ((∃ dh fr, k'.calls = k.calls ++ [ValidatorSetCall.Slash ctx addr dh power fr,
            ValidatorSetCall.Jail ctx addr])
          ↔ (ctx.BlockHeight > info.StartHeight + k.SignedBlocksWindow ctx
            ∧ (k.updateSignedBlockBit ctx addr info signed).2.MissedBlocksCounter
                > k.SignedBlocksWindow ctx - k.MinSignedPerWindow ctx
            ∧ ∃ v, k.ValidatorByConsAddr ctx addr = some v ∧ v.Jailed = false))
      ∧ (¬ (ctx.BlockHeight > info.StartHeight + k.SignedBlocksWindow ctx
            ∧ (k.updateSignedBlockBit ctx addr info signed).2.MissedBlocksCounter
                > k.SignedBlocksWindow ctx - k.MinSignedPerWindow ctx
            ∧ ∃ v, k.ValidatorByConsAddr ctx addr = some v ∧ v.Jailed = false)
          → k'.calls = k.calls)
      ∧ (ctx.BlockHeight = info.StartHeight + k.SignedBlocksWindow ctx
          → k'.calls = k.calls)
      ∧ ((k.updateSignedBlockBit ctx addr info signed).2.MissedBlocksCounter
            = k.SignedBlocksWindow ctx - k.MinSignedPerWindow ctx
          → k'.calls = k.calls) := by
  unfold MinInt64 MaxInt64 at hmin hmax
  have e1 := wrapInt64_eq_self hmin.1 hmin.2
  have e2 := wrapInt64_eq_self hmax.1 hmax.2
  rcases handleValidatorSignature_cases env k ctx addr power signed info pk hpk hinfo hW
    with ⟨h, hq⟩ | ⟨h, hq⟩
  · rw [e1, e2] at hq
    have hc := quiet_calls k ctx addr signed info
      (k.updateSignedBlockBit ctx addr info signed).2
    refine ⟨_, h, ⟨?_, fun hg => absurd hg hq⟩, fun _ => hc, fun _ => hc, fun _ => hc⟩
    rintro ⟨dh, fr, hcalls⟩
    rw [hc] at hcalls
    have hlen := congrArg List.length hcalls
    simp at hlen
  · rw [e1, e2] at hq
    have hc := fired_calls k ctx addr power signed info
      (wrapInt64 (wrapInt64 (ctx.BlockHeight - env.ValidatorUpdateDelay) - 1))
      (k.SlashFractionDowntime ctx)
      { StartHeight := info.StartHeight
        IndexOffset := 0
        JailedUntil := ctx.BlockTime + k.DowntimeUnbondDuration ctx
        MissedBlocksCounter := 0 }
    refine ⟨_, h, ⟨fun _ => hq, fun _ => ⟨_, _, hc⟩⟩, fun hn => absurd hq hn, ?_, ?_⟩
    · intro heq
      have := hq.1
      omega
    · intro heq
      have := hq.2.1
      omega

/-- Instance of C2 at the boundary height = StartHeight + W: window 3, minimum 2, start
height 0, a missed block at height 3 with all three bits then set. -/
theorem C2_downtime_slash_iff_witness :
    ∃ k',
      (downtimeKeeper (some exampleValidator)).handleValidatorSignature
        exampleEnv (exampleCtx 3 1000) [1, 2, 3] 50 false = some k'
      ∧ ((∃ dh fr, k'.calls = [] ++ [ValidatorSetCall.Slash (exampleCtx 3 1000) [1, 2, 3] dh
            50 fr, ValidatorSetCall.Jail (exampleCtx 3 1000) [1, 2, 3]])
          ↔ ((3 : Int) > 0 + 3
            ∧ ((downtimeKeeper (some exampleValidator)).updateSignedBlockBit
                (exampleCtx 3 1000) [1, 2, 3]
                downtimeInfo false).2.MissedBlocksCounter > 3 - 2
            ∧ ∃ v, some exampleValidator = some v ∧ v.Jailed = false))
      ∧ (¬ ((3 : Int) > 0 + 3
            ∧ ((downtimeKeeper (some exampleValidator)).updateSignedBlockBit
                (exampleCtx 3 1000) [1, 2, 3]
                downtimeInfo false).2.MissedBlocksCounter > 3 - 2
            ∧ ∃ v, some exampleValidator = some v ∧ v.Jailed = false)
          → k'.calls = [])
      ∧ ((3 : Int) = 0 + 3 → k'.calls = [])
      ∧ (((downtimeKeeper (some exampleValidator)).updateSignedBlockBit
                (exampleCtx 3 1000) [1, 2, 3]
                downtimeInfo false).2.MissedBlocksCounter = 3 - 2
          → k'.calls = []) :=
  C2_downtime_slash_iff exampleEnv
    (downtimeKeeper (some exampleValidator))
    (exampleCtx 3 1000) [1, 2, 3] 50 false [1, 2, 3]
    downtimeInfo
    rfl rfl (by decide) (by decide) (by decide)

/-- C3: whenever downtime jailing fires in handleValidatorSignature at block height h and
block time t for a validator with power p (h - ValidatorUpdateDelay - 1 being computed
without int64 overflow), the calls made on the validator set are exactly one Slash with
arguments (consAddr, h - ValidatorUpdateDelay - 1, p, SlashFractionDowntime) followed by
exactly one Jail(consAddr), and the persisted signing info has
JailedUntil = t + DowntimeUnbondDuration. -/
theorem C3_downtime_slash_arguments (env : Env) (k k' : Keeper) (ctx : Context)
    (addr : Bytes) (power : Int) (signed : Bool)
    (hlo : MinInt64 ≤ ctx.BlockHeight - env.ValidatorUpdateDelay - 1)
    (hhi : ctx.BlockHeight - env.ValidatorUpdateDelay ≤ MaxInt64)
    (hcall : k.handleValidatorSignature env ctx addr power signed = some k')
    (hfires : k'.calls ≠ k.calls) :
    k'.calls = k.calls ++
        [ValidatorSetCall.Slash ctx addr (ctx.BlockHeight - env.ValidatorUpdateDelay - 1)
          power (k.SlashFractionDowntime ctx), ValidatorSetCall.Jail ctx addr]
      ∧ ∃ info', k'.getValidatorSigningInfo ctx addr = some info'
          ∧ info'.JailedUntil = ctx.BlockTime + k.DowntimeUnbondDuration ctx := by
  cases hpk : k.getPubkey ctx addr with
  | none => simp [handleValidatorSignature, hpk] at hcall
  | some pk =>
    cases hinfo : k.getValidatorSigningInfo ctx addr with
    | none => simp [handleValidatorSignature, hpk, hinfo] at hcall
    | some info =>
      by_cases hW : k.SignedBlocksWindow ctx = 0
      · simp [handleValidatorSignature, hpk, hinfo, hW] at hcall
      · unfold MinInt64 at hlo
        unfold MaxInt64 at hhi
        rcases handleValidatorSignature_cases env k ctx addr power signed info pk hpk hinfo
          hW with ⟨h, _⟩ | ⟨h, _⟩
        · rw [h] at hcall
          injection hcall with hk
          subst hk
          exact absurd (quiet_calls k ctx addr signed info _) hfires
        · rw [h] at hcall
          injection hcall with hk
          subst hk
          refine ⟨?_, _, getValidatorSigningInfo_set _ ctx addr _, rfl⟩
          rw [fired_calls, wrapInt64_eq_self (x := ctx.BlockHeight - env.ValidatorUpdateDelay)
            (by omega) (by omega), wrapInt64_eq_self (by omega) (by omega)]

/-- Instance of C3: the validator of `downtimeKeeper` misses the block at height 10 and
is slashed with distribution height 8. -/
theorem C3_downtime_slash_arguments_witness :
    ∃ k', (downtimeKeeper (some exampleValidator)).handleValidatorSignature exampleEnv
        (exampleCtx 10 1000) [1, 2, 3] 50 false = some k'
      ∧ k'.calls = [ValidatorSetCall.Slash (exampleCtx 10 1000) [1, 2, 3] 8 50 1000000,
          ValidatorSetCall.Jail (exampleCtx 10 1000) [1, 2, 3]]
      ∧ ∃ info', k'.getValidatorSigningInfo (exampleCtx 10 1000) [1, 2, 3] = some info'
          ∧ info'.JailedUntil = 1000 + 60000000000 :=
  ⟨_, rfl, C3_downtime_slash_arguments exampleEnv (downtimeKeeper (some exampleValidator)) _
    (exampleCtx 10 1000) [1, 2, 3] 50 false (by decide) (by decide) rfl (by decide)⟩

/-- C4: whenever downtime jailing fires in handleValidatorSignature, the state left by
the call has MissedBlocksCounter = 0, IndexOffset = 0 and every bit of that validator's
missed-block bitmap reading as not missed, whatever the values were before the call. -/
theorem C4_downtime_resets_window (env : Env) (k k' : Keeper) (ctx : Context)
    (addr : Bytes) (power : Int) (signed : Bool)
    (hcall : k.handleValidatorSignature env ctx addr power signed = some k')
    (hfires : k'.calls ≠ k.calls) :
    (∃ info', k'.getValidatorSigningInfo ctx addr = some info'
        ∧ info'.MissedBlocksCounter = 0 ∧ info'.IndexOffset = 0)
      ∧ ∀ index : Int, k'.getValidatorMissedBlockBitArray ctx addr index = false := by
  cases hpk : k.getPubkey ctx addr with
  | none => simp [handleValidatorSignature, hpk] at hcall
  | some pk =>
    cases hinfo : k.getValidatorSigningInfo ctx addr with
    | none => simp [handleValidatorSignature, hpk, hinfo] at hcall
    | some info =>
      by_cases hW : k.SignedBlocksWindow ctx = 0
      · simp [handleValidatorSignature, hpk, hinfo, hW] at hcall
      · rcases handleValidatorSignature_cases env k ctx addr power signed info pk hpk hinfo
          hW with ⟨h, _⟩ | ⟨h, _⟩
        · rw [h] at hcall
          injection hcall with hk
          subst hk
          exact absurd (quiet_calls k ctx addr signed info _) hfires
        · rw [h] at hcall
          injection hcall with hk
          subst hk
          refine ⟨⟨_, getValidatorSigningInfo_set _ ctx addr _, rfl, rfl⟩, ?_⟩
          intro index
          simp [getValidatorMissedBlockBitArray, setValidatorSigningInfo,
            clearValidatorMissedBlockBitArray]

/-- Instance of C4: the validator of `downtimeKeeper` (counter 2, offset 5, two bits set)
misses the block at height 10 and is jailed. -/
theorem C4_downtime_resets_window_witness :
    ∃ k', (downtimeKeeper (some exampleValidator)).handleValidatorSignature exampleEnv
        (exampleCtx 10 1000) [1, 2, 3] 50 false = some k'
      ∧ (∃ info', k'.getValidatorSigningInfo (exampleCtx 10 1000) [1, 2, 3] = some info'
          ∧ info'.MissedBlocksCounter = 0 ∧ info'.IndexOffset = 0)
      ∧ ∀ index : Int,
          k'.getValidatorMissedBlockBitArray (exampleCtx 10 1000) [1, 2, 3] index = false :=
  ⟨_, rfl, C4_downtime_resets_window exampleEnv (downtimeKeeper (some exampleValidator)) _
    (exampleCtx 10 1000) [1, 2, 3] 50 false rfl (by decide)⟩

/-- C7: for every handleValidatorSignature call in which height > StartHeight + W and the
counter exceeds W - M but the validator is not found or is already jailed, the call
returns the state produced by the index, bit and counter update with the signing info
persisted: no Slash and no Jail call is made, JailedUntil is unchanged, and
MissedBlocksCounter, IndexOffset and the bitmap are those of the update, not reset. -/
theorem C7_no_mutation_when_absent_or_jailed (env : Env) (k : Keeper) (ctx : Context)
    (addr : Bytes) (power : Int) (signed : Bool) (pk : Bytes) (info : ValidatorSigningInfo)
    (hpk : k.getPubkey ctx addr = some pk)
    (hinfo : k.getValidatorSigningInfo ctx addr = some info)
    (hW : k.SignedBlocksWindow ctx ≠ 0)
    (_hheight : ctx.BlockHeight > info.StartHeight + k.SignedBlocksWindow ctx)
    (_hcounter : (k.updateSignedBlockBit ctx addr info signed).2.MissedBlocksCounter
      > k.SignedBlocksWindow ctx - k.MinSignedPerWindow ctx)
    (hval : k.ValidatorByConsAddr ctx addr = none
      ∨ ∃ v, k.ValidatorByConsAddr ctx addr = some v ∧ v.Jailed = true) :
    ∃ k' info', k.handleValidatorSignature env ctx addr power signed = some k'
      ∧ k' = (k.updateSignedBlockBit ctx addr info signed).1.setValidatorSigningInfo ctx
          addr (k.updateSignedBlockBit ctx addr info signed).2
      ∧ k'.calls = k.calls
      ∧ k'.getValidatorSigningInfo ctx addr = some info'
      ∧ info'.JailedUntil = info.JailedUntil
      ∧ info'.IndexOffset = wrapInt64 (info.IndexOffset + 1)
      ∧ info'.MissedBlocksCounter
          = (k.updateSignedBlockBit ctx addr info signed).2.MissedBlocksCounter
      ∧ ∀ index : Int, k'.getValidatorMissedBlockBitArray ctx addr index
          = (k.updateSignedBlockBit ctx addr info signed).1.getValidatorMissedBlockBitArray
              ctx addr index := by
  have hq : ¬ (ctx.BlockHeight > wrapInt64 (info.StartHeight + k.SignedBlocksWindow ctx)
        ∧ (k.updateSignedBlockBit ctx addr info signed).2.MissedBlocksCounter
            > wrapInt64 (k.SignedBlocksWindow ctx - k.MinSignedPerWindow ctx)
        ∧ ∃ v, k.ValidatorByConsAddr ctx addr = some v ∧ v.Jailed = false) := by
    rintro ⟨_, _, v, hv, hj⟩
    rcases hval with hnone | ⟨w, hw, hwj⟩
    · rw [hnone] at hv
      exact Option.noConfusion hv
    · rw [hw] at hv
      injection hv with hvw
      subst hvw
      rw [hj] at hwj
      exact Bool.noConfusion hwj
  refine ⟨_, _, handleValidatorSignature_quiet env k ctx addr power signed info pk hpk hinfo
    hW hq, rfl, quiet_calls k ctx addr signed info _, getValidatorSigningInfo_set _ ctx addr _,
    updateSignedBlockBit_JailedUntil k ctx addr signed info,
    updateSignedBlockBit_IndexOffset k ctx addr signed info, rfl, fun _ => rfl⟩

/-- Instance of C7: the validator of `downtimeKeeper` is unknown to the validator set and
misses the block at height 10, with the counter reaching 3 > 3 - 2. -/
theorem C7_no_mutation_when_absent_or_jailed_witness :
    ∃ k' info', (downtimeKeeper none).handleValidatorSignature exampleEnv
        (exampleCtx 10 1000) [1, 2, 3] 50 false = some k'
      ∧ k' = ((downtimeKeeper none).updateSignedBlockBit (exampleCtx 10 1000) [1, 2, 3]
            downtimeInfo false).1.setValidatorSigningInfo (exampleCtx 10 1000) [1, 2, 3]
          ((downtimeKeeper none).updateSignedBlockBit (exampleCtx 10 1000) [1, 2, 3]
            downtimeInfo false).2
      ∧ k'.calls = []
      ∧ k'.getValidatorSigningInfo (exampleCtx 10 1000) [1, 2, 3] = some info'
      ∧ info'.JailedUntil = 0
      ∧ info'.IndexOffset = wrapInt64 (5 + 1)
      ∧ info'.MissedBlocksCounter
          = ((downtimeKeeper none).updateSignedBlockBit (exampleCtx 10 1000) [1, 2, 3]
              downtimeInfo false).2.MissedBlocksCounter
      ∧ ∀ index : Int,
          k'.getValidatorMissedBlockBitArray (exampleCtx 10 1000) [1, 2, 3] index
            = ((downtimeKeeper none).updateSignedBlockBit (exampleCtx 10 1000) [1, 2, 3]
                downtimeInfo false).1.getValidatorMissedBlockBitArray (exampleCtx 10 1000)
                [1, 2, 3] index :=
  C7_no_mutation_when_absent_or_jailed exampleEnv (downtimeKeeper none) (exampleCtx 10 1000)
    [1, 2, 3] 50 false [1, 2, 3] downtimeInfo rfl rfl (by decide) (by decide) (by decide)
    (Or.inl rfl)

/-- What `checkSideSlashPackage` returns on a payload that decodes. -/
theorem checkSideSlashPackage_decoded (env : Env) (k : Keeper) (payload : Bytes)
    (p : SideSlashPackage) (hdec : env.DecodeBytes payload = some p) :
    k.checkSideSlashPackage env payload
      = if p.SideAddr.length = env.AddrLen ∨ p.SideAddr.length = env.VoteAddrLen then
          if p.SideHeight ≤ 0 then
            Except.error (SdkError.InvalidClaim k.Codespace "side height must be positive")
          else if (p.SideHeight : Int) > MaxInt64 then
            Except.error (SdkError.InvalidClaim k.Codespace "side height overflow")
          else if p.SideTimestamp ≤ 0 then
            Except.error (SdkError.InvalidClaim k.Codespace "invalid side timestamp")
          else
            Except.ok { p with addrType :=
              if p.SideAddr.length = env.AddrLen then env.SideConsAddrType
              else env.SideVoteAddrType }
        else
          Except.error (SdkError.InvalidClaim k.Codespace
            ("wrong sideAddr length:" ++ toString p.SideAddr.length ++ ", expected:"
              ++ toString env.AddrLen ++ " or " ++ toString env.VoteAddrLen)) := by
  unfold checkSideSlashPackage
  simp only [hdec]
  by_cases h1 : p.SideAddr.length = env.AddrLen
  · simp only [if_pos h1, if_pos (Or.inl h1 : _ ∨ p.SideAddr.length = env.VoteAddrLen)]
  · by_cases h2 : p.SideAddr.length = env.VoteAddrLen
    · simp only [if_neg h1, if_pos h2,
        if_pos (Or.inr h2 : p.SideAddr.length = env.AddrLen ∨ _)]
    · simp only [if_neg h1, if_neg h2, if_neg (not_or.mpr ⟨h1, h2⟩)]

/-- The payloads that `checkSideSlashPackage` accepts, and what it returns for them. -/
theorem checkSideSlashPackage_ok_iff (env : Env) (k : Keeper) (payload : Bytes)
    (p pack : SideSlashPackage) (hdec : env.DecodeBytes payload = some p) :
    k.checkSideSlashPackage env payload = Except.ok pack
      ↔ (p.SideAddr.length = env.AddrLen ∨ p.SideAddr.length = env.VoteAddrLen)
        ∧ 1 ≤ p.SideHeight ∧ (p.SideHeight : Int) ≤ MaxInt64 ∧ 1 ≤ p.SideTimestamp
        ∧ pack = { p with addrType :=
            if p.SideAddr.length = env.AddrLen then env.SideConsAddrType
            else env.SideVoteAddrType } := by
  rw [checkSideSlashPackage_decoded env k payload p hdec]
  constructor
  · intro h
    have hlen : p.SideAddr.length = env.AddrLen ∨ p.SideAddr.length = env.VoteAddrLen := by
      by_contra hc
      rw [if_neg hc] at h
      exact Except.noConfusion h
    rw [if_pos hlen] at h
    have hh : ¬ p.SideHeight ≤ 0 := by
      intro hc
      rw [if_pos hc] at h
      exact Except.noConfusion h
    rw [if_neg hh] at h
    have hm : ¬ (p.SideHeight : Int) > MaxInt64 := by
      intro hc
      rw [if_pos hc] at h
      exact Except.noConfusion h
    rw [if_neg hm] at h
    have ht : ¬ p.SideTimestamp ≤ 0 := by
      intro hc
      rw [if_pos hc] at h
      exact Except.noConfusion h
    rw [if_neg ht] at h
    injection h with h
    exact ⟨hlen, by omega, by omega, by omega, h.symm⟩
  · rintro ⟨hlen, hh, hm, ht, hpack⟩
    rw [if_pos hlen, if_neg (by omega), if_neg (by omega), if_neg (by omega), hpack]

/-- The payloads that `checkSideSlashPackage` rejects although they decode: the error is
an invalid claim. -/
theorem checkSideSlashPackage_error_decoded (env : Env) (k : Keeper) (payload : Bytes)
    (p : SideSlashPackage) (e : SdkError) (hdec : env.DecodeBytes payload = some p)
    (h : k.checkSideSlashPackage env payload = Except.error e) :
    (∃ msg, e = SdkError.InvalidClaim k.Codespace msg)
      ∧ ¬ ((p.SideAddr.length = env.AddrLen ∨ p.SideAddr.length = env.VoteAddrLen)
        ∧ 1 ≤ p.SideHeight ∧ (p.SideHeight : Int) ≤ MaxInt64 ∧ 1 ≤ p.SideTimestamp) := by
  rw [checkSideSlashPackage_decoded env k payload p hdec] at h
  split_ifs at h with h1 h2 h3 h4
  · injection h with h
    exact ⟨⟨_, h.symm⟩, by omega⟩
  · injection h with h
    exact ⟨⟨_, h.symm⟩, by omega⟩
  · injection h with h
    exact ⟨⟨_, h.symm⟩, by omega⟩
  · injection h with h
    exact ⟨⟨_, h.symm⟩, fun hc => h1 hc.1⟩

/-- C8: for every payload, checkSideSlashPackage succeeds if and only if the payload
decodes to a packet with len(SideAddr) equal to AddrLen or VoteAddrLen,
1 <= SideHeight <= MaxInt64 and SideTimestamp >= 1; on success the returned packet carries
the decoded SideChainId, SideAddr, SideHeight and SideTimestamp unchanged.  In particular
a decoded SideHeight = 0 is rejected, SideHeight = 1 is accepted when address length and
timestamp are valid, and any other SideAddr length is rejected. -/
theorem C8_checkSideSlashPackage_accepts_iff (env : Env) (k : Keeper) (payload : Bytes) :
    ((∃ pack, k.checkSideSlashPackage env payload = Except.ok pack)
        ↔ ∃ p, env.DecodeBytes payload = some p
            ∧ (p.SideAddr.length = env.AddrLen ∨ p.SideAddr.length = env.VoteAddrLen)
            ∧ 1 ≤ p.SideHeight ∧ (p.SideHeight : Int) ≤ MaxInt64 ∧ 1 ≤ p.SideTimestamp)
      ∧ (∀ pack, k.checkSideSlashPackage env payload = Except.ok pack →
          ∃ p, env.DecodeBytes payload = some p
            ∧ pack.SideChainId = p.SideChainId ∧ pack.SideAddr = p.SideAddr
            ∧ pack.SideHeight = p.SideHeight ∧ pack.SideTimestamp = p.SideTimestamp)
      ∧ (∀ p, env.DecodeBytes payload = some p → p.SideHeight = 0 →
          ∃ e, k.checkSideSlashPackage env payload = Except.error e)
      ∧ (∀ p, env.DecodeBytes payload = some p → p.SideHeight = 1 →
          (p.SideAddr.length = env.AddrLen ∨ p.SideAddr.length = env.VoteAddrLen) →
          1 ≤ p.SideTimestamp →
          ∃ pack, k.checkSideSlashPackage env payload = Except.ok pack)
      ∧ (∀ p, env.DecodeBytes payload = some p → p.SideAddr.length ≠ env.AddrLen →
          p.SideAddr.length ≠ env.VoteAddrLen →
          ∃ e, k.checkSideSlashPackage env payload = Except.error e) := by
  cases hdec : env.DecodeBytes payload with
  | none =>
    have hnone : k.checkSideSlashPackage env payload
        = Except.error (SdkError.InvalidInput k.Codespace "failed to parse the payload") := by
      unfold checkSideSlashPackage
      simp only [hdec]
    refine ⟨⟨?_, ?_⟩, ?_, ?_, ?_, ?_⟩
    · rintro ⟨pack, h⟩
      rw [hnone] at h
      exact Except.noConfusion h
    · rintro ⟨p, h, _⟩
      exact Option.noConfusion h
    · intro pack h
      rw [hnone] at h
      exact Except.noConfusion h
    · intro p h
      exact Option.noConfusion h
    · intro p h
      exact Option.noConfusion h
    · intro p h
      exact Option.noConfusion h
  | some q =>
    have hok := fun pack => checkSideSlashPackage_ok_iff env k payload q pack hdec
    refine ⟨⟨?_, ?_⟩, ?_, ?_, ?_, ?_⟩
    · rintro ⟨pack, h⟩
      obtain ⟨hlen, hh, hm, ht, _⟩ := (hok pack).mp h
      exact ⟨q, rfl, hlen, hh, hm, ht⟩
    · rintro ⟨p, hp, hlen, hh, hm, ht⟩
      injection hp with hp
      subst hp
      exact ⟨_, (hok _).mpr ⟨hlen, hh, hm, ht, rfl⟩⟩
    · intro pack h
      obtain ⟨_, _, _, _, hpack⟩ := (hok pack).mp h
      subst hpack
      exact ⟨q, rfl, rfl, rfl, rfl, rfl⟩
    · intro p hp h0
      injection hp with hp
      subst hp
      cases hres : k.checkSideSlashPackage env payload with
      | error e => exact ⟨e, rfl⟩
      | ok pack =>
        obtain ⟨_, hh, _⟩ := (hok pack).mp hres
        omega
    · intro p hp h1 hlen ht
      injection hp with hp
      subst hp
      refine ⟨_, (hok _).mpr ⟨hlen, by omega, ?_, ht, rfl⟩⟩
      rw [h1]
      decide
    · intro p hp hl1 hl2
      injection hp with hp
      subst hp
      cases hres : k.checkSideSlashPackage env payload with
      | error e => exact ⟨e, rfl⟩
      | ok pack =>
        obtain ⟨hlen, _⟩ := (hok pack).mp hres
        rcases hlen with h | h
        · exact absurd h hl1
        · exact absurd h hl2

section Execute

/-- What `ExecuteSynPackage` returns for a packet that passed `checkSideSlashPackage`: it
panics when the handler chosen by the tag panics, and otherwise returns the state and
error of that handler with the ack for that error. -/
theorem ExecuteSynPackage_accepted (env : Env) (k : Keeper) (ctx : Context) (payload : Bytes)
    (fee : Int) (pack : SideSlashPackage)
    (hok : k.checkSideSlashPackage env payload = Except.ok pack) :
    k.ExecuteSynPackage env ctx payload fee
      = match (if pack.addrType = env.SideConsAddrType then
                k.slashingSideDowntime env ctx pack
              else k.slashingSideMaliciousVote env ctx pack).2 with
        | none => none
        | some err =>
          some ((if pack.addrType = env.SideConsAddrType then
                k.slashingSideDowntime env ctx pack
              else k.slashingSideMaliciousVote env ctx pack).1,
            { Payload :=
                { Code := match err with
                  | some e => env.ABCICode e % 4294967296
                  | none => 0 }
              Err := err }) := by
  cases hdec : env.DecodeBytes payload with
  | none =>
    unfold checkSideSlashPackage at hok
    simp only [hdec] at hok
    exact Except.noConfusion hok
  | some p =>
    obtain ⟨_, _, _, _, hpack⟩ := (checkSideSlashPackage_ok_iff env k payload p pack hdec).mp hok
    have htag : pack.addrType = env.SideConsAddrType ∨ pack.addrType = env.SideVoteAddrType := by
      rw [hpack]
      by_cases h1 : p.SideAddr.length = env.AddrLen
      · left
        simp only [if_pos h1]
      · right
        simp only [if_neg h1]
    unfold ExecuteSynPackage GenCommonAckPackage
    simp only [hok]
    by_cases hc : pack.addrType = env.SideConsAddrType
    · simp only [if_pos hc]
    · have hv : pack.addrType = env.SideVoteAddrType := by
        rcases htag with h | h
        · exact absurd h hc
        · exact h
      simp only [if_neg hc, if_pos hv]

/-- What `ExecuteSynPackage` returns for a payload that `checkSideSlashPackage` rejects. -/
theorem ExecuteSynPackage_rejected (env : Env) (k : Keeper) (ctx : Context)
    (payload : Bytes) (fee : Int) (e : SdkError)
    (hrej : k.checkSideSlashPackage env payload = Except.error e) :
    k.ExecuteSynPackage env ctx payload fee
      = some (k, { Payload := { Code := env.ABCICode e % 4294967296 }, Err := some e }) := by
  unfold ExecuteSynPackage GenCommonAckPackage
  simp only [hrej]

end Execute

/-- C9: for every packet accepted by checkSideSlashPackage (AddrLen and VoteAddrLen being
different lengths and the two address-type tags different values), the packet is tagged
SideConsAddrType exactly when len(SideAddr) = AddrLen and SideVoteAddrType exactly when
len(SideAddr) = VoteAddrLen, one of the two holds, and ExecuteSynPackage runs exactly one
handler, slashingSideDowntime for the former and slashingSideMaliciousVote for the latter:
it panics exactly when that handler panics, and otherwise returns the state that handler
left and the error it returned, with an ack. -/
theorem C9_accepted_packet_runs_one_handler (env : Env) (k : Keeper) (ctx : Context)
    (payload : Bytes) (fee : Int) (pack : SideSlashPackage)
    (hlens : env.AddrLen ≠ env.VoteAddrLen)
    (htags : env.SideConsAddrType ≠ env.SideVoteAddrType)
    (hok : k.checkSideSlashPackage env payload = Except.ok pack) :
    (pack.addrType = env.SideConsAddrType ↔ pack.SideAddr.length = env.AddrLen)
      ∧ (pack.addrType = env.SideVoteAddrType ↔ pack.SideAddr.length = env.VoteAddrLen)
      ∧ (pack.SideAddr.length = env.AddrLen ∨ pack.SideAddr.length = env.VoteAddrLen)
      ∧ (pack.SideAddr.length = env.AddrLen →
          ((k.slashingSideDowntime env ctx pack).2 = none ↔
            k.ExecuteSynPackage env ctx payload fee = none)
          ∧ ∀ err, (k.slashingSideDowntime env ctx pack).2 = some err →
              ∃ ack, k.ExecuteSynPackage env ctx payload fee
                = some ((k.slashingSideDowntime env ctx pack).1,
                    { Payload := ack, Err := err }))
      ∧ (pack.SideAddr.length = env.VoteAddrLen →
          ((k.slashingSideMaliciousVote env ctx pack).2 = none ↔
            k.ExecuteSynPackage env ctx payload fee = none)
          ∧ ∀ err, (k.slashingSideMaliciousVote env ctx pack).2 = some err →
              ∃ ack, k.ExecuteSynPackage env ctx payload fee
                = some ((k.slashingSideMaliciousVote env ctx pack).1,
                    { Payload := ack, Err := err })) := by
  cases hdec : env.DecodeBytes payload with
  | none =>
    unfold checkSideSlashPackage at hok
    simp only [hdec] at hok
    exact Except.noConfusion hok
  | some p =>
    obtain ⟨hlen, _, _, _, hpack⟩ := (checkSideSlashPackage_ok_iff env k payload p pack hdec).mp
      hok
    have hexec := ExecuteSynPackage_accepted env k ctx payload fee pack hok
    by_cases h1 : p.SideAddr.length = env.AddrLen
    · have htag : pack.addrType = env.SideConsAddrType := by
        rw [hpack]
        simp only [if_pos h1]
      have hl : pack.SideAddr.length = env.AddrLen := by
        rw [hpack]
        exact h1
      refine ⟨⟨fun _ => hl, fun _ => htag⟩, ⟨?_, ?_⟩, Or.inl hl, ?_, ?_⟩
      · intro h
        rw [htag] at h
        exact absurd h htags
      · intro h
        rw [hl] at h
        exact absurd h hlens
      · intro _
        rw [if_pos htag] at hexec
        refine ⟨⟨fun hp => ?_, fun hp => ?_⟩, fun err hr => ?_⟩
        · rw [hexec, hp]
        · rw [hexec] at hp
          cases hH : (k.slashingSideDowntime env ctx pack).2 with
          | none => rfl
          | some r =>
            rw [hH] at hp
            exact Option.noConfusion hp
        · rw [hexec, hr]
          exact ⟨_, rfl⟩
      · intro h
        rw [hl] at h
        exact absurd h hlens
    · have h2 : p.SideAddr.length = env.VoteAddrLen := by
        rcases hlen with h | h
        · exact absurd h h1
        · exact h
      have htag : pack.addrType = env.SideVoteAddrType := by
        rw [hpack]
        simp only [if_neg h1]
      have hl : pack.SideAddr.length = env.VoteAddrLen := by
        rw [hpack]
        exact h2
      have hnl : pack.SideAddr.length ≠ env.AddrLen := by
        rw [hpack]
        exact h1
      have hntag : pack.addrType ≠ env.SideConsAddrType := by
        rw [htag]
        exact fun h => htags h.symm
      refine ⟨⟨?_, ?_⟩, ⟨fun _ => hl, fun _ => htag⟩, Or.inr hl, ?_, ?_⟩
      · intro h
        exact absurd h hntag
      · intro h
        exact absurd h hnl
      · intro h
        exact absurd h hnl
      · intro _
        rw [if_neg hntag] at hexec
        refine ⟨⟨fun hp => ?_, fun hp => ?_⟩, fun err hr => ?_⟩
        · rw [hexec, hp]
        · rw [hexec] at hp
          cases hH : (k.slashingSideMaliciousVote env ctx pack).2 with
          | none => rfl
          | some r =>
            rw [hH] at hp
            exact Option.noConfusion hp
        · rw [hexec, hr]
          exact ⟨_, rfl⟩

/-- Instance of C9: a packet with a 20-byte address is tagged as downtime and handled by
slashingSideDowntime. -/
theorem C9_accepted_packet_runs_one_handler_witness :
    (exampleDowntimePackage.addrType = exampleEnv.SideConsAddrType
        ↔ exampleDowntimePackage.SideAddr.length = exampleEnv.AddrLen)
      ∧ (exampleDowntimePackage.addrType = exampleEnv.SideVoteAddrType
        ↔ exampleDowntimePackage.SideAddr.length = exampleEnv.VoteAddrLen)
      ∧ (exampleDowntimePackage.SideAddr.length = exampleEnv.AddrLen
        ∨ exampleDowntimePackage.SideAddr.length = exampleEnv.VoteAddrLen)
      ∧ (exampleDowntimePackage.SideAddr.length = exampleEnv.AddrLen →
          ((freshSmallKeeper.slashingSideDowntime exampleEnv (exampleCtx 500 1000000000000)
              exampleDowntimePackage).2 = none ↔
            freshSmallKeeper.ExecuteSynPackage exampleEnv (exampleCtx 500 1000000000000)
              exampleDowntimePayload 0 = none)
          ∧ ∀ err, (freshSmallKeeper.slashingSideDowntime exampleEnv
                (exampleCtx 500 1000000000000) exampleDowntimePackage).2 = some err →
              ∃ ack, freshSmallKeeper.ExecuteSynPackage exampleEnv
                  (exampleCtx 500 1000000000000) exampleDowntimePayload 0
                = some ((freshSmallKeeper.slashingSideDowntime exampleEnv
                      (exampleCtx 500 1000000000000) exampleDowntimePackage).1,
                    { Payload := ack, Err := err }))
      ∧ (exampleDowntimePackage.SideAddr.length = exampleEnv.VoteAddrLen →
          ((freshSmallKeeper.slashingSideMaliciousVote exampleEnv
              (exampleCtx 500 1000000000000) exampleDowntimePackage).2 = none ↔
            freshSmallKeeper.ExecuteSynPackage exampleEnv (exampleCtx 500 1000000000000)
              exampleDowntimePayload 0 = none)
          ∧ ∀ err, (freshSmallKeeper.slashingSideMaliciousVote exampleEnv
                (exampleCtx 500 1000000000000) exampleDowntimePackage).2 = some err →
              ∃ ack, freshSmallKeeper.ExecuteSynPackage exampleEnv
                  (exampleCtx 500 1000000000000) exampleDowntimePayload 0
                = some ((freshSmallKeeper.slashingSideMaliciousVote exampleEnv
                      (exampleCtx 500 1000000000000) exampleDowntimePackage).1,
                    { Payload := ack, Err := err })) :=
  C9_accepted_packet_runs_one_handler exampleEnv freshSmallKeeper
    (exampleCtx 500 1000000000000) exampleDowntimePayload 0 exampleDowntimePackage
    (by decide) (by decide) rfl

/-- C10: for every payload rejected by checkSideSlashPackage, the error is InvalidInput
exactly when the payload fails to decode, and InvalidClaim in every other rejection (wrong
address length, zero height, height above MaxInt64, zero timestamp); ExecuteSynPackage on
such a payload does not panic: it returns the keeper state unchanged (no handler has
run), the rejection as its error and an ack carrying the code of that error. -/
theorem C10_rejected_packet_changes_nothing (env : Env) (k : Keeper) (ctx : Context)
    (payload : Bytes) (fee : Int) (e : SdkError)
    (hrej : k.checkSideSlashPackage env payload = Except.error e) :
    ((∃ msg, e = SdkError.InvalidInput k.Codespace msg) ↔ env.DecodeBytes payload = none)
      ∧ (env.DecodeBytes payload ≠ none → ∃ msg, e = SdkError.InvalidClaim k.Codespace msg)
      ∧ k.ExecuteSynPackage env ctx payload fee
          = some (k, { Payload := { Code := env.ABCICode e % 4294967296 }, Err := some e }) := by
  have hexec : k.ExecuteSynPackage env ctx payload fee
      = some (k, { Payload := { Code := env.ABCICode e % 4294967296 }, Err := some e }) := by
    unfold ExecuteSynPackage GenCommonAckPackage
    simp only [hrej]
  cases hdec : env.DecodeBytes payload with
  | none =>
    have he : e = SdkError.InvalidInput k.Codespace "failed to parse the payload" := by
      unfold checkSideSlashPackage at hrej
      simp only [hdec] at hrej
      injection hrej with h
      exact h.symm
    exact ⟨⟨fun _ => rfl, fun _ => ⟨_, he⟩⟩, fun h => absurd rfl h, hexec⟩
  | some p =>
    obtain ⟨⟨msg, hmsg⟩, _⟩ := checkSideSlashPackage_error_decoded env k payload p e hdec hrej
    refine ⟨⟨?_, fun h => Option.noConfusion h⟩, fun _ => ⟨msg, hmsg⟩, hexec⟩
    rintro ⟨msg', hmsg'⟩
    rw [hmsg] at hmsg'
    exact SdkError.noConfusion hmsg'

/-- Instance of C10: a packet with side height 0 is rejected as an invalid claim and
leaves the keeper unchanged. -/
theorem C10_rejected_packet_changes_nothing_witness :
    ((∃ msg, SdkError.InvalidClaim 10 "side height must be positive"
          = SdkError.InvalidInput freshSmallKeeper.Codespace msg)
        ↔ exampleEnv.DecodeBytes exampleZeroHeightPayload = none)
      ∧ (exampleEnv.DecodeBytes exampleZeroHeightPayload ≠ none →
          ∃ msg, SdkError.InvalidClaim 10 "side height must be positive"
            = SdkError.InvalidClaim freshSmallKeeper.Codespace msg)
      ∧ freshSmallKeeper.ExecuteSynPackage exampleEnv (exampleCtx 500 1000000000000)
          exampleZeroHeightPayload 0
          = some (freshSmallKeeper,
              { Payload :=
                  { Code := exampleEnv.ABCICode
                      (SdkError.InvalidClaim 10 "side height must be positive") % 4294967296 }
                Err := some (SdkError.InvalidClaim 10 "side height must be positive") }) :=
  C10_rejected_packet_changes_nothing exampleEnv freshSmallKeeper
    (exampleCtx 500 1000000000000) exampleZeroHeightPayload 0
    (SdkError.InvalidClaim 10 "side height must be positive") rfl

/-- Instance of C8: the stand-in decoder and a packet with side height 1. -/
theorem C8_checkSideSlashPackage_accepts_iff_witness :
    ∃ pack, freshSmallKeeper.checkSideSlashPackage exampleEnv
        ([56, 1, 950] ++ List.replicate 20 7) = Except.ok pack :=
  (C8_checkSideSlashPackage_accepts_iff exampleEnv freshSmallKeeper
      ([56, 1, 950] ++ List.replicate 20 7)).2.2.2.1
    { SideAddr := List.replicate 20 7, SideHeight := 1, SideChainId := 56,
      SideTimestamp := 950, addrType := 0 }
    rfl rfl (Or.inl (by decide)) (by decide)

end Keeper

section Sequences

open Keeper

theorem handleValidatorSignatures_snoc (env : Env) (addr : Bytes) (l : List Observation)
    (o : Observation) (k : Keeper) :
    handleValidatorSignatures env k addr (l ++ [o])
      = (handleValidatorSignatures env k addr l).bind
          (fun k' => k'.handleValidatorSignature env o.ctx addr o.power o.signed) := by
  induction l generalizing k with
  | nil =>
    simp only [List.nil_append, handleValidatorSignatures, Option.some_bind]
    cases k.handleValidatorSignature env o.ctx addr o.power o.signed <;> rfl
  | cons a l ih =>
    simp only [List.cons_append, handleValidatorSignatures]
    cases k.handleValidatorSignature env a.ctx addr a.power a.signed with
    | none => rfl
    | some k' => exact ih k'

theorem missedBlocks_succ (base : Context) (s : Int) (time power : Nat → Int) (n : Nat) :
    missedBlocks base s time power (n + 1)
      = missedBlocks base s time power n ++
          [{ ctx := { base with BlockHeight := s + 1 + (n : Int), BlockTime := time n }
             power := power n
             signed := false }] := by
  simp [missedBlocks, List.range_succ]

/-- State of a validator that started fresh at height `s` and missed the first `n` blocks,
for `n` up to the window size: nothing was called on the validator set, offset and counter
are `n`, and exactly the bits `0 .. n-1` are set. -/
theorem missedBlocks_within_window (env : Env) (k : Keeper) (base : Context) (addr : Bytes)
    (pk : Bytes) (info : ValidatorSigningInfo) (s : Int) (time power : Nat → Int) (W : Nat)
    (hW : k.SignedBlocksWindow base = (W : Int)) (hW1 : 1 ≤ W)
    (hWmax : (W : Int) ≤ MaxInt64)
    (hslo : MinInt64 ≤ s) (hshi : s + (W : Int) + 1 ≤ MaxInt64)
    (hpk : k.getPubkey base addr = some pk)
    (hinfo : k.getValidatorSigningInfo base addr = some info)
    (hstart : info.StartHeight = s) (hoff : info.IndexOffset = 0)
    (hcnt : info.MissedBlocksCounter = 0)
    (hbits : ∀ i : Int, k.getValidatorMissedBlockBitArray base addr i = false)
    (n : Nat) (hn : n ≤ W) :
    ∃ kn, handleValidatorSignatures env k addr (missedBlocks base s time power n) = some kn
      ∧ kn.calls = k.calls ∧ kn.params = k.params ∧ kn.addrPubkey = k.addrPubkey
      ∧ kn.validatorSet = k.validatorSet
      ∧ kn.signingInfo base.sideChainScope addr
          = some { StartHeight := s, IndexOffset := (n : Int), JailedUntil := info.JailedUntil,
                   MissedBlocksCounter := (n : Int) }
      ∧ ∀ i : Int, kn.missedBlockBitArray base.sideChainScope addr i
          = decide (0 ≤ i ∧ i < (n : Int)) := by
  induction n with
  | zero =>
    refine ⟨k, rfl, rfl, rfl, rfl, rfl, ?_, ?_⟩
    · have h := hinfo
      simp only [getValidatorSigningInfo] at h
      rw [h]
      cases info
      simp only [] at hstart hoff hcnt
      subst hstart hoff hcnt
      rfl
    · intro i
      have h := hbits i
      simp only [getValidatorMissedBlockBitArray] at h
      rw [h]
      simp
  | succ n ih =>
    obtain ⟨kn, hrun, hcalls, hparams, hpks, hvs, hsi, hb⟩ := ih (by omega)
    unfold MinInt64 at hslo
    unfold MaxInt64 at hshi hWmax
    set ctx : Context := { base with BlockHeight := s + 1 + (n : Int), BlockTime := time n }
      with hctx
    have hscope : ctx.sideChainScope = base.sideChainScope := rfl
    have hWn : kn.SignedBlocksWindow ctx = (W : Int) := by
      simp only [SignedBlocksWindow, hparams, hscope]
      exact hW
    have hpkn : kn.getPubkey ctx addr = some pk := by
      simp only [getPubkey, hpks, hscope]
      exact hpk
    have hinfon : kn.getValidatorSigningInfo ctx addr
        = some { StartHeight := s, IndexOffset := (n : Int), JailedUntil := info.JailedUntil,
                 MissedBlocksCounter := (n : Int) } := by
      simp only [getValidatorSigningInfo, hscope]
      exact hsi
    have hidx : Int.tmod (n : Int) (W : Int) = (n : Int) := by
      rw [Int.tmod_eq_emod (by omega) (by omega)]
      exact Int.emod_eq_of_lt (by omega) (by omega)
    have hcv := updateSignedBlockBit_counter_value kn ctx addr false
      { StartHeight := s, IndexOffset := (n : Int), JailedUntil := info.JailedUntil,
        MissedBlocksCounter := (n : Int) }
      (by unfold MinInt64; simp only []; omega) (by unfold MaxInt64; simp only []; omega)
    simp only [hWn, hidx, hscope, hb] at hcv
    have hcv' : (kn.updateSignedBlockBit ctx addr
        { StartHeight := s, IndexOffset := (n : Int), JailedUntil := info.JailedUntil,
          MissedBlocksCounter := (n : Int) } false).2.MissedBlocksCounter = (n : Int) + 1 := by
      rw [hcv]
      simp
    have hquiet := handleValidatorSignature_quiet env kn ctx addr (power n) false
      { StartHeight := s, IndexOffset := (n : Int), JailedUntil := info.JailedUntil,
        MissedBlocksCounter := (n : Int) } pk hpkn hinfon (by rw [hWn]; omega)
      (by
        rintro ⟨hh, _⟩
        rw [hWn, wrapInt64_eq_self (by simp only []; omega) (by simp only []; omega)] at hh
        simp only [hctx] at hh
        omega)
    rw [missedBlocks_succ, handleValidatorSignatures_snoc, hrun, Option.some_bind]
    refine ⟨_, hquiet, ?_, ?_, ?_, ?_, ?_, ?_⟩
    · rw [quiet_calls, hcalls]
    · simp only [setValidatorSigningInfo, updateSignedBlockBit_params, hparams]
    · simp only [setValidatorSigningInfo, updateSignedBlockBit_addrPubkey, hpks]
    · simp only [setValidatorSigningInfo, updateSignedBlockBit_validatorSet, hvs]
    · have hset := getValidatorSigningInfo_set
        (kn.updateSignedBlockBit ctx addr
          { StartHeight := s, IndexOffset := (n : Int), JailedUntil := info.JailedUntil,
            MissedBlocksCounter := (n : Int) } false).1 ctx addr
        (kn.updateSignedBlockBit ctx addr
          { StartHeight := s, IndexOffset := (n : Int), JailedUntil := info.JailedUntil,
            MissedBlocksCounter := (n : Int) } false).2
      simp only [getValidatorSigningInfo, hscope] at hset
      rw [hset]
      have h1 := updateSignedBlockBit_StartHeight kn ctx addr false
        { StartHeight := s, IndexOffset := (n : Int), JailedUntil := info.JailedUntil,
          MissedBlocksCounter := (n : Int) }
      have h2 := updateSignedBlockBit_IndexOffset kn ctx addr false
        { StartHeight := s, IndexOffset := (n : Int), JailedUntil := info.JailedUntil,
          MissedBlocksCounter := (n : Int) }
      have h3 := updateSignedBlockBit_JailedUntil kn ctx addr false
        { StartHeight := s, IndexOffset := (n : Int), JailedUntil := info.JailedUntil,
          MissedBlocksCounter := (n : Int) }
      simp only [] at h1 h2 h3
      rw [wrapInt64_eq_self (by omega) (by omega)] at h2
      congr 1
      cases hu : (kn.updateSignedBlockBit ctx addr
          { StartHeight := s, IndexOffset := (n : Int), JailedUntil := info.JailedUntil,
            MissedBlocksCounter := (n : Int) } false).2 with
      | mk a b c d =>
        rw [hu] at h1 h2 h3 hcv'
        simp only [] at h1 h2 h3 hcv'
        subst h1 h2 h3 hcv'
        simp
    · intro i
      have hbit := updateSignedBlockBit_bits kn ctx addr false
        { StartHeight := s, IndexOffset := (n : Int), JailedUntil := info.JailedUntil,
          MissedBlocksCounter := (n : Int) } i
      simp only [hWn, hidx, hscope, hb] at hbit
      show (kn.updateSignedBlockBit ctx addr _ false).1.missedBlockBitArray
        base.sideChainScope addr i = _
      rw [hbit]
      by_cases hi : i = (n : Int)
      · simp [hi]
      · simp only [hi, if_false]
        have : (0 ≤ i ∧ i < (n : Int)) ↔ (0 ≤ i ∧ i < ((n + 1 : Nat) : Int)) := by
          push_cast
          omega
        simp only [this]

section Window

theorem eq_of_mod_eq_of_lt_add {j n W : Nat} (hjn : j ≤ n) (hmod : j % W = n % W)
    (hlt : n < j + W) : j = n := by
  have h0 : (n - j) % W = 0 := Nat.sub_mod_eq_zero_of_mod_eq hmod.symm
  have h1 : (n - j) % W = n - j := Nat.mod_eq_of_lt (by omega)
  omega

/-- Among the observations `0 .. n-1`, the one with index `j` is the most recent of its
residue class modulo `W` exactly when it is one of the last `W`. -/
theorem most_recent_iff {j n W : Nat} (hW : 1 ≤ W) :
    (∀ j', j' < n → j' % W = j % W → j' ≤ j) ↔ n ≤ j + W := by
  constructor
  · intro h
    by_contra hlt
    have := h (j + W) (by omega) (by simp)
    omega
  · intro h j' hj' hmod
    by_contra hgt
    have := eq_of_mod_eq_of_lt_add (j := j) (n := j') (W := W) (by omega) hmod.symm
      (by omega)
    omega

theorem missedAt_snoc (obs : List Observation) (o : Observation) (j : Nat) :
    missedAt (obs ++ [o]) j
      = if j < obs.length then missedAt obs j else if j = obs.length then !o.signed
        else false := by
  unfold missedAt
  rw [List.getElem?_append]
  split_ifs with h1 h2
  · rfl
  · subst h2
    simp
  · have : j - obs.length ≠ 0 := by omega
    cases hd : j - obs.length with
    | zero => exact absurd hd this
    | succ m => simp

theorem missedAt_of_length_le (obs : List Observation) (j : Nat) (h : obs.length ≤ j) :
    missedAt obs j = false := by
  unfold missedAt
  rw [List.getElem?_eq_none h]

/-- Sliding the window of the last `W` observations by one observation. -/
theorem countP_window_snoc (obs : List Observation) (o : Observation) (W : Nat)
    (hW : 1 ≤ W) :
    (((obs ++ [o]).drop ((obs ++ [o]).length - W)).countP (fun x => !x.signed) : Int)
      = ((obs.drop (obs.length - W)).countP (fun x => !x.signed) : Nat)
        - (if W ≤ obs.length ∧ missedAt obs (obs.length - W) = true then 1 else 0)
        + (if o.signed then 0 else 1) := by
  have hlen : (obs ++ [o]).length = obs.length + 1 := by simp
  rw [hlen]
  by_cases hn : W ≤ obs.length
  · have h1 : obs.length + 1 - W = (obs.length - W) + 1 := by omega
    have hlt : obs.length - W < obs.length := by omega
    rw [h1, List.drop_append_of_le_length (by omega), List.countP_append,
      List.drop_eq_getElem_cons hlt]
    simp only [List.countP_cons, List.countP_nil]
    have hm : missedAt obs (obs.length - W) = !(obs[obs.length - W]).signed := by
      unfold missedAt
      rw [List.getElem?_eq_getElem hlt]
    rw [hm]
    cases hs : o.signed <;> cases hx : (obs[obs.length - W]).signed <;>
      simp only [hn, true_and, Bool.not_true, Bool.not_false, Bool.false_eq_true, if_true,
        if_false] <;> push_cast <;> omega
  · have h1 : obs.length + 1 - W = 0 := by omega
    have h2 : obs.length - W = 0 := by omega
    rw [h1, h2]
    simp only [List.drop_zero, List.countP_append, hn, false_and, if_false]
    cases hs : o.signed <;> simp [hs]

theorem countP_window_le (obs : List Observation) (W : Nat) :
    (obs.drop (obs.length - W)).countP (fun x => !x.signed) ≤ obs.length := by
  have h := List.countP_le_length (fun x : Observation => !x.signed)
    (l := obs.drop (obs.length - W))
  rw [List.length_drop] at h
  omega

end Window

/-- Invariant of a run of `handleValidatorSignature` calls from fresh signing info: the run
returns, and as long as nothing was called on the validator set the offset is the number
of observations, the counter is the number of misses among the last `W` observations, and
a bit is set exactly when one of the last `W` observations falls on it and was a miss. -/
theorem signatures_track_window (env : Env) (k : Keeper) (scope addr pk : Bytes)
    (info : ValidatorSigningInfo) (W : Nat)
    (hW : (k.params scope).SignedBlocksWindow = (W : Int)) (hW1 : 1 ≤ W)
    (hpk : k.addrPubkey scope addr = some pk)
    (hinfo : k.signingInfo scope addr = some info)
    (hoff : info.IndexOffset = 0) (hcnt : info.MissedBlocksCounter = 0)
    (hbits : ∀ i : Int, k.missedBlockBitArray scope addr i = false) :
    ∀ obs : List Observation, (obs.length : Int) ≤ MaxInt64 →
      (∀ o ∈ obs, o.ctx.sideChainScope = scope) →
      ∃ k', handleValidatorSignatures env k addr obs = some k'
        ∧ k'.params = k.params ∧ k'.addrPubkey = k.addrPubkey
        ∧ (∃ i, k'.signingInfo scope addr = some i)
        ∧ (∃ l, k'.calls = k.calls ++ l)
        ∧ (k'.calls = k.calls →
            (∃ info', k'.signingInfo scope addr = some info'
              ∧ info'.IndexOffset = (obs.length : Int)
              ∧ info'.MissedBlocksCounter
                  = ((obs.drop (obs.length - W)).countP (fun x => !x.signed) : Nat))
            ∧ ∀ i : Int, k'.missedBlockBitArray scope addr i = true
                ↔ ∃ j : Nat, j < obs.length ∧ obs.length ≤ j + W
                    ∧ ((j % W : Nat) : Int) = i ∧ missedAt obs j = true) := by
  intro obs
  induction obs using List.reverseRecOn with
  | nil =>
    intro _ _
    refine ⟨k, rfl, rfl, rfl, ⟨info, hinfo⟩, ⟨[], by simp⟩, fun _ => ⟨⟨info, hinfo, ?_, ?_⟩, ?_⟩⟩
    · simpa using hoff
    · simpa using hcnt
    · intro i
      rw [hbits i]
      simp
  | append_singleton l a ih =>
    intro hlen hscope
    have hlen' : ((l.length : Int) + 1) ≤ MaxInt64 := by
      have : (l ++ [a]).length = l.length + 1 := by simp
      rw [this] at hlen
      exact_mod_cast hlen
    unfold MaxInt64 at hlen'
    obtain ⟨kn, hrun, hparams, hpks, ⟨infon, hsi⟩, ⟨l1, hc1⟩, hcond⟩ :=
      ih (by unfold MaxInt64; omega) (fun o ho => hscope o (by simp [ho]))
    have hsc : a.ctx.sideChainScope = scope := hscope a (by simp)
    have hWn : kn.SignedBlocksWindow a.ctx = (W : Int) := by
      simp only [SignedBlocksWindow, hparams, hsc]
      exact hW
    have hpkn : kn.getPubkey a.ctx addr = some pk := by
      simp only [getPubkey, hpks, hsc]
      exact hpk
    have hinfon : kn.getValidatorSigningInfo a.ctx addr = some infon := by
      simp only [getValidatorSigningInfo, hsc]
      exact hsi
    have hW0 : kn.SignedBlocksWindow a.ctx ≠ 0 := by
      rw [hWn]
      omega
    obtain ⟨k2, hstep, hp2, hpk2, _, ⟨info2, hsi2⟩, ⟨l2, hc2⟩⟩ :=
      handleValidatorSignature_returns env kn a.ctx addr a.power a.signed infon pk hpkn hinfon
        hW0
    rw [hsc] at hsi2
    refine ⟨k2, ?_, hp2.trans hparams, hpk2.trans hpks, ⟨info2, hsi2⟩, ⟨l1 ++ l2, ?_⟩, ?_⟩
    · rw [handleValidatorSignatures_snoc, hrun, Option.some_bind]
      exact hstep
    · rw [hc2, hc1, List.append_assoc]
    · intro hceq
      have hl : l1 ++ l2 = [] := by
        rw [hc2, hc1, List.append_assoc] at hceq
        exact List.append_right_eq_self.mp hceq
      have hl1 : l1 = [] := (List.append_eq_nil.mp hl).1
      have hl2 : l2 = [] := (List.append_eq_nil.mp hl).2
      rw [hl1, List.append_nil] at hc1
      rw [hl2, List.append_nil] at hc2
      obtain ⟨⟨infon', hsi', hoffn, hcntn⟩, hbn⟩ := hcond hc1
      rw [hsi] at hsi'
      injection hsi' with hsame
      subst hsame
      have hk2 : k2 = (kn.updateSignedBlockBit a.ctx addr infon a.signed).1.setValidatorSigningInfo
          a.ctx addr (kn.updateSignedBlockBit a.ctx addr infon a.signed).2 := by
        rcases handleValidatorSignature_cases env kn a.ctx addr a.power a.signed infon pk hpkn
          hinfon hW0 with ⟨h, _⟩ | ⟨h, _⟩
        · rw [hstep] at h
          injection h
        · rw [hstep] at h
          injection h with h
          have hfc := fired_calls kn a.ctx addr a.power a.signed infon
            (wrapInt64 (wrapInt64 (a.ctx.BlockHeight - env.ValidatorUpdateDelay) - 1))
            (kn.SlashFractionDowntime a.ctx)
            { StartHeight := infon.StartHeight
              IndexOffset := 0
              JailedUntil := a.ctx.BlockTime + kn.DowntimeUnbondDuration a.ctx
              MissedBlocksCounter := 0 }
          rw [← h, hc2] at hfc
          have := congrArg List.length hfc
          simp at this
      have hidx : Int.tmod infon.IndexOffset (kn.SignedBlocksWindow a.ctx)
          = ((l.length % W : Nat) : Int) := by
        rw [hoffn, hWn, Int.tmod_eq_emod (by omega) (by omega), Int.natCast_mod]
      have hbprev : kn.missedBlockBitArray scope addr ((l.length % W : Nat) : Int) = true
          ↔ (W ≤ l.length ∧ missedAt l (l.length - W) = true) := by
        rw [hbn]
        constructor
        · rintro ⟨j, hj, hjW, hmod, hm⟩
          have hmod' : j % W = l.length % W := by exact_mod_cast hmod
          have hjl : l.length = j + W := by
            have := eq_of_mod_eq_of_lt_add (j := l.length) (n := j + W) (W := W) hjW
              (by rw [Nat.add_mod_right]; exact hmod'.symm) (by omega)
            exact this
          have : l.length - W = j := by omega
          rw [this]
          exact ⟨by omega, hm⟩
        · rintro ⟨hWl, hm⟩
          refine ⟨l.length - W, by omega, by omega, ?_, hm⟩
          have : (l.length - W) % W = l.length % W := by
            conv_rhs => rw [show l.length = (l.length - W) + W by omega]
            rw [Nat.add_mod_right]
          rw [this]
      have hcn_hi : infon.MissedBlocksCounter < MaxInt64 := by
        have := countP_window_le l W
        rw [hcntn]
        unfold MaxInt64
        omega
      have hcn_lo : MinInt64 < infon.MissedBlocksCounter := by
        rw [hcntn]
        unfold MinInt64
        omega
      have hcv := updateSignedBlockBit_counter_value kn a.ctx addr a.signed infon hcn_lo
        hcn_hi
      rw [hidx, hsc] at hcv
      have hio := updateSignedBlockBit_IndexOffset kn a.ctx addr a.signed infon
      rw [hoffn, wrapInt64_eq_self (by omega) (by omega)] at hio
      have hlen2 : (l ++ [a]).length = l.length + 1 := by simp
      refine ⟨⟨(kn.updateSignedBlockBit a.ctx addr infon a.signed).2, ?_, ?_, ?_⟩, ?_⟩
      · rw [hk2]
        have := getValidatorSigningInfo_set
          (kn.updateSignedBlockBit a.ctx addr infon a.signed).1 a.ctx addr
          (kn.updateSignedBlockBit a.ctx addr infon a.signed).2
        simp only [getValidatorSigningInfo, hsc] at this
        exact this
      · rw [hio, hlen2]
        push_cast
        rfl
      · rw [hcv, countP_window_snoc l a W hW1, hcntn]
        congr 2
        by_cases hb : kn.missedBlockBitArray scope addr ((l.length % W : Nat) : Int) = true
        · simp only [hb, if_true]
          rw [if_pos (hbprev.mp hb)]
        · rw [if_neg hb, if_neg (fun h => hb (hbprev.mpr h))]
      · intro i
        have hbit := updateSignedBlockBit_bits kn a.ctx addr a.signed infon i
        rw [hidx, hsc] at hbit
        have hk2b : k2.missedBlockBitArray scope addr i
            = (kn.updateSignedBlockBit a.ctx addr infon a.signed).1.missedBlockBitArray scope
                addr i := by
          rw [hk2]
          rfl
        rw [hk2b, hbit, hlen2]
        by_cases hi : i = ((l.length % W : Nat) : Int)
        · rw [if_pos hi]
          constructor
          · intro hs
            refine ⟨l.length, by omega, by omega, hi.symm, ?_⟩
            rw [missedAt_snoc]
            simpa using hs
          · rintro ⟨j, hj, hjW, hmod, hm⟩
            have hmod' : j % W = l.length % W := by
              rw [hi] at hmod
              exact_mod_cast hmod
            have hjl : j = l.length :=
              eq_of_mod_eq_of_lt_add (by omega) hmod' (by omega)
            rw [hjl, missedAt_snoc] at hm
            simpa using hm
        · rw [if_neg hi, hbn]
          constructor
          · rintro ⟨j, hj, hjW, hmod, hm⟩
            refine ⟨j, by omega, ?_, hmod, ?_⟩
            · by_contra hlt
              have hjl : l.length = j + W := by omega
              apply hi
              rw [← hmod, hjl, Nat.add_mod_right]
            · rw [missedAt_snoc, if_pos hj]
              exact hm
          · rintro ⟨j, hj, hjW, hmod, hm⟩
            have hjne : j ≠ l.length := by
              intro h
              apply hi
              rw [← hmod, h]
            have hj' : j < l.length := by omega
            refine ⟨j, hj', by omega, hmod, ?_⟩
            rw [missedAt_snoc, if_pos hj'] at hm
            exact hm

/-- C5: starting from fresh signing info (IndexOffset = 0, MissedBlocksCounter = 0, empty
bitmap) and for every sequence of n handleValidatorSignature calls (n an int64) with a
fixed window W >= 1, the calls return, and if no downtime jailing fired during them (no
call was made on the validator set), then bit i of the bitmap, i < W, is set iff the most
recent observation whose index is congruent to i mod W was a miss, and
MissedBlocksCounter equals the number of missed blocks among the most recent min(n, W)
observations. -/
theorem C5_bitmap_records_last_window (env : Env) (k : Keeper) (scope addr pk : Bytes)
    (info : ValidatorSigningInfo) (W : Nat) (obs : List Observation)
    (hW : (k.params scope).SignedBlocksWindow = (W : Int)) (hW1 : 1 ≤ W)
    (hlen : (obs.length : Int) ≤ MaxInt64)
    (hscope : ∀ o ∈ obs, o.ctx.sideChainScope = scope)
    (hpk : k.addrPubkey scope addr = some pk)
    (hinfo : k.signingInfo scope addr = some info)
    (hoff : info.IndexOffset = 0) (hcnt : info.MissedBlocksCounter = 0)
    (hbits : ∀ i : Int, k.missedBlockBitArray scope addr i = false) :
    ∃ k', handleValidatorSignatures env k addr obs = some k'
      ∧ (k'.calls = k.calls →
          (∀ i : Nat, i < W →
            (k'.missedBlockBitArray scope addr (i : Int) = true
              ↔ ∃ j : Nat, j < obs.length ∧ j % W = i
                  ∧ (∀ j' : Nat, j' < obs.length → j' % W = i → j' ≤ j)
                  ∧ missedAt obs j = true))
          ∧ ∃ info', k'.signingInfo scope addr = some info'
              ∧ info'.MissedBlocksCounter
                  = ((obs.drop (obs.length - min obs.length W)).countP
                      (fun o => !o.signed) : Nat)) := by
  obtain ⟨k', hrun, _, _, _, _, hcond⟩ := signatures_track_window env k scope addr pk info W hW
    hW1 hpk hinfo hoff hcnt hbits obs hlen hscope
  refine ⟨k', hrun, fun hc => ?_⟩
  obtain ⟨⟨info', hsi, _, hcount⟩, hb⟩ := hcond hc
  refine ⟨fun i _ => ?_, info', hsi, ?_⟩
  · rw [hb]
    constructor
    · rintro ⟨j, hj, hjW, hmod, hm⟩
      have hmod' : j % W = i := by exact_mod_cast hmod
      refine ⟨j, hj, hmod', ?_, hm⟩
      have := (most_recent_iff (j := j) (n := obs.length) hW1).mpr hjW
      rw [hmod'] at this
      exact this
    · rintro ⟨j, hj, hmod, hrecent, hm⟩
      refine ⟨j, hj, ?_, by exact_mod_cast hmod, hm⟩
      rw [← hmod] at hrecent
      exact (most_recent_iff (j := j) (n := obs.length) hW1).mp hrecent
  · have : obs.length - min obs.length W = obs.length - W := by omega
    rw [this]
    exact hcount

/-- Instance of C5: window 3, the four observations miss, signed, signed, miss. -/
theorem C5_bitmap_records_last_window_witness :
    ∃ k', handleValidatorSignatures exampleEnv freshSmallKeeper [1, 2, 3] exampleObservations
        = some k'
      ∧ (k'.calls = freshSmallKeeper.calls →
          (∀ i : Nat, i < 3 →
            (k'.missedBlockBitArray [] [1, 2, 3] (i : Int) = true
              ↔ ∃ j : Nat, j < exampleObservations.length ∧ j % 3 = i
                  ∧ (∀ j' : Nat, j' < exampleObservations.length → j' % 3 = i → j' ≤ j)
                  ∧ missedAt exampleObservations j = true))
          ∧ ∃ info', k'.signingInfo [] [1, 2, 3] = some info'
              ∧ info'.MissedBlocksCounter
                  = ((exampleObservations.drop
                        (exampleObservations.length - min exampleObservations.length 3)).countP
                      (fun o => !o.signed) : Nat)) :=
  C5_bitmap_records_last_window exampleEnv freshSmallKeeper [] [1, 2, 3] [1, 2, 3] freshInfo 3
    exampleObservations rfl (by decide) (by decide) (by decide) rfl rfl rfl rfl (fun _ => rfl)

/-- C6: for every W >= 1, every M with 0 < M <= W and every StartHeight s (all int64,
with s + W + 1 an int64): a validator that exists, is not jailed, starts from fresh
signing info and misses every block observed at heights s+1, s+2, ... is not slashed at
any height up to and including s+W (no call is made on the validator set), and is
slashed and jailed by the call at height s+W+1, in which its counter after the bit
update exceeds W - M. -/
theorem C6_downtime_fires_at_first_height_after_window (env : Env) (k : Keeper)
    (base : Context) (addr : Bytes) (pk : Bytes) (info : ValidatorSigningInfo) (s : Int)
    (time power : Nat → Int) (W : Nat) (M : Int)
    (hW : k.SignedBlocksWindow base = (W : Int)) (hW1 : 1 ≤ W)
    (hWmax : (W : Int) ≤ MaxInt64)
    (hM : k.MinSignedPerWindow base = M) (hM0 : 0 < M) (hMW : M ≤ (W : Int))
    (hslo : MinInt64 ≤ s) (hshi : s + (W : Int) + 1 ≤ MaxInt64)
    (hpk : k.getPubkey base addr = some pk)
    (hinfo : k.getValidatorSigningInfo base addr = some info)
    (hstart : info.StartHeight = s) (hoff : info.IndexOffset = 0)
    (hcnt : info.MissedBlocksCounter = 0)
    (hbits : ∀ i : Int, k.getValidatorMissedBlockBitArray base addr i = false)
    (hval : ∀ i : Nat, ∃ v,
      k.ValidatorByConsAddr { base with BlockHeight := s + 1 + (i : Int), BlockTime := time i }
        addr = some v ∧ v.Jailed = false) :
    (∀ n : Nat, n ≤ W →
        ∃ kn, handleValidatorSignatures env k addr (missedBlocks base s time power n) = some kn
          ∧ kn.calls = k.calls)
      ∧ ∃ kW infoW k',
          handleValidatorSignatures env k addr (missedBlocks base s time power W) = some kW
          ∧ kW.getValidatorSigningInfo base addr = some infoW
          ∧ (kW.updateSignedBlockBit
                { base with BlockHeight := s + 1 + (W : Int), BlockTime := time W } addr infoW
                false).2.MissedBlocksCounter > (W : Int) - M
          ∧ handleValidatorSignatures env k addr (missedBlocks base s time power (W + 1))
              = some k'
          ∧ ∃ dh fr, k'.calls = k.calls ++
              [ValidatorSetCall.Slash
                  { base with BlockHeight := s + 1 + (W : Int), BlockTime := time W } addr dh
                  (power W) fr,
                ValidatorSetCall.Jail
                  { base with BlockHeight := s + 1 + (W : Int), BlockTime := time W } addr] := by
  constructor
  · intro n hn
    obtain ⟨kn, hrun, hcalls, _⟩ := missedBlocks_within_window env k base addr pk info s time
      power W hW hW1 hWmax hslo hshi hpk hinfo hstart hoff hcnt hbits n hn
    exact ⟨kn, hrun, hcalls⟩
  · obtain ⟨kW, hrun, hcalls, hparams, hpks, hvs, hsi, hb⟩ := missedBlocks_within_window env
      k base addr pk info s time power W hW hW1 hWmax hslo hshi hpk hinfo hstart hoff hcnt
      hbits W (le_refl W)
    unfold MinInt64 at hslo
    unfold MaxInt64 at hshi hWmax
    set ctx : Context := { base with BlockHeight := s + 1 + (W : Int), BlockTime := time W }
      with hctx
    have hscope : ctx.sideChainScope = base.sideChainScope := rfl
    have hWn : kW.SignedBlocksWindow ctx = (W : Int) := by
      simp only [SignedBlocksWindow, hparams, hscope]
      exact hW
    have hMn : kW.MinSignedPerWindow ctx = M := by
      simp only [MinSignedPerWindow, hparams, hscope]
      exact hM
    have hpkn : kW.getPubkey ctx addr = some pk := by
      simp only [getPubkey, hpks, hscope]
      exact hpk
    have hinfon : kW.getValidatorSigningInfo ctx addr
        = some { StartHeight := s, IndexOffset := (W : Int), JailedUntil := info.JailedUntil,
                 MissedBlocksCounter := (W : Int) } := by
      simp only [getValidatorSigningInfo, hscope]
      exact hsi
    have hidx : Int.tmod (W : Int) (W : Int) = 0 := by
      rw [Int.tmod_eq_emod (by omega) (by omega)]
      exact Int.emod_self
    have hb0 : kW.missedBlockBitArray base.sideChainScope addr 0 = true := by
      rw [hb 0]
      have : (0 : Int) < (W : Int) := by omega
      simp [this]
    have hcv' : (kW.updateSignedBlockBit ctx addr
        { StartHeight := s, IndexOffset := (W : Int), JailedUntil := info.JailedUntil,
          MissedBlocksCounter := (W : Int) } false).2.MissedBlocksCounter = (W : Int) := by
      unfold updateSignedBlockBit
      simp [getValidatorMissedBlockBitArray, hWn, hidx, hscope, hb0]
    obtain ⟨v, hv, hj⟩ := hval W
    have hvn : kW.ValidatorByConsAddr ctx addr = some v := by
      simp only [ValidatorByConsAddr, hvs, hcalls]
      exact hv
    have hfire := handleValidatorSignature_fires env kW ctx addr (power W) false
      { StartHeight := s, IndexOffset := (W : Int), JailedUntil := info.JailedUntil,
        MissedBlocksCounter := (W : Int) } pk v hpkn hinfon (by rw [hWn]; omega)
      (by
        rw [hWn, wrapInt64_eq_self (by simp only []; omega) (by simp only []; omega)]
        simp only [hctx]
        omega)
      (by
        rw [hcv', hWn, hMn, wrapInt64_eq_self (by omega) (by omega)]
        omega)
      hvn hj
    have hrun' : handleValidatorSignatures env k addr (missedBlocks base s time power (W + 1))
        = kW.handleValidatorSignature env ctx addr (power W) false := by
      rw [missedBlocks_succ, handleValidatorSignatures_snoc, hrun, Option.some_bind]
    rw [hfire] at hrun'
    refine ⟨kW, _, _, hrun, hinfon, ?_, hrun', ?_⟩
    · rw [hcv']
      omega
    · refine ⟨wrapInt64 (wrapInt64 (ctx.BlockHeight - env.ValidatorUpdateDelay) - 1),
        kW.SlashFractionDowntime ctx, ?_⟩
      rw [fired_calls, hcalls]

/-- Instance of C6 with W = 100, M = 50, s = 0: no call on the validator set through
height 100, Slash and Jail at height 101. -/
theorem C6_downtime_fires_at_first_height_after_window_witness :
    (∀ n : Nat, n ≤ 100 →
        ∃ kn, handleValidatorSignatures exampleEnv freshKeeper [1, 2, 3]
            (missedBlocks (exampleCtx 0 0) 0 (fun i => 5 * (i : Int)) (fun _ => 50) n) = some kn
          ∧ kn.calls = freshKeeper.calls)
      ∧ ∃ kW infoW k',
          handleValidatorSignatures exampleEnv freshKeeper [1, 2, 3]
            (missedBlocks (exampleCtx 0 0) 0 (fun i => 5 * (i : Int)) (fun _ => 50) 100) = some kW
          ∧ kW.getValidatorSigningInfo (exampleCtx 0 0) [1, 2, 3] = some infoW
          ∧ (kW.updateSignedBlockBit
                { exampleCtx 0 0 with BlockHeight := 0 + 1 + ((100 : Nat) : Int),
                                      BlockTime := 5 * ((100 : Nat) : Int) }
                [1, 2, 3] infoW false).2.MissedBlocksCounter > ((100 : Nat) : Int) - 50
          ∧ handleValidatorSignatures exampleEnv freshKeeper [1, 2, 3]
              (missedBlocks (exampleCtx 0 0) 0 (fun i => 5 * (i : Int)) (fun _ => 50) (100 + 1))
              = some k'
          ∧ ∃ dh fr, k'.calls = freshKeeper.calls ++
              [ValidatorSetCall.Slash
                  { exampleCtx 0 0 with BlockHeight := 0 + 1 + ((100 : Nat) : Int),
                                        BlockTime := 5 * ((100 : Nat) : Int) }
                  [1, 2, 3] dh 50 fr,
                ValidatorSetCall.Jail
                  { exampleCtx 0 0 with BlockHeight := 0 + 1 + ((100 : Nat) : Int),
                                        BlockTime := 5 * ((100 : Nat) : Int) }
                  [1, 2, 3]] :=
  C6_downtime_fires_at_first_height_after_window exampleEnv freshKeeper (exampleCtx 0 0)
    [1, 2, 3] [1, 2, 3] freshInfo 0 (fun i => 5 * (i : Int)) (fun _ => 50) 100 50 rfl
    (by decide) (by decide) rfl (by decide) (by decide) (by decide) (by decide) rfl rfl rfl rfl
    rfl (fun _ => rfl) (fun _ => ⟨exampleValidator, rfl, rfl⟩)

end Sequences

namespace Keeper

section Frame

variable (k : Keeper) (ctx : Context)

@[simp]
theorem Publish_ScKeeper (e : SideSlashEvent) : (k.Publish e).ScKeeper = k.ScKeeper := by
  unfold Publish
  split <;> rfl

@[simp]
theorem Publish_params (e : SideSlashEvent) : (k.Publish e).params = k.params := by
  unfold Publish
  split <;> rfl

@[simp]
theorem Publish_Codespace (e : SideSlashEvent) :
    (k.Publish e).Codespace = k.Codespace := by
  unfold Publish
  split <;> rfl

@[simp]
theorem Publish_validatorSet (e : SideSlashEvent) :
    (k.Publish e).validatorSet = k.validatorSet := by
  unfold Publish
  split <;> rfl

@[simp]
theorem Publish_PbsbServer (e : SideSlashEvent) :
    (k.Publish e).PbsbServer = k.PbsbServer := by
  unfold Publish
  split <;> rfl

@[simp]
theorem Publish_calls (e : SideSlashEvent) : (k.Publish e).calls = k.calls := by
  unfold Publish
  split <;> rfl

@[simp]
theorem Publish_feePool (e : SideSlashEvent) : (k.Publish e).feePool = k.feePool := by
  unfold Publish
  split <;> rfl

@[simp]
theorem Publish_slashRecords (e : SideSlashEvent) :
    (k.Publish e).slashRecords = k.slashRecords := by
  unfold Publish
  split <;> rfl

@[simp]
theorem Publish_signingInfo (e : SideSlashEvent) :
    (k.Publish e).signingInfo = k.signingInfo := by
  unfold Publish
  split <;> rfl

theorem Publish_published (e : SideSlashEvent) :
    (k.Publish e).published = if k.PbsbServer then k.published ++ [e] else k.published := by
  unfold Publish
  split <;> rfl

/-- A record just written is found under its composite key. -/
theorem hasSlashRecord_setSlashRecord (r : SlashRecord) :
    (k.setSlashRecord ctx r).hasSlashRecord ctx r.ConsAddr r.InfractionType
      r.InfractionHeight = true := by
  simp [hasSlashRecord, setSlashRecord]

/-- Writing a malicious-vote record marks its address as slashed for a malicious vote. -/
theorem isMaliciousVoteSlashed_setSlashRecord (r : SlashRecord)
    (hkind : r.InfractionType = InfractionType.MaliciousVote) :
    (k.setSlashRecord ctx r).isMaliciousVoteSlashed ctx r.ConsAddr = true := by
  simp [isMaliciousVoteSlashed, setSlashRecord, hkind]

end Frame

section Downtime

/-- A downtime packet for an unknown chain id is rejected without any effect. -/
theorem slashingSideDowntime_unknown_chain (env : Env) (k : Keeper) (ctx : Context)
    (pack : SideSlashPackage) (h : k.ScKeeper.GetDestChainName pack.SideChainId = none) :
    k.slashingSideDowntime env ctx pack
      = (k, some (some (SdkError.InvalidSideChainId env.DefaultCodespace))) := by
  unfold slashingSideDowntime
  simp only [h]

/-- What a successful `slashingSideDowntime` went through: the chain is known, the
evidence is not expired and not a duplicate, and the state is the one left by the final
recording step run on a keeper with the same configuration. -/
theorem slashingSideDowntime_success (env : Env) (k k1 : Keeper) (ctx : Context)
    (pack : SideSlashPackage) (h : k.slashingSideDowntime env ctx pack = (k1, some none)) :
    ∃ name sideCtx, k.ScKeeper.GetDestChainName pack.SideChainId = some name
      ∧ k.ScKeeper.PrepareCtxForSideChain ctx name = some sideCtx
      ∧ ¬ (wrapUint64 ((wrapUint64 (unixSeconds sideCtx.BlockTime) : Int)
              - (pack.SideTimestamp : Int))
            > durationSecondsUint64 (k.MaxEvidenceAge sideCtx))
      ∧ k.hasSlashRecord sideCtx pack.SideAddr InfractionType.Downtime pack.SideHeight = false
      ∧ ∃ k' v s t comp, k'.ScKeeper = k.ScKeeper ∧ k'.params = k.params
          ∧ k'.Codespace = k.Codespace
          ∧ slashingSideDowntimeRecord env k' sideCtx pack name v s t comp
              = (k1, some none) := by
  unfold slashingSideDowntime at h
  simp only [] at h
  split at h
  · simp at h
  · rename_i name hname
    split at h
    · simp at h
    · rename_i sideCtx hctx
      refine ⟨name, sideCtx, hname, hctx, ?_⟩
      split at h
      · simp at h
      · rename_i hage
        split at h
        · simp at h
        · rename_i hdup
          refine ⟨hage, by simpa using hdup, ?_⟩
          split at h
          · simp at h
          · rename_i v s hslash
            split at h
            · split at h
              · simp at h
              · split at h
                · exact ⟨_, v, s, _, _, by split_ifs <;> rfl, by split_ifs <;> rfl,
                    by split_ifs <;> rfl, h⟩
                · exact ⟨_, v, s, _, _, by split_ifs <;> rfl, by split_ifs <;> rfl,
                    by split_ifs <;> rfl, h⟩
            · exact ⟨_, v, s, _, _, by split_ifs <;> rfl, by split_ifs <;> rfl,
                by split_ifs <;> rfl, h⟩

/-- What the recording step of a successful downtime slash leaves: the configuration is
untouched and the slash record of the packet is in the store. -/
theorem slashingSideDowntimeRecord_success (env : Env) (k k1 : Keeper) (sideCtx : Context)
    (pack : SideSlashPackage) (name : String) (v : Option Validator) (s : Dec) (t : Int)
    (comp : List (String × Int))
    (h : slashingSideDowntimeRecord env k sideCtx pack name v s t comp = (k1, some none)) :
    k1.ScKeeper = k.ScKeeper ∧ k1.params = k.params ∧ k1.Codespace = k.Codespace
      ∧ k1.hasSlashRecord sideCtx pack.SideAddr InfractionType.Downtime pack.SideHeight
          = true := by
  unfold slashingSideDowntimeRecord at h
  simp only [] at h
  split at h
  · simp at h
  · split at h
    · split at h
      · simp at h
      · simp only [Prod.mk.injEq, and_true] at h
        subst h
        refine ⟨by simp [setValidatorSigningInfo, setSlashRecord],
          by simp [setValidatorSigningInfo, setSlashRecord],
          by simp [setValidatorSigningInfo, setSlashRecord], ?_⟩
        simp [hasSlashRecord, setValidatorSigningInfo, setSlashRecord]
    · simp only [Prod.mk.injEq, and_true] at h
      subst h
      refine ⟨by simp [setValidatorSigningInfo, setSlashRecord],
        by simp [setValidatorSigningInfo, setSlashRecord],
        by simp [setValidatorSigningInfo, setSlashRecord], ?_⟩
      simp [hasSlashRecord, setValidatorSigningInfo, setSlashRecord]

/-- A downtime packet whose slash record is already in the store is rejected as a
duplicate, without any effect. -/
theorem slashingSideDowntime_duplicate (env : Env) (k : Keeper) (ctx sideCtx : Context)
    (pack : SideSlashPackage) (name : String)
    (hname : k.ScKeeper.GetDestChainName pack.SideChainId = some name)
    (hctx : k.ScKeeper.PrepareCtxForSideChain ctx name = some sideCtx)
    (hage : ¬ (wrapUint64 ((wrapUint64 (unixSeconds sideCtx.BlockTime) : Int)
              - (pack.SideTimestamp : Int))
            > durationSecondsUint64 (k.MaxEvidenceAge sideCtx)))
    (hdup : k.hasSlashRecord sideCtx pack.SideAddr InfractionType.Downtime pack.SideHeight
      = true) :
    k.slashingSideDowntime env ctx pack
      = (k, some (some (SdkError.DuplicateDowntimeClaim k.Codespace))) := by
  unfold slashingSideDowntime
  simp only [hname, hctx, if_neg hage, hdup, if_true]

end Downtime

/-- C12: for every side-chain downtime packet that slashingSideDowntime applied
successfully (returning no error, a SlashRecord having been written), submitting the same
packet again in the same block (same context, on the state left by the first application)
returns DuplicateDowntimeClaim and leaves the whole keeper state as it was after the first
application: no SlashSideChain or allocation call, no fee-pool commit, slash records and
signing info identical. -/
theorem C12_downtime_resubmission_is_duplicate (env : Env) (k k1 : Keeper) (ctx : Context)
    (pack : SideSlashPackage)
    (hfirst : k.slashingSideDowntime env ctx pack = (k1, some none)) :
    k1.slashingSideDowntime env ctx pack
        = (k1, some (some (SdkError.DuplicateDowntimeClaim k1.Codespace)))
      ∧ (k1.slashingSideDowntime env ctx pack).1.calls = k1.calls
      ∧ (k1.slashingSideDowntime env ctx pack).1.feePool = k1.feePool
      ∧ (k1.slashingSideDowntime env ctx pack).1.slashRecords = k1.slashRecords
      ∧ (k1.slashingSideDowntime env ctx pack).1.signingInfo = k1.signingInfo := by
  obtain ⟨name, sideCtx, hname, hctx, hage, _, k', v, s, t, comp, hsc, hparams, _, hrec⟩ :=
    slashingSideDowntime_success env k k1 ctx pack hfirst
  obtain ⟨hsc1, hparams1, _, hhas⟩ :=
    slashingSideDowntimeRecord_success env k' k1 sideCtx pack name v s t comp hrec
  have hres : k1.slashingSideDowntime env ctx pack
      = (k1, some (some (SdkError.DuplicateDowntimeClaim k1.Codespace))) := by
    apply slashingSideDowntime_duplicate env k1 ctx sideCtx pack name
    · rw [hsc1, hsc]
      exact hname
    · rw [hsc1, hsc]
      exact hctx
    · simp only [MaxEvidenceAge, hparams1, hparams]
      exact hage
    · exact hhas
  rw [hres]
  exact ⟨rfl, rfl, rfl, rfl, rfl⟩

/-- Instance of C12: the downtime packet `exampleDowntimePackage` applied to
`freshSmallKeeper` and submitted again. -/
theorem C12_downtime_resubmission_is_duplicate_witness :
    downtimeAppliedKeeper.slashingSideDowntime exampleEnv exampleBlockCtx
        exampleDowntimePackage
        = (downtimeAppliedKeeper,
            some (some (SdkError.DuplicateDowntimeClaim downtimeAppliedKeeper.Codespace)))
      ∧ (downtimeAppliedKeeper.slashingSideDowntime exampleEnv exampleBlockCtx
          exampleDowntimePackage).1.calls = downtimeAppliedKeeper.calls
      ∧ (downtimeAppliedKeeper.slashingSideDowntime exampleEnv exampleBlockCtx
          exampleDowntimePackage).1.feePool = downtimeAppliedKeeper.feePool
      ∧ (downtimeAppliedKeeper.slashingSideDowntime exampleEnv exampleBlockCtx
          exampleDowntimePackage).1.slashRecords = downtimeAppliedKeeper.slashRecords
      ∧ (downtimeAppliedKeeper.slashingSideDowntime exampleEnv exampleBlockCtx
          exampleDowntimePackage).1.signingInfo = downtimeAppliedKeeper.signingInfo :=
  C12_downtime_resubmission_is_duplicate exampleEnv freshSmallKeeper downtimeAppliedKeeper
    exampleBlockCtx exampleDowntimePackage rfl

section Expiry

/-- A value below `2^53` times the denominator is not scaled down. -/
theorem scaleDown_of_lt (fuel n d : Nat) (h : n < 9007199254740992 * d) :
    scaleDown fuel n d = 0 := by
  cases fuel with
  | zero => rfl
  | succ f => simp only [scaleDown, if_pos h]

/-- An integer below `2^53` is a `float64`: the nearest `float64` of `s * d / d` is `s`. -/
theorem float64Nearest_exact (s d : Nat) (hd : 0 < d) (hs : s < 9007199254740992) :
    ∃ j, float64Nearest (s * d) d = (s * 2 ^ j, 2 ^ j) := by
  unfold float64Nearest
  by_cases h0 : s * d = 0
  · refine ⟨0, ?_⟩
    have hs0 : s = 0 := by
      rcases Nat.mul_eq_zero.mp h0 with h | h
      · exact h
      · omega
    simp [hs0]
  · refine ⟨scaleUp 1100 (s * d) d, ?_⟩
    have hlt : s * d < 9007199254740992 * d := Nat.mul_lt_mul_of_pos_right hs hd
    simp only [if_neg h0, scaleDown_of_lt 1100 (s * d) d hlt, pow_zero, mul_one]
    have hdiv : s * d * 2 ^ scaleUp 1100 (s * d) d / d = s * 2 ^ scaleUp 1100 (s * d) d := by
      rw [Nat.mul_right_comm, Nat.mul_div_cancel _ hd]
    have hmod : s * d * 2 ^ scaleUp 1100 (s * d) d % d = 0 := by
      rw [Nat.mul_right_comm]
      exact Nat.mul_mod_left _ _
    simp only [roundHalfEven, hdiv, hmod, mul_zero, hd, if_true]

/-- The threshold `uint64(d.Seconds())` of a duration of a whole number of seconds below
`2^53` is that number of seconds. -/
theorem durationSecondsUint64_whole (s : Nat) (hs : s < 9007199254740992) :
    durationSecondsUint64 ((s : Int) * 1000000000) = s := by
  have hnn : (0 : Int) ≤ (s : Int) * 1000000000 := by positivity
  have hnat : ((s : Int) * 1000000000).toNat = s * 1000000000 := by
    have : ((s : Int) * 1000000000) = ((s * 1000000000 : Nat) : Int) := by push_cast; ring
    rw [this, Int.toNat_natCast]
  unfold durationSecondsUint64
  rw [if_pos hnn, hnat]
  have hsec : s * 1000000000 / 1000000000 = s := Nat.mul_div_cancel _ (by decide)
  have hnsec : s * 1000000000 % 1000000000 = 0 := Nat.mul_mod_left _ _
  obtain ⟨j, hj⟩ := float64Nearest_exact s 1 (by decide) hs
  rw [mul_one] at hj
  obtain ⟨j2, hj2⟩ := float64Nearest_exact s (2 ^ j) (by positivity) hs
  have hzero : ∀ d, float64Nearest 0 d = (0, 1) := fun d => by simp [float64Nearest]
  have hfloat : durationSecondsFloat (s * 1000000000) = (s * 2 ^ j2, 2 ^ j2) := by
    unfold durationSecondsFloat
    simp only [hsec, hnsec, hj, hzero, mul_one, zero_mul, add_zero]
    exact hj2
  rw [hfloat]
  exact Nat.mul_div_cancel _ (by positivity)

theorem evidenceAge_of_le {u : Int} {ts : Nat} (h0 : 0 ≤ u) (h1 : u ≤ MaxInt64)
    (hts : (ts : Int) ≤ u) :
    (wrapUint64 ((wrapUint64 u : Int) - (ts : Int)) : Int) = u - ts := by
  unfold MaxInt64 at h1
  unfold wrapUint64
  omega

/-- A downtime packet that fails the evidence-age test is rejected without any effect. -/
theorem slashingSideDowntime_expired (env : Env) (k : Keeper) (ctx sideCtx : Context)
    (pack : SideSlashPackage) (name : String)
    (hname : k.ScKeeper.GetDestChainName pack.SideChainId = some name)
    (hctx : k.ScKeeper.PrepareCtxForSideChain ctx name = some sideCtx)
    (hage : wrapUint64 ((wrapUint64 (unixSeconds sideCtx.BlockTime) : Int)
              - (pack.SideTimestamp : Int))
            > durationSecondsUint64 (k.MaxEvidenceAge sideCtx)) :
    k.slashingSideDowntime env ctx pack
      = (k, some (some (SdkError.ExpiredEvidence env.DefaultCodespace))) := by
  unfold slashingSideDowntime
  simp only [hname, hctx, if_pos hage]

/-- A malicious-vote packet that fails the evidence-age test is rejected without any
effect. -/
theorem slashingSideMaliciousVote_expired (env : Env) (k : Keeper) (ctx sideCtx : Context)
    (pack : SideSlashPackage) (name : String)
    (hname : k.ScKeeper.GetDestChainName pack.SideChainId = some name)
    (hctx : k.ScKeeper.PrepareCtxForSideChain ctx name = some sideCtx)
    (hage : wrapUint64 ((wrapUint64 (unixSeconds sideCtx.BlockTime) : Int)
              - (pack.SideTimestamp : Int))
            > durationSecondsUint64 (k.MaxEvidenceAge sideCtx)) :
    k.slashingSideMaliciousVote env ctx pack
      = (k, some (some (SdkError.ExpiredEvidence env.DefaultCodespace))) := by
  unfold slashingSideMaliciousVote
  simp only [hname, hctx, if_pos hage]

end Expiry

/-- C20, the claim as stated fails: with a MaxEvidenceAge of 16 777 216 999 999 999 ns
(16 777 216 whole seconds) a packet of age 16 777 217 s is older than MaxEvidenceAge in
whole seconds, yet neither handler returns ExpiredEvidence: the threshold
`uint64(MaxEvidenceAge.Seconds())` is computed in `float64`, where the seconds round up to
16 777 217, and both handlers go on to call SlashSideChain and return no error. -/
theorem C20_rounded_threshold_counterexample :
    unixSeconds recentBlockCtx.BlockTime - (roundedAgePackage.SideTimestamp : Int)
        > roundedAgeKeeper.MaxEvidenceAge recentBlockCtx / 1000000000
      ∧ unixSeconds recentBlockCtx.BlockTime - (roundedAgeVotePackage.SideTimestamp : Int)
        > roundedAgeKeeper.MaxEvidenceAge recentBlockCtx / 1000000000
      ∧ durationSecondsUint64 (roundedAgeKeeper.MaxEvidenceAge recentBlockCtx) = 16777217
      ∧ (roundedAgeKeeper.slashingSideDowntime exampleEnv recentBlockCtx
          roundedAgePackage).2 = some none
      ∧ (roundedAgeKeeper.slashingSideDowntime exampleEnv recentBlockCtx
          roundedAgePackage).1.calls
        = [ValidatorSetCall.SlashSideChain recentBlockCtx "bsc" (List.replicate 20 7) 1000,
           ValidatorSetCall.AllocateSlashAmtToValidators
             { recentBlockCtx with sideChainScope := [98, 115, 99] } (List.replicate 20 7)
             900]
      ∧ (roundedAgeKeeper.slashingSideMaliciousVote exampleEnv recentBlockCtx
          roundedAgeVotePackage).2 = some none
      ∧ (roundedAgeKeeper.slashingSideMaliciousVote exampleEnv recentBlockCtx
          roundedAgeVotePackage).1.calls
        = [ValidatorSetCall.SlashSideChain recentBlockCtx "bsc" (List.replicate 20 7) 2000,
           ValidatorSetCall.AllocateSlashAmtToValidators
             { recentBlockCtx with sideChainScope := [98, 115, 99] } (List.replicate 20 7)
             2000] :=
  ⟨by decide, by decide, by decide, by decide, by decide, by decide, by decide⟩

/-- C20 (amended): for every side-chain packet (downtime or malicious vote) with a known
chain id whose age sideBlockTime - SideTimestamp, in unix seconds (the block time being an
int64 number of seconds), exceeds the threshold of the code, uint64(MaxEvidenceAge.Seconds()),
each handler returns ExpiredEvidence and leaves the keeper state as it was, whatever the
slash records hold: no SlashSideChain call, no slash record and no signing info is
written.  The threshold is MaxEvidenceAge in whole seconds whenever MaxEvidenceAge is a
whole number of seconds below 2^53. -/
theorem C20_expired_evidence_is_rejected (env : Env) (k : Keeper) (ctx sideCtx : Context)
    (pack : SideSlashPackage) (name : String)
    (hname : k.ScKeeper.GetDestChainName pack.SideChainId = some name)
    (hctx : k.ScKeeper.PrepareCtxForSideChain ctx name = some sideCtx)
    (hunix1 : unixSeconds sideCtx.BlockTime ≤ MaxInt64)
    (hexpired : unixSeconds sideCtx.BlockTime - (pack.SideTimestamp : Int)
      > (durationSecondsUint64 (k.MaxEvidenceAge sideCtx) : Int)) :
    k.slashingSideDowntime env ctx pack
        = (k, some (some (SdkError.ExpiredEvidence env.DefaultCodespace)))
      ∧ k.slashingSideMaliciousVote env ctx pack
        = (k, some (some (SdkError.ExpiredEvidence env.DefaultCodespace)))
      ∧ ∀ s : Nat, s < 9007199254740992 → k.MaxEvidenceAge sideCtx = (s : Int) * 1000000000 →
          (durationSecondsUint64 (k.MaxEvidenceAge sideCtx) : Int)
            = k.MaxEvidenceAge sideCtx / 1000000000 := by
  have hage := @evidenceAge_of_le _ pack.SideTimestamp (by omega) hunix1 (by omega)
  have hgt : wrapUint64 ((wrapUint64 (unixSeconds sideCtx.BlockTime) : Int)
              - (pack.SideTimestamp : Int))
            > durationSecondsUint64 (k.MaxEvidenceAge sideCtx) := by
    have : (durationSecondsUint64 (k.MaxEvidenceAge sideCtx) : Int)
        < (wrapUint64 ((wrapUint64 (unixSeconds sideCtx.BlockTime) : Int)
              - (pack.SideTimestamp : Int)) : Int) := by
      rw [hage]
      exact hexpired
    exact_mod_cast this
  refine ⟨slashingSideDowntime_expired env k ctx sideCtx pack name hname hctx hgt,
    slashingSideMaliciousVote_expired env k ctx sideCtx pack name hname hctx hgt, ?_⟩
  intro s hs hmax
  rw [hmax, durationSecondsUint64_whole s hs]
  omega

/-- Instance of C20: block time 1000 s, side timestamp 800, MaxEvidenceAge 120 s. -/
theorem C20_expired_evidence_is_rejected_witness :
    freshSmallKeeper.slashingSideDowntime exampleEnv exampleBlockCtx exampleOldPackage
        = (freshSmallKeeper,
            some (some (SdkError.ExpiredEvidence exampleEnv.DefaultCodespace)))
      ∧ freshSmallKeeper.slashingSideMaliciousVote exampleEnv exampleBlockCtx
          exampleOldPackage
        = (freshSmallKeeper,
            some (some (SdkError.ExpiredEvidence exampleEnv.DefaultCodespace)))
      ∧ ∀ s : Nat, s < 9007199254740992 →
          freshSmallKeeper.MaxEvidenceAge exampleSideCtx = (s : Int) * 1000000000 →
          (durationSecondsUint64 (freshSmallKeeper.MaxEvidenceAge exampleSideCtx) : Int)
            = freshSmallKeeper.MaxEvidenceAge exampleSideCtx / 1000000000 :=
  C20_expired_evidence_is_rejected exampleEnv freshSmallKeeper exampleBlockCtx exampleSideCtx
    exampleOldPackage "bsc" rfl rfl (by decide) (by decide)

section MaliciousVote

/-- What a successful `slashingSideMaliciousVote` went through: the chain is known, the
evidence is not expired, the vote address resolves to a validator with signing info,
neither the anti-drain guard nor the duplicate test rejected the packet, and the state is
the one left by the final recording step run on a keeper with the same configuration. -/
theorem slashingSideMaliciousVote_success (env : Env) (k k1 : Keeper) (ctx : Context)
    (pack : SideSlashPackage)
    (h : k.slashingSideMaliciousVote env ctx pack = (k1, some none)) :
    ∃ name sideCtx v info, k.ScKeeper.GetDestChainName pack.SideChainId = some name
      ∧ k.ScKeeper.PrepareCtxForSideChain ctx name = some sideCtx
      ∧ ¬ (wrapUint64 ((wrapUint64 (unixSeconds sideCtx.BlockTime) : Int)
              - (pack.SideTimestamp : Int))
            > durationSecondsUint64 (k.MaxEvidenceAge sideCtx))
      ∧ k.ValidatorByVoteAddr sideCtx pack.SideAddr = some v
      ∧ k.getValidatorSigningInfo sideCtx v.SideChainConsAddr = some info
      ∧ ¬ (k.isMaliciousVoteSlashed sideCtx v.SideChainConsAddr = true
            ∧ pack.SideTimestamp < wrapUint64 (unixSeconds info.JailedUntil))
      ∧ k.hasSlashRecord sideCtx v.SideChainConsAddr InfractionType.MaliciousVote
          pack.SideHeight = false
      ∧ ∃ k' v' s t comp, k'.ScKeeper = k.ScKeeper ∧ k'.params = k.params
          ∧ k'.Codespace = k.Codespace
          ∧ slashingSideMaliciousVoteRecord k' sideCtx pack name v.SideChainConsAddr info v' s
              t comp = (k1, some none) := by
  unfold slashingSideMaliciousVote at h
  simp only [] at h
  split at h
  · simp at h
  · rename_i name hname
    split at h
    · simp at h
    · rename_i sideCtx hctx
      split at h
      · simp at h
      · rename_i hage
        split at h
        · simp at h
        · rename_i v hv
          split at h
          · simp at h
          · rename_i info hinfo
            refine ⟨name, sideCtx, v, info, hname, hctx, hage, hv, hinfo, ?_⟩
            split at h
            · simp at h
            · rename_i hguard
              split at h
              · simp at h
              · rename_i hdup
                refine ⟨by simpa using hguard, by simpa using hdup, ?_⟩
                split at h
                · simp at h
                · rename_i v' s hslash
                  split at h
                  · split at h
                    · simp at h
                    · split at h
                      · refine ⟨_, v', s, _, _, ?_, ?_, ?_, h⟩ <;> rfl
                      · refine ⟨_, v', s, _, _, ?_, ?_, ?_, h⟩ <;> rfl
                  · refine ⟨_, v', s, _, _, ?_, ?_, ?_, h⟩ <;> rfl

/-- The recording step of a malicious-vote slash never returns an error: it returns Go
`nil`, unless a publisher is set and the validator is nil, where it panics. -/
theorem slashingSideMaliciousVoteRecord_outcome (k : Keeper) (sideCtx : Context)
    (pack : SideSlashPackage) (name : String) (consAddr : Bytes)
    (info : ValidatorSigningInfo) (v : Option Validator) (s : Dec) (t : Int)
    (comp : List (String × Int)) :
    (slashingSideMaliciousVoteRecord k sideCtx pack name consAddr info v s t comp).2
      = if k.PbsbServer = true ∧ v = none then none else some none := by
  unfold slashingSideMaliciousVoteRecord
  cases v <;> cases hp : k.PbsbServer <;> simp [setValidatorSigningInfo, setSlashRecord, hp]

/-- The recording step of a malicious-vote slash returns Go `nil` when no publisher is set
or the validator is not nil. -/
theorem slashingSideMaliciousVoteRecord_returns (k : Keeper) (sideCtx : Context)
    (pack : SideSlashPackage) (name : String) (consAddr : Bytes)
    (info : ValidatorSigningInfo) (v : Option Validator) (s : Dec) (t : Int)
    (comp : List (String × Int)) (hv : k.PbsbServer = false ∨ v.isSome = true) :
    (slashingSideMaliciousVoteRecord k sideCtx pack name consAddr info v s t comp).2
      = some none := by
  rw [slashingSideMaliciousVoteRecord_outcome]
  rcases hv with hv | hv
  · simp [hv]
  · cases v with
    | none => simp at hv
    | some w => simp

/-- The state left by the recording step of a malicious-vote slash: configuration, calls
and fee pool are untouched, the record of the packet is in the store, and the signing info
of the validator has the later of the old and the new jail term. -/
theorem slashingSideMaliciousVoteRecord_state (k : Keeper) (sideCtx : Context)
    (pack : SideSlashPackage) (name : String) (consAddr : Bytes)
    (info : ValidatorSigningInfo) (v : Option Validator) (s : Dec) (t : Int)
    (comp : List (String × Int)) :
    (slashingSideMaliciousVoteRecord k sideCtx pack name consAddr info v s t comp).1.ScKeeper
          = k.ScKeeper
      ∧ (slashingSideMaliciousVoteRecord k sideCtx pack name consAddr info v s t comp).1.params
          = k.params
      ∧ (slashingSideMaliciousVoteRecord k sideCtx pack name consAddr info v s t comp).1.Codespace
          = k.Codespace
      ∧ (slashingSideMaliciousVoteRecord k sideCtx pack name consAddr info v s t
            comp).1.hasSlashRecord sideCtx consAddr InfractionType.MaliciousVote
            pack.SideHeight = true
      ∧ (slashingSideMaliciousVoteRecord k sideCtx pack name consAddr info v s t
            comp).1.isMaliciousVoteSlashed sideCtx consAddr = true
      ∧ (slashingSideMaliciousVoteRecord k sideCtx pack name consAddr info v s t
            comp).1.getValidatorSigningInfo sideCtx consAddr
          = some { info with
              JailedUntil := (max info.JailedUntil
                (sideCtx.BlockTime + k.DoubleSignUnbondDuration sideCtx)) } := by
  have hjail : (if sideCtx.BlockTime + (k.params sideCtx.sideChainScope).DoubleSignUnbondDuration
        > info.JailedUntil then
        { info with JailedUntil :=
            sideCtx.BlockTime + (k.params sideCtx.sideChainScope).DoubleSignUnbondDuration }
      else info)
      = { info with JailedUntil := (max info.JailedUntil
          (sideCtx.BlockTime + (k.params sideCtx.sideChainScope).DoubleSignUnbondDuration)) } := by
    by_cases hgt : sideCtx.BlockTime
        + (k.params sideCtx.sideChainScope).DoubleSignUnbondDuration > info.JailedUntil
    · rw [if_pos hgt, max_eq_right (le_of_lt hgt)]
    · rw [if_neg hgt, max_eq_left (not_lt.mp hgt)]
  unfold slashingSideMaliciousVoteRecord
  simp only [DoubleSignUnbondDuration, hjail]
  cases v <;> cases hp : k.PbsbServer <;>
    simp [setValidatorSigningInfo, setSlashRecord, hp, hasSlashRecord, isMaliciousVoteSlashed,
      getValidatorSigningInfo]

@[simp]
theorem slashingSideMaliciousVoteRecord_calls (k : Keeper) (sideCtx : Context)
    (pack : SideSlashPackage) (name : String) (consAddr : Bytes)
    (info : ValidatorSigningInfo) (v : Option Validator) (s : Dec) (t : Int)
    (comp : List (String × Int)) :
    (slashingSideMaliciousVoteRecord k sideCtx pack name consAddr info v s t comp).1.calls
      = k.calls := by
  unfold slashingSideMaliciousVoteRecord
  cases v <;> cases hp : k.PbsbServer <;> simp [setValidatorSigningInfo, setSlashRecord, hp]

/-- The malicious-vote handler on a packet that passes every test before the slash: what
is left is the slash itself, the allocation and the recording step. -/
theorem slashingSideMaliciousVote_pass (env : Env) (k : Keeper) (ctx sideCtx : Context)
    (pack : SideSlashPackage) (name : String) (v : Validator) (info : ValidatorSigningInfo)
    (hname : k.ScKeeper.GetDestChainName pack.SideChainId = some name)
    (hctx : k.ScKeeper.PrepareCtxForSideChain ctx name = some sideCtx)
    (hage : ¬ (wrapUint64 ((wrapUint64 (unixSeconds sideCtx.BlockTime) : Int)
              - (pack.SideTimestamp : Int))
            > durationSecondsUint64 (k.MaxEvidenceAge sideCtx)))
    (hv : k.ValidatorByVoteAddr sideCtx pack.SideAddr = some v)
    (hinfo : k.getValidatorSigningInfo sideCtx v.SideChainConsAddr = some info)
    (hguard : ¬ (k.isMaliciousVoteSlashed sideCtx v.SideChainConsAddr = true
            ∧ pack.SideTimestamp < wrapUint64 (unixSeconds info.JailedUntil)))
    (hdup : k.hasSlashRecord sideCtx v.SideChainConsAddr InfractionType.MaliciousVote
            pack.SideHeight = false) :
    k.slashingSideMaliciousVote env ctx pack
    = match k.validatorSet.SlashSideChain k.calls ctx name v.SideChainConsAddr
          (env.NewDec (k.DoubleSignSlashAmount sideCtx)) with
      | Except.error e =>
        ((k.SlashSideChain ctx name v.SideChainConsAddr
            (env.NewDec (k.DoubleSignSlashAmount sideCtx))).1,
          some (some (SdkError.FailedToSlash k.Codespace e)))
      | Except.ok (v', s) =>
        if k.DoubleSignSlashAmount sideCtx > 0 then
          match k.validatorSet.AllocateSlashAmtToValidators
              (k.calls ++ [ValidatorSetCall.SlashSideChain ctx name v.SideChainConsAddr
                (env.NewDec (k.DoubleSignSlashAmount sideCtx))])
              sideCtx v.SideChainConsAddr (env.NewDec (k.DoubleSignSlashAmount sideCtx)) with
          | Except.error e =>
            (((k.SlashSideChain ctx name v.SideChainConsAddr
                (env.NewDec (k.DoubleSignSlashAmount sideCtx))).1.AllocateSlashAmtToValidators
                sideCtx v.SideChainConsAddr
                (env.NewDec (k.DoubleSignSlashAmount sideCtx))).1,
              some (some (SdkError.FailedToSlash k.Codespace e)))
          | Except.ok (found, comp) =>
            if !found && ctx.IsDeliverTx then
              slashingSideMaliciousVoteRecord
                ((((k.SlashSideChain ctx name v.SideChainConsAddr
                  (env.NewDec (k.DoubleSignSlashAmount sideCtx))).1.AllocateSlashAmtToValidators
                  sideCtx v.SideChainConsAddr
                  (env.NewDec (k.DoubleSignSlashAmount sideCtx))).1).AddAndCommitFee
                  "side_malicious_vote_slash"
                  (((k.SlashSideChain ctx name v.SideChainConsAddr
                    (env.NewDec (k.DoubleSignSlashAmount sideCtx))).1.AllocateSlashAmtToValidators
                    sideCtx v.SideChainConsAddr
                    (env.NewDec (k.DoubleSignSlashAmount sideCtx))).1.BondDenom sideCtx)
                  (k.DoubleSignSlashAmount sideCtx))
                sideCtx pack name v.SideChainConsAddr info v' s
                (k.DoubleSignSlashAmount sideCtx) comp
            else
              slashingSideMaliciousVoteRecord
                ((k.SlashSideChain ctx name v.SideChainConsAddr
                  (env.NewDec (k.DoubleSignSlashAmount sideCtx))).1.AllocateSlashAmtToValidators
                  sideCtx v.SideChainConsAddr
                  (env.NewDec (k.DoubleSignSlashAmount sideCtx))).1
                sideCtx pack name v.SideChainConsAddr info v' s 0 comp
        else
          slashingSideMaliciousVoteRecord
            (k.SlashSideChain ctx name v.SideChainConsAddr
              (env.NewDec (k.DoubleSignSlashAmount sideCtx))).1
            sideCtx pack name v.SideChainConsAddr info v' s 0 [] := by
  have hg : (k.isMaliciousVoteSlashed sideCtx v.SideChainConsAddr
      && decide (pack.SideTimestamp < wrapUint64 (unixSeconds info.JailedUntil))) = false := by
    cases hs : k.isMaliciousVoteSlashed sideCtx v.SideChainConsAddr
    · rfl
    · simp only [Bool.true_and, decide_eq_false_iff_not]
      exact fun hlt => hguard ⟨hs, hlt⟩
  unfold slashingSideMaliciousVote
  simp only [hname, hctx, if_neg hage, hv, hinfo, hg, hdup, Bool.false_eq_true, if_false]
  rfl

end MaliciousVote

/-- C16: for every successful malicious-vote slash at side block time t, with J the value
of JailedUntil in the signing info of the validator before the call, the persisted
JailedUntil equals max(J, t + DoubleSignUnbondDuration), the other fields of the signing
info are unchanged, and JailedUntil has not decreased. -/
theorem C16_malicious_vote_jail_is_max (env : Env) (k k1 : Keeper) (ctx sideCtx : Context)
    (pack : SideSlashPackage) (name : String) (v : Validator) (info : ValidatorSigningInfo)
    (hname : k.ScKeeper.GetDestChainName pack.SideChainId = some name)
    (hctx : k.ScKeeper.PrepareCtxForSideChain ctx name = some sideCtx)
    (hv : k.ValidatorByVoteAddr sideCtx pack.SideAddr = some v)
    (hinfo : k.getValidatorSigningInfo sideCtx v.SideChainConsAddr = some info)
    (hsuccess : k.slashingSideMaliciousVote env ctx pack = (k1, some none)) :
    ∃ info', k1.getValidatorSigningInfo sideCtx v.SideChainConsAddr = some info'
      ∧ info'.JailedUntil
          = max info.JailedUntil (sideCtx.BlockTime + k.DoubleSignUnbondDuration sideCtx)
      ∧ info.JailedUntil ≤ info'.JailedUntil
      ∧ info'.StartHeight = info.StartHeight ∧ info'.IndexOffset = info.IndexOffset
      ∧ info'.MissedBlocksCounter = info.MissedBlocksCounter := by
  obtain ⟨name', sideCtx', v', info0, hname', hctx', _, hv', hinfo', _, _, k', w, s, t, comp, _,
    hparams, _, hrec⟩ := slashingSideMaliciousVote_success env k k1 ctx pack hsuccess
  rw [hname] at hname'
  injection hname' with hname'
  subst hname'
  rw [hctx] at hctx'
  injection hctx' with hctx'
  subst hctx'
  rw [hv] at hv'
  injection hv' with hv'
  subst hv'
  rw [hinfo] at hinfo'
  injection hinfo' with hinfo'
  subst hinfo'
  have hst := (slashingSideMaliciousVoteRecord_state k' sideCtx pack name v.SideChainConsAddr
    info w s t comp).2.2.2.2.2
  rw [hrec] at hst
  simp only [DoubleSignUnbondDuration, hparams] at hst
  exact ⟨_, hst, rfl, le_max_left _ _, rfl, rfl, rfl⟩

/-- Instance of C16: the malicious-vote packet `exampleVotePackage` applied to `sideKeeper`
at block time 1000 s with a jail term of 300 s. -/
theorem C16_malicious_vote_jail_is_max_witness :
    ∃ info', voteAppliedKeeper.getValidatorSigningInfo exampleSideCtx
        sideValidator.SideChainConsAddr = some info'
      ∧ info'.JailedUntil
          = max freshInfo.JailedUntil
              (exampleSideCtx.BlockTime + sideKeeper.DoubleSignUnbondDuration exampleSideCtx)
      ∧ freshInfo.JailedUntil ≤ info'.JailedUntil
      ∧ info'.StartHeight = freshInfo.StartHeight ∧ info'.IndexOffset = freshInfo.IndexOffset
      ∧ info'.MissedBlocksCounter = freshInfo.MissedBlocksCounter :=
  C16_malicious_vote_jail_is_max exampleEnv sideKeeper voteAppliedKeeper exampleBlockCtx
    exampleSideCtx exampleVotePackage "bsc" sideValidator freshInfo rfl rfl rfl rfl rfl

/-- C14: for every non-expired malicious-vote packet whose vote address resolves to a
validator with signing info: if a malicious-vote slash record already exists for that
validator's consensus address and SideTimestamp < JailedUntil (in unix seconds, as
uint64), slashingSideMaliciousVote returns FailedToSlash and leaves the keeper state as it
was (no SlashSideChain call, no slash record or signing info written); if no such record
exists or SideTimestamp >= JailedUntil, and the packet's (address, MaliciousVote,
SideHeight) is new, the slash is applied: SlashSideChain is called for the validator with
DoubleSignSlashAmount, and when the validator set carries out the slash and the
allocation, the handler returns no error (if a publisher is set and the validator
returned by SlashSideChain is nil it panics instead), the slash record of the packet is
in the store and the jail term is extended. -/
theorem C14_anti_drain_guard (env : Env) (k : Keeper) (ctx sideCtx : Context)
    (pack : SideSlashPackage) (name : String) (v : Validator) (info : ValidatorSigningInfo)
    (hname : k.ScKeeper.GetDestChainName pack.SideChainId = some name)
    (hctx : k.ScKeeper.PrepareCtxForSideChain ctx name = some sideCtx)
    (hage : ¬ (wrapUint64 ((wrapUint64 (unixSeconds sideCtx.BlockTime) : Int)
              - (pack.SideTimestamp : Int))
            > durationSecondsUint64 (k.MaxEvidenceAge sideCtx)))
    (hv : k.ValidatorByVoteAddr sideCtx pack.SideAddr = some v)
    (hinfo : k.getValidatorSigningInfo sideCtx v.SideChainConsAddr = some info) :
    ((k.isMaliciousVoteSlashed sideCtx v.SideChainConsAddr = true
          ∧ pack.SideTimestamp < wrapUint64 (unixSeconds info.JailedUntil)) →
        k.slashingSideMaliciousVote env ctx pack
          = (k, some (some (SdkError.FailedToSlash k.Codespace
              "still in duration of lastest malicious vote slash"))))
      ∧ (¬ (k.isMaliciousVoteSlashed sideCtx v.SideChainConsAddr = true
            ∧ pack.SideTimestamp < wrapUint64 (unixSeconds info.JailedUntil)) →
          k.hasSlashRecord sideCtx v.SideChainConsAddr InfractionType.MaliciousVote
            pack.SideHeight = false →
          (∃ rest, (k.slashingSideMaliciousVote env ctx pack).1.calls
              = k.calls ++ [ValidatorSetCall.SlashSideChain ctx name v.SideChainConsAddr
                  (env.NewDec (k.DoubleSignSlashAmount sideCtx))] ++ rest)
          ∧ ∀ v' s found comp,
              k.validatorSet.SlashSideChain k.calls ctx name v.SideChainConsAddr
                  (env.NewDec (k.DoubleSignSlashAmount sideCtx)) = Except.ok (v', s) →
              k.validatorSet.AllocateSlashAmtToValidators
                  (k.calls ++ [ValidatorSetCall.SlashSideChain ctx name v.SideChainConsAddr
                    (env.NewDec (k.DoubleSignSlashAmount sideCtx))])
                  sideCtx v.SideChainConsAddr (env.NewDec (k.DoubleSignSlashAmount sideCtx))
                = Except.ok (found, comp) →
              (k.slashingSideMaliciousVote env ctx pack).2
                  = (if k.PbsbServer = true ∧ v' = none then none else some none)
                ∧ (k.slashingSideMaliciousVote env ctx pack).1.hasSlashRecord sideCtx
                    v.SideChainConsAddr InfractionType.MaliciousVote pack.SideHeight = true
                ∧ (k.slashingSideMaliciousVote env ctx pack).1.getValidatorSigningInfo sideCtx
                    v.SideChainConsAddr
                  = some { info with
                      JailedUntil := (max info.JailedUntil
                        (sideCtx.BlockTime + k.DoubleSignUnbondDuration sideCtx)) }) := by
  constructor
  · rintro ⟨hslashed, hts⟩
    unfold slashingSideMaliciousVote
    simp only [hname, hctx, if_neg hage, hv, hinfo, hslashed, hts, decide_True, Bool.and_self,
      if_true]
  · intro hguard hdup
    have hform := slashingSideMaliciousVote_pass env k ctx sideCtx pack name v info hname hctx
      hage hv hinfo hguard hdup
    constructor
    · rw [hform]
      cases hs : k.validatorSet.SlashSideChain k.calls ctx name v.SideChainConsAddr
          (env.NewDec (k.DoubleSignSlashAmount sideCtx)) with
      | error e => exact ⟨[], by simp [SlashSideChain]⟩
      | ok r =>
        obtain ⟨v', s⟩ := r
        simp only []
        by_cases hamt : k.DoubleSignSlashAmount sideCtx > 0
        · rw [if_pos hamt]
          cases ha : k.validatorSet.AllocateSlashAmtToValidators
              (k.calls ++ [ValidatorSetCall.SlashSideChain ctx name v.SideChainConsAddr
                (env.NewDec (k.DoubleSignSlashAmount sideCtx))])
              sideCtx v.SideChainConsAddr (env.NewDec (k.DoubleSignSlashAmount sideCtx)) with
          | error e =>
            exact ⟨[ValidatorSetCall.AllocateSlashAmtToValidators sideCtx v.SideChainConsAddr
                (env.NewDec (k.DoubleSignSlashAmount sideCtx))],
              by simp [SlashSideChain, AllocateSlashAmtToValidators]⟩
          | ok r2 =>
            obtain ⟨found, comp⟩ := r2
            simp only []
            split_ifs
            · exact ⟨[ValidatorSetCall.AllocateSlashAmtToValidators sideCtx v.SideChainConsAddr
                (env.NewDec (k.DoubleSignSlashAmount sideCtx))], by
                rw [slashingSideMaliciousVoteRecord_calls]
                simp [SlashSideChain, AllocateSlashAmtToValidators, AddAndCommitFee]⟩
            · exact ⟨[ValidatorSetCall.AllocateSlashAmtToValidators sideCtx v.SideChainConsAddr
                (env.NewDec (k.DoubleSignSlashAmount sideCtx))], by
                rw [slashingSideMaliciousVoteRecord_calls]
                simp [SlashSideChain, AllocateSlashAmtToValidators]⟩
        · rw [if_neg hamt]
          exact ⟨[], by
            rw [slashingSideMaliciousVoteRecord_calls]
            simp [SlashSideChain]⟩
    · intro v' s found comp hslash halloc
      have key : ∀ (K : Keeper) (t : Int) (comp' : List (String × Int)),
          K.PbsbServer = k.PbsbServer → K.params = k.params →
          (slashingSideMaliciousVoteRecord K sideCtx pack name v.SideChainConsAddr info v' s t
              comp').2 = (if k.PbsbServer = true ∧ v' = none then none else some none)
            ∧ (slashingSideMaliciousVoteRecord K sideCtx pack name v.SideChainConsAddr info v'
                s t comp').1.hasSlashRecord sideCtx v.SideChainConsAddr
                InfractionType.MaliciousVote pack.SideHeight = true
            ∧ (slashingSideMaliciousVoteRecord K sideCtx pack name v.SideChainConsAddr info v'
                s t comp').1.getValidatorSigningInfo sideCtx v.SideChainConsAddr
              = some { info with
                  JailedUntil := (max info.JailedUntil
                    (sideCtx.BlockTime + k.DoubleSignUnbondDuration sideCtx)) } := by
        intro K t comp' hK hP
        have hst := slashingSideMaliciousVoteRecord_state K sideCtx pack name
          v.SideChainConsAddr info v' s t comp'
        refine ⟨?_, hst.2.2.2.1, ?_⟩
        · rw [slashingSideMaliciousVoteRecord_outcome, hK]
        · rw [hst.2.2.2.2.2]
          simp only [DoubleSignUnbondDuration, hP]
      rw [hform, hslash]
      simp only [halloc]
      by_cases hamt : k.DoubleSignSlashAmount sideCtx > 0
      · rw [if_pos hamt]
        by_cases hfd : (!found && ctx.IsDeliverTx) = true
        · rw [if_pos hfd]
          exact key _ _ _ (by rfl) (by rfl)
        · rw [if_neg hfd]
          exact key _ _ _ (by rfl) (by rfl)
      · rw [if_neg hamt]
        exact key _ _ _ (by rfl) (by rfl)

/-- Instance of C14, first case: the packet `exampleVotePackage` submitted again on the
state left by its application is stopped by the anti-drain guard. -/
theorem C14_anti_drain_guard_witness :
    voteAppliedKeeper.slashingSideMaliciousVote exampleEnv exampleBlockCtx exampleVotePackage
      = (voteAppliedKeeper, some (some (SdkError.FailedToSlash voteAppliedKeeper.Codespace
          "still in duration of lastest malicious vote slash"))) :=
  (C14_anti_drain_guard exampleEnv voteAppliedKeeper exampleBlockCtx exampleSideCtx
    exampleVotePackage "bsc" sideValidator
    { freshInfo with JailedUntil := 1300000000000 } rfl rfl (by decide) rfl rfl).1
    ⟨rfl, by decide⟩

/-- C13, counterexamples to the claim as stated.  The malicious-vote packet
`exampleVotePackage` is applied successfully and its slash record written.  Submitted again
in the same block it is rejected with FailedToSlash by the anti-drain guard, not with
DuplicateMaliciousVoteClaim; submitted again at block time 1100 s, when it is older than
MaxEvidenceAge, it is rejected with ExpiredEvidence.  When the vote address resolves to
another validator after the first application, or the side chain is prepared in another
store scope in the later block, the packet submitted again is not rejected at all: the
handler returns no error and calls SlashSideChain a second time. -/
theorem C13_resubmission_not_duplicate_counterexample :
    sideKeeper.slashingSideMaliciousVote exampleEnv exampleBlockCtx exampleVotePackage
        = (voteAppliedKeeper, some none)
      ∧ voteAppliedKeeper.hasSlashRecord exampleSideCtx sideValidator.SideChainConsAddr
          InfractionType.MaliciousVote exampleVotePackage.SideHeight = true
      ∧ voteAppliedKeeper.slashingSideMaliciousVote exampleEnv exampleBlockCtx
          exampleVotePackage
        = (voteAppliedKeeper,
            some (some (SdkError.FailedToSlash 10
              "still in duration of lastest malicious vote slash")))
      ∧ voteAppliedKeeper.slashingSideMaliciousVote exampleEnv secondVoteCtx
          exampleVotePackage
        = (voteAppliedKeeper, some (some (SdkError.ExpiredEvidence 10)))
      ∧ movingKeeper.slashingSideMaliciousVote exampleEnv exampleBlockCtx exampleVotePackage
        = (movedKeeper, some none)
      ∧ movedKeeper.hasSlashRecord exampleSideCtx sideValidator.SideChainConsAddr
          InfractionType.MaliciousVote exampleVotePackage.SideHeight = true
      ∧ movedKeeper.ValidatorByVoteAddr exampleSideCtx exampleVotePackage.SideAddr
        = some otherValidator
      ∧ (movedKeeper.slashingSideMaliciousVote exampleEnv exampleBlockCtx
          exampleVotePackage).2 = some none
      ∧ (movedKeeper.slashingSideMaliciousVote exampleEnv exampleBlockCtx
          exampleVotePackage).1.calls
        = movedKeeper.calls
          ++ [ValidatorSetCall.SlashSideChain exampleBlockCtx "bsc" (List.replicate 20 8) 2000,
              ValidatorSetCall.AllocateSlashAmtToValidators exampleSideCtx
                (List.replicate 20 8) 2000]
      ∧ shiftingKeeper.slashingSideMaliciousVote exampleEnv exampleBlockCtx exampleVotePackage
        = (shiftedKeeper, some none)
      ∧ shiftedKeeper.hasSlashRecord exampleSideCtx sideValidator.SideChainConsAddr
          InfractionType.MaliciousVote exampleVotePackage.SideHeight = true
      ∧ shiftedKeeper.ScKeeper.PrepareCtxForSideChain laterDowntimeCtx "bsc"
        = some { laterDowntimeCtx with sideChainScope := [1] }
      ∧ (shiftedKeeper.slashingSideMaliciousVote exampleEnv laterDowntimeCtx
          exampleVotePackage).2 = some none
      ∧ (shiftedKeeper.slashingSideMaliciousVote exampleEnv laterDowntimeCtx
          exampleVotePackage).1.calls
        = shiftedKeeper.calls
          ++ [ValidatorSetCall.SlashSideChain laterDowntimeCtx "bsc" (List.replicate 20 7)
                2000,
              ValidatorSetCall.AllocateSlashAmtToValidators
                { laterDowntimeCtx with sideChainScope := [1] } (List.replicate 20 7)
                2000] :=
  ⟨rfl, rfl, rfl, rfl, rfl, rfl, rfl, rfl, rfl, rfl, rfl, rfl, rfl, rfl⟩

/-- C13, amended: for every malicious-vote packet that slashingSideMaliciousVote applied
successfully (a SlashRecord was written), re-submitting the same packet on the state left
by the first application, in any block in which the side chain is prepared in the same
store scope and the vote address resolves to a validator with the same consensus address,
is a no-op that leaves the keeper state identical and returns an error: ExpiredEvidence
when the age of the packet at the new block exceeds the threshold
uint64(MaxEvidenceAge.Seconds()); otherwise FailedToSlash from the anti-drain guard when
SideTimestamp < JailedUntil (in unix seconds, as uint64) of the signing info left by the
first application; and DuplicateMaliciousVoteClaim otherwise. -/
theorem C13_malicious_vote_resubmission_rejected (env : Env) (k k1 : Keeper)
    (ctx ctx2 sideCtx sideCtx2 : Context) (pack : SideSlashPackage) (name : String)
    (v v2 : Validator)
    (hname : k.ScKeeper.GetDestChainName pack.SideChainId = some name)
    (hctx : k.ScKeeper.PrepareCtxForSideChain ctx name = some sideCtx)
    (hv : k.ValidatorByVoteAddr sideCtx pack.SideAddr = some v)
    (hfirst : k.slashingSideMaliciousVote env ctx pack = (k1, some none))
    (hctx2 : k1.ScKeeper.PrepareCtxForSideChain ctx2 name = some sideCtx2)
    (hscope : sideCtx2.sideChainScope = sideCtx.sideChainScope)
    (hv2 : k1.ValidatorByVoteAddr sideCtx2 pack.SideAddr = some v2)
    (hsame : v2.SideChainConsAddr = v.SideChainConsAddr) :
    ∃ info', k1.getValidatorSigningInfo sideCtx v.SideChainConsAddr = some info'
      ∧ k1.hasSlashRecord sideCtx v.SideChainConsAddr InfractionType.MaliciousVote
          pack.SideHeight = true
      ∧ k1.slashingSideMaliciousVote env ctx2 pack
        = (k1, some (some (
            if wrapUint64 ((wrapUint64 (unixSeconds sideCtx2.BlockTime) : Int)
                - (pack.SideTimestamp : Int))
              > durationSecondsUint64 (k1.MaxEvidenceAge sideCtx2) then
              SdkError.ExpiredEvidence env.DefaultCodespace
            else if pack.SideTimestamp < wrapUint64 (unixSeconds info'.JailedUntil) then
              SdkError.FailedToSlash k1.Codespace
                "still in duration of lastest malicious vote slash"
            else SdkError.DuplicateMaliciousVoteClaim k1.Codespace))) := by
  obtain ⟨name', sideCtx', v', info, hname', hctx', _, hv', _, _, _, k', w, s, t, comp, hsc,
    _, _, hrec⟩ := slashingSideMaliciousVote_success env k k1 ctx pack hfirst
  rw [hname] at hname'
  injection hname' with hname'
  subst hname'
  rw [hctx] at hctx'
  injection hctx' with hctx'
  subst hctx'
  rw [hv] at hv'
  injection hv' with hv'
  subst hv'
  obtain ⟨hsc1, _, _, hhas, hslashed, hinfo1⟩ :=
    slashingSideMaliciousVoteRecord_state k' sideCtx pack name v.SideChainConsAddr info w s t
      comp
  rw [hrec] at hsc1 hhas hslashed hinfo1
  simp only [] at hsc1 hhas hslashed hinfo1
  have hname1 : k1.ScKeeper.GetDestChainName pack.SideChainId = some name := by
    rw [hsc1, hsc]
    exact hname
  have hinfo2 : k1.getValidatorSigningInfo sideCtx2 v2.SideChainConsAddr
      = some { info with JailedUntil := (max info.JailedUntil
          (sideCtx.BlockTime + k'.DoubleSignUnbondDuration sideCtx)) } := by
    rw [← hinfo1, hsame]
    simp only [getValidatorSigningInfo, hscope]
  have hhas2 : k1.hasSlashRecord sideCtx2 v2.SideChainConsAddr InfractionType.MaliciousVote
      pack.SideHeight = true := by
    rw [← hhas, hsame]
    simp only [hasSlashRecord, hscope]
  have hslashed2 : k1.isMaliciousVoteSlashed sideCtx2 v2.SideChainConsAddr = true := by
    rw [← hslashed, hsame]
    simp only [isMaliciousVoteSlashed, hscope]
  refine ⟨_, hinfo1, hhas, ?_⟩
  unfold slashingSideMaliciousVote
  simp only [hname1, hctx2]
  by_cases hage : wrapUint64 ((wrapUint64 (unixSeconds sideCtx2.BlockTime) : Int)
      - (pack.SideTimestamp : Int)) > durationSecondsUint64 (k1.MaxEvidenceAge sideCtx2)
  · simp only [if_pos hage]
  · simp only [if_neg hage, hv2, hinfo2, hslashed2, Bool.true_and, hhas2, if_true]
    by_cases hts : pack.SideTimestamp
        < wrapUint64 (unixSeconds (max info.JailedUntil
            (sideCtx.BlockTime + k'.DoubleSignUnbondDuration sideCtx)))
    · simp only [hts, decide_True, if_true]
    · simp only [hts, decide_False, Bool.false_eq_true, if_false]

/-- Instance of the amended C13: the packet `exampleVotePackage` applied to `sideKeeper`
and submitted again in the same block. -/
theorem C13_malicious_vote_resubmission_rejected_witness :
    ∃ info', voteAppliedKeeper.getValidatorSigningInfo exampleSideCtx
          sideValidator.SideChainConsAddr = some info'
      ∧ voteAppliedKeeper.hasSlashRecord exampleSideCtx sideValidator.SideChainConsAddr
          InfractionType.MaliciousVote exampleVotePackage.SideHeight = true
      ∧ voteAppliedKeeper.slashingSideMaliciousVote exampleEnv exampleBlockCtx
          exampleVotePackage
        = (voteAppliedKeeper, some (some (
            if wrapUint64 ((wrapUint64 (unixSeconds exampleSideCtx.BlockTime) : Int)
                - (exampleVotePackage.SideTimestamp : Int))
              > durationSecondsUint64 (voteAppliedKeeper.MaxEvidenceAge exampleSideCtx) then
              SdkError.ExpiredEvidence exampleEnv.DefaultCodespace
            else if exampleVotePackage.SideTimestamp
                < wrapUint64 (unixSeconds info'.JailedUntil) then
              SdkError.FailedToSlash voteAppliedKeeper.Codespace
                "still in duration of lastest malicious vote slash"
            else SdkError.DuplicateMaliciousVoteClaim voteAppliedKeeper.Codespace))) :=
  C13_malicious_vote_resubmission_rejected exampleEnv sideKeeper voteAppliedKeeper
    exampleBlockCtx exampleBlockCtx exampleSideCtx exampleSideCtx exampleVotePackage "bsc"
    sideValidator sideValidator rfl rfl rfl rfl rfl rfl rfl rfl

section DowntimeDistribution

/-- The downtime handler on a packet that passes every test before the slash: what is
left is the slash itself, the fee, the allocation and the recording step. -/
theorem slashingSideDowntime_pass (env : Env) (k : Keeper) (ctx sideCtx : Context)
    (pack : SideSlashPackage) (name : String)
    (hname : k.ScKeeper.GetDestChainName pack.SideChainId = some name)
    (hctx : k.ScKeeper.PrepareCtxForSideChain ctx name = some sideCtx)
    (hage : ¬ (wrapUint64 ((wrapUint64 (unixSeconds sideCtx.BlockTime) : Int)
              - (pack.SideTimestamp : Int))
            > durationSecondsUint64 (k.MaxEvidenceAge sideCtx)))
    (hdup : k.hasSlashRecord sideCtx pack.SideAddr InfractionType.Downtime pack.SideHeight
      = false) :
    k.slashingSideDowntime env ctx pack
      = match (k.SlashSideChain ctx name pack.SideAddr
            (env.NewDec (k.DowntimeSlashAmount sideCtx))).2 with
        | Except.error e =>
          ((k.SlashSideChain ctx name pack.SideAddr
              (env.NewDec (k.DowntimeSlashAmount sideCtx))).1,
            some (some (SdkError.FailedToSlash k.Codespace e)))
        | Except.ok (validator, slashedAmt) =>
          let k0 := (k.SlashSideChain ctx name pack.SideAddr
            (env.NewDec (k.DowntimeSlashAmount sideCtx))).1
          let downtimeClaimFeeReal := min (k.DowntimeSlashFee sideCtx) slashedAmt
          let bondDenom := k0.BondDenom sideCtx
          let commitFee : Bool := decide (downtimeClaimFeeReal > 0) && ctx.IsDeliverTx
          let k1 := if commitFee then
              k0.AddAndCommitFee "side_downtime_slash" bondDenom downtimeClaimFeeReal
            else k0
          let toFeePool : Int := if commitFee then downtimeClaimFeeReal else 0
          let remaining := wrapInt64 (slashedAmt - downtimeClaimFeeReal)
          if remaining > 0 then
            match (k1.AllocateSlashAmtToValidators sideCtx pack.SideAddr
                (env.NewDec remaining)).2 with
            | Except.error e =>
              ((k1.AllocateSlashAmtToValidators sideCtx pack.SideAddr
                  (env.NewDec remaining)).1,
                some (some (SdkError.FailedToSlash
                  (k1.AllocateSlashAmtToValidators sideCtx pack.SideAddr
                    (env.NewDec remaining)).1.Codespace e)))
            | Except.ok (found, validatorsAllocatedAmt) =>
              if !found && ctx.IsDeliverTx then
                slashingSideDowntimeRecord env
                  ((k1.AllocateSlashAmtToValidators sideCtx pack.SideAddr
                    (env.NewDec remaining)).1.AddAndCommitFee "side_downtime_slash_remaining"
                    bondDenom remaining)
                  sideCtx pack name validator slashedAmt (wrapInt64 (toFeePool + remaining))
                  validatorsAllocatedAmt
              else
                slashingSideDowntimeRecord env
                  (k1.AllocateSlashAmtToValidators sideCtx pack.SideAddr (env.NewDec remaining)).1
                  sideCtx pack name validator slashedAmt toFeePool validatorsAllocatedAmt
          else
            slashingSideDowntimeRecord env k1 sideCtx pack name validator slashedAmt toFeePool
              [] := by
  unfold slashingSideDowntime
  simp only [hname, hctx, if_neg hage, hdup, Bool.false_eq_true, if_false]
  rfl

section CallFrames

variable (k : Keeper) (ctx : Context)

@[simp]
theorem SlashSideChain_signingInfo (n : String) (a : Bytes) (d : Dec) :
    (k.SlashSideChain ctx n a d).1.signingInfo = k.signingInfo := rfl

@[simp]
theorem SlashSideChain_PbsbServer (n : String) (a : Bytes) (d : Dec) :
    (k.SlashSideChain ctx n a d).1.PbsbServer = k.PbsbServer := rfl

@[simp]
theorem SlashSideChain_published (n : String) (a : Bytes) (d : Dec) :
    (k.SlashSideChain ctx n a d).1.published = k.published := rfl

@[simp]
theorem SlashSideChain_feePool (n : String) (a : Bytes) (d : Dec) :
    (k.SlashSideChain ctx n a d).1.feePool = k.feePool := rfl

@[simp]
theorem SlashSideChain_calls (n : String) (a : Bytes) (d : Dec) :
    (k.SlashSideChain ctx n a d).1.calls
      = k.calls ++ [ValidatorSetCall.SlashSideChain ctx n a d] := rfl

@[simp]
theorem SlashSideChain_validatorSet (n : String) (a : Bytes) (d : Dec) :
    (k.SlashSideChain ctx n a d).1.validatorSet = k.validatorSet := rfl

@[simp]
theorem AllocateSlashAmtToValidators_signingInfo (a : Bytes) (d : Dec) :
    (k.AllocateSlashAmtToValidators ctx a d).1.signingInfo = k.signingInfo := rfl

@[simp]
theorem AllocateSlashAmtToValidators_PbsbServer (a : Bytes) (d : Dec) :
    (k.AllocateSlashAmtToValidators ctx a d).1.PbsbServer = k.PbsbServer := rfl

@[simp]
theorem AllocateSlashAmtToValidators_published (a : Bytes) (d : Dec) :
    (k.AllocateSlashAmtToValidators ctx a d).1.published = k.published := rfl

@[simp]
theorem AllocateSlashAmtToValidators_feePool (a : Bytes) (d : Dec) :
    (k.AllocateSlashAmtToValidators ctx a d).1.feePool = k.feePool := rfl

@[simp]
theorem AllocateSlashAmtToValidators_calls (a : Bytes) (d : Dec) :
    (k.AllocateSlashAmtToValidators ctx a d).1.calls
      = k.calls ++ [ValidatorSetCall.AllocateSlashAmtToValidators ctx a d] := rfl

@[simp]
theorem AllocateSlashAmtToValidators_validatorSet (a : Bytes) (d : Dec) :
    (k.AllocateSlashAmtToValidators ctx a d).1.validatorSet = k.validatorSet := rfl

@[simp]
theorem AllocateSlashAmtToValidators_answer (a : Bytes) (d : Dec) :
    (k.AllocateSlashAmtToValidators ctx a d).2
      = k.validatorSet.AllocateSlashAmtToValidators k.calls ctx a d := rfl

@[simp]
theorem AddAndCommitFee_signingInfo (n dn : String) (a : Int) :
    (k.AddAndCommitFee n dn a).signingInfo = k.signingInfo := rfl

@[simp]
theorem AddAndCommitFee_PbsbServer (n dn : String) (a : Int) :
    (k.AddAndCommitFee n dn a).PbsbServer = k.PbsbServer := rfl

@[simp]
theorem AddAndCommitFee_published (n dn : String) (a : Int) :
    (k.AddAndCommitFee n dn a).published = k.published := rfl

@[simp]
theorem AddAndCommitFee_feePool (n dn : String) (a : Int) :
    (k.AddAndCommitFee n dn a).feePool
      = k.feePool ++ [{ name := n, denom := dn, amount := a }] := rfl

@[simp]
theorem AddAndCommitFee_calls (n dn : String) (a : Int) :
    (k.AddAndCommitFee n dn a).calls = k.calls := rfl

@[simp]
theorem AddAndCommitFee_validatorSet (n dn : String) (a : Int) :
    (k.AddAndCommitFee n dn a).validatorSet = k.validatorSet := rfl

end CallFrames

section DowntimeRecord

variable (env : Env) (k : Keeper) (sideCtx : Context) (pack : SideSlashPackage)
  (name : String) (v : Option Validator) (s : Dec) (t : Int) (comp : List (String × Int))

@[simp]
theorem slashingSideDowntimeRecord_calls :
    (slashingSideDowntimeRecord env k sideCtx pack name v s t comp).1.calls = k.calls := by
  unfold slashingSideDowntimeRecord
  simp only []
  split
  · simp [setSlashRecord]
  · cases v <;> cases hp : k.PbsbServer <;> simp [setValidatorSigningInfo, setSlashRecord, hp]

@[simp]
theorem slashingSideDowntimeRecord_feePool :
    (slashingSideDowntimeRecord env k sideCtx pack name v s t comp).1.feePool = k.feePool := by
  unfold slashingSideDowntimeRecord
  simp only []
  split
  · simp [setSlashRecord]
  · cases v <;> cases hp : k.PbsbServer <;> simp [setValidatorSigningInfo, setSlashRecord, hp]

/-- The recording step of a downtime slash for a validator with signing info: it returns
Go `nil`, unless a publisher is set and the validator is nil, where it panics; the event is
published when a publisher is set and the validator is not nil; the jail term is
overwritten. -/
theorem slashingSideDowntimeRecord_state (info : ValidatorSigningInfo)
    (hinfo : k.getValidatorSigningInfo sideCtx pack.SideAddr = some info) :
    (slashingSideDowntimeRecord env k sideCtx pack name v s t comp).2
        = (if k.PbsbServer = true ∧ v = none then none else some none)
      ∧ (slashingSideDowntimeRecord env k sideCtx pack name v s t comp).1.published
          = (match v with
            | some w =>
              if k.PbsbServer then
                k.published ++
                  [{ Validator := w.Operator
                     InfractionType := InfractionType.Downtime
                     InfractionHeight := wrapInt64 (pack.SideHeight : Int)
                     SlashHeight := sideCtx.BlockHeight
                     JailUtil := sideCtx.BlockTime + k.DowntimeUnbondDuration sideCtx
                     SlashAmt := s
                     ToFeePool := t
                     SideChainId := name
                     ValidatorsCompensation := comp }]
              else k.published
            | none => k.published)
      ∧ (slashingSideDowntimeRecord env k sideCtx pack name v s t
            comp).1.getValidatorSigningInfo sideCtx pack.SideAddr
          = some { info with
              JailedUntil := sideCtx.BlockTime + k.DowntimeUnbondDuration sideCtx } := by
  have hinfo' : (k.setSlashRecord sideCtx
      { ConsAddr := pack.SideAddr
        InfractionType := InfractionType.Downtime
        InfractionHeight := pack.SideHeight
        SlashHeight := sideCtx.BlockHeight
        JailUntil := sideCtx.BlockTime + k.DowntimeUnbondDuration sideCtx
        SlashAmt := s
        SideChainId := name }).getValidatorSigningInfo sideCtx pack.SideAddr = some info := hinfo
  unfold slashingSideDowntimeRecord
  simp only [hinfo']
  cases v <;> cases hp : k.PbsbServer <;>
    simp [setValidatorSigningInfo, setSlashRecord, hp, Publish, getValidatorSigningInfo,
      DowntimeUnbondDuration]

/-- With signing info present, the recording step of a downtime slash returns Go `nil`
when no publisher is set or the validator is not nil. -/
theorem slashingSideDowntimeRecord_returns
    (hinfo : (k.signingInfo sideCtx.sideChainScope pack.SideAddr).isSome = true)
    (hv : k.PbsbServer = false ∨ v.isSome = true) :
    (slashingSideDowntimeRecord env k sideCtx pack name v s t comp).2 = some none := by
  obtain ⟨info, hinfo'⟩ := Option.isSome_iff_exists.mp hinfo
  rw [(slashingSideDowntimeRecord_state env k sideCtx pack name v s t comp info hinfo').1]
  rcases hv with hv | hv
  · simp [hv]
  · cases v with
    | none => simp at hv
    | some w => simp

/-- With signing info present and a publisher set, the recording step of a downtime slash
for a validator that is not nil publishes one event, carrying the slashed amount and the
amount that went to the fee pool. -/
theorem slashingSideDowntimeRecord_published (w : Validator)
    (hinfo : (k.signingInfo sideCtx.sideChainScope pack.SideAddr).isSome = true)
    (hpub : k.PbsbServer = true) :
    (slashingSideDowntimeRecord env k sideCtx pack name (some w) s t comp).1.published
      = k.published ++
          [{ Validator := w.Operator, InfractionType := InfractionType.Downtime,
             InfractionHeight := wrapInt64 (pack.SideHeight : Int),
             SlashHeight := sideCtx.BlockHeight,
             JailUtil := sideCtx.BlockTime + k.DowntimeUnbondDuration sideCtx,
             SlashAmt := s, ToFeePool := t, SideChainId := name,
             ValidatorsCompensation := comp }] := by
  obtain ⟨info, hinfo'⟩ := Option.isSome_iff_exists.mp hinfo
  have hst := slashingSideDowntimeRecord_state env k sideCtx pack name (some w) s t comp info
    hinfo'
  rw [hst.2.1]
  simp only [hpub, if_true]

/-- What the recording step of a downtime slash publishes: at most one event, carrying the
amounts handed in. -/
theorem slashingSideDowntimeRecord_published_cases :
    (slashingSideDowntimeRecord env k sideCtx pack name v s t comp).1.published = k.published
      ∨ ∃ ev, (slashingSideDowntimeRecord env k sideCtx pack name v s t comp).1.published
            = k.published ++ [ev]
          ∧ ev.ToFeePool = t ∧ ev.SlashAmt = s := by
  unfold slashingSideDowntimeRecord
  simp only []
  split
  · left
    simp [setSlashRecord]
  · cases v <;> cases hp : k.PbsbServer <;>
      simp [setValidatorSigningInfo, setSlashRecord, hp, Publish]

/-- The recording step of a downtime slash does not panic when no publisher is set or the
validator is not nil. -/
theorem slashingSideDowntimeRecord_no_panic (hv : k.PbsbServer = false ∨ v.isSome = true) :
    (slashingSideDowntimeRecord env k sideCtx pack name v s t comp).2 ≠ none := by
  unfold slashingSideDowntimeRecord
  simp only []
  split
  · simp
  · cases v with
    | none =>
      rcases hv with hv | hv
      · simp [setValidatorSigningInfo, setSlashRecord, hv]
      · simp at hv
    | some w => cases hp : k.PbsbServer <;> simp [setValidatorSigningInfo, setSlashRecord, hp]

end DowntimeRecord

/-- C17: a side-chain downtime packet handled in deliver-tx phase that passes the age and
duplicate tests, whose slash takes `s` (an int64 amount, `0 ≤ s`) and whose allocation
succeeds, for a validator with signing info, returns no error and, with
`fee = min(DowntimeSlashFee, s)`: commits exactly `fee` to the fee pool under
"side_downtime_slash" (no commit when `fee = 0`); offers exactly `s - fee` to
AllocateSlashAmtToValidators (no call when `s - fee = 0`), and commits `s - fee` under
"side_downtime_slash_remaining" when no recipient is found; and publishes an event whose
ToFeePool is `fee` when recipients are found and `s` when none is found.  (`v` is the
validator SlashSideChain returns.) -/
theorem C17_downtime_fee_split (env : Env) (k : Keeper) (ctx sideCtx : Context)
    (pack : SideSlashPackage) (name : String) (v : Validator) (s : Dec) (found : Bool)
    (comp : List (String × Int)) (info : ValidatorSigningInfo)
    (hdeliver : ctx.IsDeliverTx = true)
    (hname : k.ScKeeper.GetDestChainName pack.SideChainId = some name)
    (hctx : k.ScKeeper.PrepareCtxForSideChain ctx name = some sideCtx)
    (hage : ¬ (wrapUint64 ((wrapUint64 (unixSeconds sideCtx.BlockTime) : Int)
              - (pack.SideTimestamp : Int))
            > durationSecondsUint64 (k.MaxEvidenceAge sideCtx)))
    (hdup : k.hasSlashRecord sideCtx pack.SideAddr InfractionType.Downtime pack.SideHeight
      = false)
    (hslash : k.validatorSet.SlashSideChain k.calls ctx name pack.SideAddr
      (env.NewDec (k.DowntimeSlashAmount sideCtx)) = Except.ok (some v, s))
    (hs0 : 0 ≤ s) (hs1 : s ≤ MaxInt64) (hf0 : 0 ≤ k.DowntimeSlashFee sideCtx)
    (halloc : k.validatorSet.AllocateSlashAmtToValidators
      (k.calls ++ [ValidatorSetCall.SlashSideChain ctx name pack.SideAddr
        (env.NewDec (k.DowntimeSlashAmount sideCtx))])
      sideCtx pack.SideAddr (env.NewDec (s - min (k.DowntimeSlashFee sideCtx) s))
      = Except.ok (found, comp))
    (hinfo : k.getValidatorSigningInfo sideCtx pack.SideAddr = some info)
    (hpub : k.PbsbServer = true) :
    (k.slashingSideDowntime env ctx pack).2 = some none
      ∧ (k.slashingSideDowntime env ctx pack).1.feePool
          = k.feePool
            ++ (if 0 < min (k.DowntimeSlashFee sideCtx) s then
                [{ name := "side_downtime_slash"
                   denom := k.validatorSet.BondDenom
                     (k.calls ++ [ValidatorSetCall.SlashSideChain ctx name pack.SideAddr
                       (env.NewDec (k.DowntimeSlashAmount sideCtx))]) sideCtx
                   amount := min (k.DowntimeSlashFee sideCtx) s }]
              else [])
            ++ (if 0 < s - min (k.DowntimeSlashFee sideCtx) s ∧ found = false then
                [{ name := "side_downtime_slash_remaining"
                   denom := k.validatorSet.BondDenom
                     (k.calls ++ [ValidatorSetCall.SlashSideChain ctx name pack.SideAddr
                       (env.NewDec (k.DowntimeSlashAmount sideCtx))]) sideCtx
                   amount := s - min (k.DowntimeSlashFee sideCtx) s }]
              else [])
      ∧ (k.slashingSideDowntime env ctx pack).1.calls
          = k.calls
            ++ [ValidatorSetCall.SlashSideChain ctx name pack.SideAddr
                 (env.NewDec (k.DowntimeSlashAmount sideCtx))]
            ++ (if 0 < s - min (k.DowntimeSlashFee sideCtx) s then
                [ValidatorSetCall.AllocateSlashAmtToValidators sideCtx pack.SideAddr
                  (env.NewDec (s - min (k.DowntimeSlashFee sideCtx) s))]
              else [])
      ∧ ∃ e, (k.slashingSideDowntime env ctx pack).1.published = k.published ++ [e]
          ∧ e.SlashAmt = s
          ∧ (found = true → e.ToFeePool = min (k.DowntimeSlashFee sideCtx) s)
          ∧ (found = false → e.ToFeePool = s) := by
  have hform := slashingSideDowntime_pass env k ctx sideCtx pack name hname hctx hage hdup
  unfold MaxInt64 at hs1
  have hs0' : (0 : Int) ≤ s := hs0
  have hs1' : @LE.le Int _ s 9223372036854775807 := hs1
  have hmin : min (k.DowntimeSlashFee sideCtx) s ≤ s := min_le_right _ _
  have hmin0 : 0 ≤ min (k.DowntimeSlashFee sideCtx) s := le_min hf0 hs0
  generalize hfee : min (k.DowntimeSlashFee sideCtx) s = fee at *
  have hmin' : @LE.le Int _ fee s := hmin
  have hrem : wrapInt64 (s - fee) = s - fee := wrapInt64_eq_self (by omega) (by omega)
  have hs2 : (k.SlashSideChain ctx name pack.SideAddr
      (env.NewDec (k.DowntimeSlashAmount sideCtx))).2 = Except.ok (some v, s) := hslash
  have hsome : (k.signingInfo sideCtx.sideChainScope pack.SideAddr).isSome = true := by
    have h := hinfo
    simp only [getValidatorSigningInfo] at h
    rw [h]
    rfl
  rw [hform, hs2]
  simp only [hdeliver, Bool.and_true, hrem, hfee]
  by_cases hfp : fee > 0 <;> by_cases hrp : s - fee > 0 <;> cases found <;>
    simp [hfp, hrp, halloc, hsome, hpub, slashingSideDowntimeRecord_returns,
      slashingSideDowntimeRecord_published, BondDenom]
  all_goals (try have hfpN : ¬ @LT.lt Int _ 0 fee := hfp)
  all_goals (try have hrpN : ¬ @LT.lt Int _ 0 (s - fee) := hrp)
  all_goals (try have hrpP : @LT.lt Int _ 0 (s - fee) := hrp)
  all_goals (try rw [wrapInt64_eq_self (by omega) (by omega)])
  all_goals (try show @Eq Int _ _)
  all_goals omega

/-- Instance of C17 with slashed amount 1000 and DowntimeSlashFee 100, recipients found:
the fee pool receives 100, 900 is offered for allocation, ToFeePool is 100. -/
theorem C17_downtime_fee_split_witness :
    (sharingKeeper.slashingSideDowntime exampleEnv exampleBlockCtx exampleDowntimePackage).2
        = some none
      ∧ (sharingKeeper.slashingSideDowntime exampleEnv exampleBlockCtx
          exampleDowntimePackage).1.feePool
        = [{ name := "side_downtime_slash", denom := "BNB", amount := 100 }]
      ∧ (sharingKeeper.slashingSideDowntime exampleEnv exampleBlockCtx
          exampleDowntimePackage).1.calls
        = [ValidatorSetCall.SlashSideChain exampleBlockCtx "bsc" (List.replicate 20 7) 1000,
           ValidatorSetCall.AllocateSlashAmtToValidators exampleSideCtx (List.replicate 20 7)
             900]
      ∧ ∃ e, (sharingKeeper.slashingSideDowntime exampleEnv exampleBlockCtx
            exampleDowntimePackage).1.published = [e]
          ∧ e.SlashAmt = 1000
          ∧ (true = true → e.ToFeePool = 100)
          ∧ (true = false → e.ToFeePool = 1000) :=
  C17_downtime_fee_split exampleEnv sharingKeeper exampleBlockCtx exampleSideCtx
    exampleDowntimePackage "bsc" sideValidator 1000 true [("val1", 500), ("val2", 400)]
    freshInfo rfl rfl rfl (by decide) rfl rfl (by decide) (by decide) (by decide) rfl rfl rfl

end DowntimeDistribution

/-- C18, failing input: the validator set takes only 500 of the requested
DoubleSignSlashAmount 2000. The malicious-vote handler succeeds, records and publishes
SlashAmt 500, yet offers 2000 to AllocateSlashAmtToValidators and, no recipient being
found in deliver-tx phase, commits 2000 to the fee pool and reports ToFeePool 2000. -/
theorem C18_vote_distributes_requested_not_slashed_amount :
    poorKeeper.validatorSet.SlashSideChain [] exampleBlockCtx "bsc" (List.replicate 20 7)
        2000 = Except.ok (some sideValidator, 500)
      ∧ (poorKeeper.slashingSideMaliciousVote exampleEnv exampleBlockCtx
          exampleVotePackage).2 = some none
      ∧ (poorKeeper.slashingSideMaliciousVote exampleEnv exampleBlockCtx
          exampleVotePackage).1.calls
        = [ValidatorSetCall.SlashSideChain exampleBlockCtx "bsc" (List.replicate 20 7) 2000,
           ValidatorSetCall.AllocateSlashAmtToValidators exampleSideCtx (List.replicate 20 7)
             2000]
      ∧ (poorKeeper.slashingSideMaliciousVote exampleEnv exampleBlockCtx
          exampleVotePackage).1.feePool
        = [{ name := "side_malicious_vote_slash", denom := "BNB", amount := 2000 }]
      ∧ (poorKeeper.slashingSideMaliciousVote exampleEnv exampleBlockCtx
          exampleVotePackage).1.published
        = [{ Validator := [7], InfractionType := InfractionType.MaliciousVote,
             InfractionHeight := 100, SlashHeight := 500, JailUtil := 1300000000000,
             SlashAmt := 500, ToFeePool := 2000, SideChainId := "bsc",
             ValidatorsCompensation := [] }]
      ∧ (poorKeeper.slashingSideMaliciousVote exampleEnv exampleBlockCtx
          exampleVotePackage).1.slashRecords [98, 115, 99]
        = [{ ConsAddr := List.replicate 20 7, InfractionType := InfractionType.MaliciousVote,
             InfractionHeight := 100, SlashHeight := 500, JailUntil := 1300000000000,
             SlashAmt := 500, SideChainId := "bsc" }] := by
  refine ⟨rfl, rfl, ?_, ?_, ?_, ?_⟩ <;> decide

/-- C19, counterexample to the claim as stated: in check-tx phase the downtime handler
still calls AllocateSlashAmtToValidators, offering 900 of the 1000 slashed. -/
theorem C19_allocation_called_outside_deliver_tx_counterexample :
    exampleCheckCtx.IsDeliverTx = false
      ∧ (sideKeeper.slashingSideDowntime exampleEnv exampleCheckCtx
          exampleDowntimePackage).2 = some none
      ∧ (sideKeeper.slashingSideDowntime exampleEnv exampleCheckCtx
          exampleDowntimePackage).1.calls
        = [ValidatorSetCall.SlashSideChain exampleCheckCtx "bsc" (List.replicate 20 7) 1000,
           ValidatorSetCall.AllocateSlashAmtToValidators
             { exampleCheckCtx with sideChainScope := [98, 115, 99] } (List.replicate 20 7)
             900] := by
  refine ⟨rfl, rfl, ?_⟩
  decide

section CheckPhase

@[simp]
theorem slashingSideMaliciousVoteRecord_feePool (k : Keeper) (sideCtx : Context)
    (pack : SideSlashPackage) (name : String) (addr : Bytes) (info : ValidatorSigningInfo)
    (v : Option Validator) (s : Dec) (t : Int) (comp : List (String × Int)) :
    (slashingSideMaliciousVoteRecord k sideCtx pack name addr info v s t comp).1.feePool
      = k.feePool := by
  unfold slashingSideMaliciousVoteRecord
  cases v <;> cases hp : k.PbsbServer <;> simp [setValidatorSigningInfo, setSlashRecord, hp]

/-- What the recording step of a malicious-vote slash publishes: at most one event,
carrying the amount handed in as ToFeePool. -/
theorem slashingSideMaliciousVoteRecord_published_cases (k : Keeper) (sideCtx : Context)
    (pack : SideSlashPackage) (name : String) (addr : Bytes) (info : ValidatorSigningInfo)
    (v : Option Validator) (s : Dec) (t : Int) (comp : List (String × Int)) :
    (slashingSideMaliciousVoteRecord k sideCtx pack name addr info v s t comp).1.published
        = k.published
      ∨ ∃ ev, (slashingSideMaliciousVoteRecord k sideCtx pack name addr info v s t
              comp).1.published = k.published ++ [ev]
          ∧ ev.ToFeePool = t := by
  unfold slashingSideMaliciousVoteRecord
  cases v <;> cases hp : k.PbsbServer <;>
    simp [setValidatorSigningInfo, setSlashRecord, hp, Publish]

theorem slashingSideDowntime_feePool_check (env : Env) (k : Keeper) (ctx : Context)
    (pack : SideSlashPackage) (hnd : ctx.IsDeliverTx = false) :
    (k.slashingSideDowntime env ctx pack).1.feePool = k.feePool := by
  unfold slashingSideDowntime
  simp only [hnd, Bool.and_false, Bool.false_eq_true, if_false]
  repeat' split
  all_goals simp

theorem slashingSideMaliciousVote_feePool_check (env : Env) (k : Keeper) (ctx : Context)
    (pack : SideSlashPackage) (hnd : ctx.IsDeliverTx = false) :
    (k.slashingSideMaliciousVote env ctx pack).1.feePool = k.feePool := by
  unfold slashingSideMaliciousVote
  simp only [hnd, Bool.and_false, Bool.false_eq_true, if_false]
  repeat' split
  all_goals simp

theorem slashingSideDowntime_published_check (env : Env) (k : Keeper) (ctx : Context)
    (pack : SideSlashPackage) (hnd : ctx.IsDeliverTx = false) :
    (k.slashingSideDowntime env ctx pack).1.published = k.published
      ∨ ∃ e, (k.slashingSideDowntime env ctx pack).1.published = k.published ++ [e]
          ∧ e.ToFeePool = 0 := by
  unfold slashingSideDowntime
  simp only [hnd, Bool.and_false, Bool.false_eq_true, if_false]
  repeat' split
  all_goals first
    | exact Or.inl rfl
    | (rcases slashingSideDowntimeRecord_published_cases _ _ _ _ _ _ _ _ _ with
        h | ⟨ev, h, h1, _⟩
       · exact Or.inl (by simpa using h)
       · exact Or.inr ⟨ev, by simpa using h, h1⟩)

theorem slashingSideMaliciousVote_published_check (env : Env) (k : Keeper) (ctx : Context)
    (pack : SideSlashPackage) (hnd : ctx.IsDeliverTx = false) :
    (k.slashingSideMaliciousVote env ctx pack).1.published = k.published
      ∨ ∃ e, (k.slashingSideMaliciousVote env ctx pack).1.published = k.published ++ [e]
          ∧ e.ToFeePool = 0 := by
  unfold slashingSideMaliciousVote
  simp only [hnd, Bool.and_false, Bool.false_eq_true, if_false]
  repeat' split
  all_goals first
    | exact Or.inl rfl
    | (rcases slashingSideMaliciousVoteRecord_published_cases _ _ _ _ _ _ _ _ _ _ with
        h | ⟨ev, h, h1⟩
       · exact Or.inl (by simpa using h)
       · exact Or.inr ⟨ev, by simpa using h, h1⟩)

/-- C19 (amended): outside the deliver-tx phase neither side-chain handler commits
anything to the fee pool, and an event it publishes reports ToFeePool 0. -/
theorem C19_no_fee_pool_commit_outside_deliver_tx (env : Env) (k : Keeper) (ctx : Context)
    (pack : SideSlashPackage) (hnd : ctx.IsDeliverTx = false) :
    (k.slashingSideDowntime env ctx pack).1.feePool = k.feePool
      ∧ (k.slashingSideMaliciousVote env ctx pack).1.feePool = k.feePool
      ∧ ((k.slashingSideDowntime env ctx pack).1.published = k.published
          ∨ ∃ e, (k.slashingSideDowntime env ctx pack).1.published = k.published ++ [e]
              ∧ e.ToFeePool = 0)
      ∧ ((k.slashingSideMaliciousVote env ctx pack).1.published = k.published
          ∨ ∃ e, (k.slashingSideMaliciousVote env ctx pack).1.published = k.published ++ [e]
              ∧ e.ToFeePool = 0) :=
  ⟨slashingSideDowntime_feePool_check env k ctx pack hnd,
    slashingSideMaliciousVote_feePool_check env k ctx pack hnd,
    slashingSideDowntime_published_check env k ctx pack hnd,
    slashingSideMaliciousVote_published_check env k ctx pack hnd⟩

/-- Instance of C19 (amended): the packet `exampleDowntimePackage` handled by `sideKeeper`
in check-tx phase. -/
theorem C19_no_fee_pool_commit_outside_deliver_tx_witness :
    exampleCheckCtx.IsDeliverTx = false
      ∧ (sideKeeper.slashingSideDowntime exampleEnv exampleCheckCtx
          exampleDowntimePackage).1.feePool = sideKeeper.feePool
      ∧ (sideKeeper.slashingSideMaliciousVote exampleEnv exampleCheckCtx
          exampleDowntimePackage).1.feePool = sideKeeper.feePool
      ∧ ((sideKeeper.slashingSideDowntime exampleEnv exampleCheckCtx
            exampleDowntimePackage).1.published = sideKeeper.published
          ∨ ∃ e, (sideKeeper.slashingSideDowntime exampleEnv exampleCheckCtx
                exampleDowntimePackage).1.published = sideKeeper.published ++ [e]
              ∧ e.ToFeePool = 0)
      ∧ ((sideKeeper.slashingSideMaliciousVote exampleEnv exampleCheckCtx
            exampleDowntimePackage).1.published = sideKeeper.published
          ∨ ∃ e, (sideKeeper.slashingSideMaliciousVote exampleEnv exampleCheckCtx
                exampleDowntimePackage).1.published = sideKeeper.published ++ [e]
              ∧ e.ToFeePool = 0) :=
  ⟨rfl, C19_no_fee_pool_commit_outside_deliver_tx exampleEnv sideKeeper exampleCheckCtx
    exampleDowntimePackage rfl⟩

end CheckPhase

section Panic

/-- The downtime handler does not panic when no publisher is set or its SlashSideChain
call does not answer with a nil validator and no error. -/
theorem slashingSideDowntime_no_panic (env : Env) (k : Keeper) (ctx : Context)
    (pack : SideSlashPackage)
    (hnil : k.PbsbServer = false
      ∨ ∀ n a d s, k.validatorSet.SlashSideChain k.calls ctx n a d ≠ Except.ok (none, s)) :
    (k.slashingSideDowntime env ctx pack).2 ≠ none := by
  unfold slashingSideDowntime
  simp only []
  split
  · simp
  · rename_i name _
    split
    · simp
    · rename_i sideCtx _
      split
      · simp
      · split
        · simp
        · split
          · simp
          · rename_i validator slashedAmt hslash
            have hv : k.PbsbServer = false ∨ validator.isSome = true := by
              rcases hnil with h | h
              · exact Or.inl h
              · cases validator with
                | none => exact absurd hslash (h _ _ _ _)
                | some w => exact Or.inr rfl
            have key : ∀ K : Keeper, K.PbsbServer = k.PbsbServer → ∀ t comp,
                (slashingSideDowntimeRecord env K sideCtx pack name validator slashedAmt
                  t comp).2 ≠ none := by
              intro K hK t comp
              apply slashingSideDowntimeRecord_no_panic
              rw [hK]
              exact hv
            split
            · split
              · simp
              · split
                · exact key _ (by split_ifs <;> rfl) _ _
                · exact key _ (by split_ifs <;> rfl) _ _
            · exact key _ (by split_ifs <;> rfl) _ _

/-- The malicious-vote handler does not panic when no publisher is set or its
SlashSideChain call does not answer with a nil validator and no error. -/
theorem slashingSideMaliciousVote_no_panic (env : Env) (k : Keeper) (ctx : Context)
    (pack : SideSlashPackage)
    (hnil : k.PbsbServer = false
      ∨ ∀ n a d s, k.validatorSet.SlashSideChain k.calls ctx n a d ≠ Except.ok (none, s)) :
    (k.slashingSideMaliciousVote env ctx pack).2 ≠ none := by
  unfold slashingSideMaliciousVote
  simp only []
  split
  · simp
  · rename_i name _
    split
    · simp
    · rename_i sideCtx _
      split
      · simp
      · split
        · simp
        · rename_i v _
          split
          · simp
          · rename_i info _
            split
            · simp
            · split
              · simp
              · split
                · simp
                · rename_i validator slashedAmt hslash
                  have hv : k.PbsbServer = false ∨ validator.isSome = true := by
                    rcases hnil with h | h
                    · exact Or.inl h
                    · cases validator with
                      | none => exact absurd hslash (h _ _ _ _)
                      | some w => exact Or.inr rfl
                  have key : ∀ K : Keeper, K.PbsbServer = k.PbsbServer → ∀ t comp,
                      (slashingSideMaliciousVoteRecord K sideCtx pack name
                        v.SideChainConsAddr info validator slashedAmt t comp).2 ≠ none := by
                    intro K hK t comp
                    rw [slashingSideMaliciousVoteRecord_returns K sideCtx pack name
                      v.SideChainConsAddr info validator slashedAmt t comp
                      (by rw [hK]; exact hv)]
                    simp
                  split
                  · split
                    · simp
                    · split
                      · exact key _ (by rfl) _ _
                      · exact key _ (by rfl) _ _
                  · exact key _ (by rfl) _ _

end Panic

/-- C11, counterexample to the claim as stated: a downtime packet that passes
checkSideSlashPackage, handled by a keeper with a publisher whose SlashSideChain answers
with a nil validator and no error (the validator is no longer found).  The handler writes
the slash record and the signing info and then panics on `validator.GetOperator()`; it
returns no error, and ExecuteSynPackage returns no ack at all. -/
theorem C11_no_ack_on_nil_validator_counterexample :
    vanishedKeeper.checkSideSlashPackage exampleEnv exampleDowntimePayload
        = Except.ok exampleDowntimePackage
      ∧ vanishedKeeper.PbsbServer = true
      ∧ vanishedKeeper.validatorSet.SlashSideChain [] exampleBlockCtx "bsc"
          (List.replicate 20 7) 1000 = Except.ok (none, 0)
      ∧ (vanishedKeeper.slashingSideDowntime exampleEnv exampleBlockCtx
          exampleDowntimePackage).2 = none
      ∧ (vanishedKeeper.slashingSideDowntime exampleEnv exampleBlockCtx
          exampleDowntimePackage).1.slashRecords [98, 115, 99]
        = [{ ConsAddr := List.replicate 20 7, InfractionType := InfractionType.Downtime,
             InfractionHeight := 100, SlashHeight := 500, JailUntil := 1060000000000,
             SlashAmt := 0, SideChainId := "bsc" }]
      ∧ vanishedKeeper.ExecuteSynPackage exampleEnv exampleBlockCtx exampleDowntimePayload 0
        = none := by
  refine ⟨rfl, rfl, rfl, rfl, ?_, rfl⟩
  decide

/-- C11 (amended): for every payload on which the handler does not panic (the ABCI code of
every error being a non-zero uint32), the result code packed into the ack of
ExecuteSynPackage is 0 if and only if the packet passed checkSideSlashPackage and its
handler returned no error; otherwise the code is the ABCI code of the error returned by
the check or the handler, and that same error is returned in the Err field.
ExecuteSynPackage panics, returning no ack, exactly when the handler panics, and a handler
panics only when a publisher is set and its SlashSideChain call answers with a nil
validator and no error.  In detail: a payload rejected by checkSideSlashPackage gets an ack
with the ABCI code of the rejection and the rejection in Err; for a packet that passed the
check, ExecuteSynPackage panics exactly when the handler panics, returns the code 0 with
an empty Err when the handler returned no error, and the ABCI code of the handler's error
with that error in Err when it returned one, in both cases with the state the handler
left. -/
theorem C11_ack_code_reflects_error (env : Env) (k : Keeper) (ctx : Context)
    (payload : Bytes) (fee : Int)
    (hcode : ∀ e, 0 < env.ABCICode e ∧ env.ABCICode e < 4294967296) :
    (∀ e, k.checkSideSlashPackage env payload = Except.error e →
        k.ExecuteSynPackage env ctx payload fee
          = some (k, { Payload := { Code := env.ABCICode e }, Err := some e }))
      ∧ (∀ pack, k.checkSideSlashPackage env payload = Except.ok pack →
          ((if pack.addrType = env.SideConsAddrType then
                k.slashingSideDowntime env ctx pack
              else k.slashingSideMaliciousVote env ctx pack).2 = none ↔
            k.ExecuteSynPackage env ctx payload fee = none)
          ∧ ((if pack.addrType = env.SideConsAddrType then
                k.slashingSideDowntime env ctx pack
              else k.slashingSideMaliciousVote env ctx pack).2 = some none →
            k.ExecuteSynPackage env ctx payload fee
              = some ((if pack.addrType = env.SideConsAddrType then
                    k.slashingSideDowntime env ctx pack
                  else k.slashingSideMaliciousVote env ctx pack).1,
                { Payload := { Code := 0 }, Err := none }))
          ∧ (∀ e, (if pack.addrType = env.SideConsAddrType then
                k.slashingSideDowntime env ctx pack
              else k.slashingSideMaliciousVote env ctx pack).2 = some (some e) →
            k.ExecuteSynPackage env ctx payload fee
              = some ((if pack.addrType = env.SideConsAddrType then
                    k.slashingSideDowntime env ctx pack
                  else k.slashingSideMaliciousVote env ctx pack).1,
                { Payload := { Code := env.ABCICode e }, Err := some e })))
      ∧ (∀ k' res, k.ExecuteSynPackage env ctx payload fee = some (k', res) →
          (res.Payload.Code = 0
            ↔ ∃ pack, k.checkSideSlashPackage env payload = Except.ok pack
                ∧ (if pack.addrType = env.SideConsAddrType then
                      k.slashingSideDowntime env ctx pack
                    else k.slashingSideMaliciousVote env ctx pack).2 = some none))
      ∧ ((k.PbsbServer = false
            ∨ ∀ n a d s,
                k.validatorSet.SlashSideChain k.calls ctx n a d ≠ Except.ok (none, s)) →
          ∃ k' res, k.ExecuteSynPackage env ctx payload fee = some (k', res)) := by
  have hmod : ∀ e, env.ABCICode e % 4294967296 = env.ABCICode e := fun e =>
    Nat.mod_eq_of_lt (hcode e).2
  have hpos : ∀ e, env.ABCICode e ≠ 0 := fun e => Nat.pos_iff_ne_zero.mp (hcode e).1
  cases hchk : k.checkSideSlashPackage env payload with
  | error e0 =>
    have hexec := ExecuteSynPackage_rejected env k ctx payload fee e0 hchk
    rw [hmod] at hexec
    refine ⟨?_, ?_, ?_, ?_⟩
    · intro e he
      injection he with he
      subst he
      exact hexec
    · intro pack h
      exact Except.noConfusion h
    · intro k' res hres
      rw [hexec] at hres
      simp only [Option.some.injEq, Prod.mk.injEq] at hres
      constructor
      · intro h
        rw [← hres.2] at h
        exact absurd h (hpos e0)
      · rintro ⟨pack, h, _⟩
        exact Except.noConfusion h
    · intro _
      exact ⟨_, _, hexec⟩
  | ok pack0 =>
    have hexec := ExecuteSynPackage_accepted env k ctx payload fee pack0 hchk
    generalize hH : (if pack0.addrType = env.SideConsAddrType then
        k.slashingSideDowntime env ctx pack0
      else k.slashingSideMaliciousVote env ctx pack0) = H at hexec
    have hHpack : ∀ pack, Except.ok pack0 = (Except.ok pack : Except SdkError SideSlashPackage) →
        (if pack.addrType = env.SideConsAddrType then
          k.slashingSideDowntime env ctx pack
        else k.slashingSideMaliciousVote env ctx pack) = H := by
      intro pack hp
      injection hp with hp
      subst hp
      exact hH
    refine ⟨?_, ?_, ?_, ?_⟩
    · intro e h
      exact Except.noConfusion h
    · intro pack hp
      rw [hHpack pack hp]
      refine ⟨⟨fun h => ?_, fun h => ?_⟩, fun h => ?_, fun e h => ?_⟩
      · rw [hexec, h]
      · rw [hexec] at h
        cases hH2 : H.2 with
        | none => rfl
        | some r =>
          rw [hH2] at h
          exact Option.noConfusion h
      · rw [hexec, h]
      · rw [hexec, h]
        simp only [hmod]
    · intro k' res hres
      rw [hexec] at hres
      cases hH2 : H.2 with
      | none =>
        rw [hH2] at hres
        exact Option.noConfusion hres
      | some err =>
        rw [hH2] at hres
        simp only [Option.some.injEq, Prod.mk.injEq] at hres
        obtain ⟨_, hres⟩ := hres
        subst hres
        cases err with
        | none =>
          simp only [true_iff]
          exact ⟨pack0, rfl, by rw [hH, hH2]⟩
        | some e =>
          simp only [hmod]
          constructor
          · intro h
            exact absurd h (hpos e)
          · rintro ⟨pack, hp, h⟩
            rw [hHpack pack hp, hH2] at h
            simp at h
    · intro hnil
      have hret : H.2 ≠ none := by
        rw [← hH]
        split
        · exact slashingSideDowntime_no_panic env k ctx pack0 hnil
        · exact slashingSideMaliciousVote_no_panic env k ctx pack0 hnil
      cases hH2 : H.2 with
      | none => exact absurd hH2 hret
      | some err =>
        rw [hexec, hH2]
        exact ⟨_, _, rfl⟩

theorem exampleABCICode_range (e : SdkError) :
    0 < exampleEnv.ABCICode e ∧ exampleEnv.ABCICode e < 4294967296 := by
  cases e <;> simp only [exampleEnv, exampleABCICode] <;> omega

/-- Instance of C11: the downtime packet of `exampleDowntimePayload` on a keeper that
accepts and applies it gets the code 0 and an empty Err field. -/
theorem C11_ack_code_reflects_error_witness :
    freshSmallKeeper.ExecuteSynPackage exampleEnv exampleBlockCtx exampleDowntimePayload 0
      = some (downtimeAppliedKeeper, { Payload := { Code := 0 }, Err := none }) :=
  ((C11_ack_code_reflects_error exampleEnv freshSmallKeeper exampleBlockCtx
    exampleDowntimePayload 0 exampleABCICode_range).2.1 exampleDowntimePackage rfl).2.1 rfl

/-- C15, failing sequence for one validator: a malicious-vote packet is applied at block
time 1000 s (record with JailUntil 1300 s); a downtime packet applied at block time 1010 s
overwrites the jail term of the signing info with 1070 s; a second malicious-vote packet
with SideTimestamp 1080, earlier than the JailUntil 1300 of the first malicious-vote
slash, is then applied at block time 1100 s. -/
theorem C15_downtime_slash_reopens_malicious_vote_slashing :
    sideKeeper.slashingSideMaliciousVote exampleEnv exampleBlockCtx exampleVotePackage
        = (voteAppliedKeeper, some none)
      ∧ voteAppliedKeeper.slashRecords [98, 115, 99]
        = [{ ConsAddr := List.replicate 20 7, InfractionType := InfractionType.MaliciousVote,
             InfractionHeight := 100, SlashHeight := 500, JailUntil := 1300000000000,
             SlashAmt := 2000, SideChainId := "bsc" }]
      ∧ voteAppliedKeeper.getValidatorSigningInfo exampleSideCtx (List.replicate 20 7)
        = some { freshInfo with JailedUntil := 1300000000000 }
      ∧ voteAppliedKeeper.slashingSideDowntime exampleEnv laterDowntimeCtx
          laterDowntimePackage = (downtimeAfterVoteKeeper, some none)
      ∧ downtimeAfterVoteKeeper.getValidatorSigningInfo exampleSideCtx (List.replicate 20 7)
        = some { freshInfo with JailedUntil := 1070000000000 }
      ∧ downtimeAfterVoteKeeper.isMaliciousVoteSlashed exampleSideCtx (List.replicate 20 7)
        = true
      ∧ (downtimeAfterVoteKeeper.slashingSideMaliciousVote exampleEnv secondVoteCtx
          secondVotePackage).2 = some none
      ∧ (downtimeAfterVoteKeeper.slashingSideMaliciousVote exampleEnv secondVoteCtx
          secondVotePackage).1.calls
        = downtimeAfterVoteKeeper.calls
          ++ [ValidatorSetCall.SlashSideChain secondVoteCtx "bsc" (List.replicate 20 7) 2000,
              ValidatorSetCall.AllocateSlashAmtToValidators
                { secondVoteCtx with sideChainScope := [98, 115, 99] } (List.replicate 20 7)
                2000]
      ∧ (secondVotePackage.SideTimestamp : Int) < unixSeconds 1300000000000 := by
  refine ⟨rfl, ?_, ?_, rfl, ?_, ?_, rfl, ?_, ?_⟩ <;> decide

section DoubleSign

/-- The duration between two times is their difference when the difference fits an
`int64`. -/
theorem timeSub_gt_iff {t u m : Int} (hm : m < MaxInt64) (hm0 : MinInt64 ≤ m) :
    timeSub t u > m ↔ t - u > m := by
  unfold MaxInt64 at hm
  unfold MinInt64 at hm0
  unfold timeSub MaxInt64 MinInt64
  split_ifs <;> omega

/-- An evidence older than MaxEvidenceAge leaves the keeper as it is. -/
theorem handleDoubleSign_dropped (env : Env) (k : Keeper) (ctx : Context) (addr pk : Bytes)
    (infractionHeight timestamp power : Int)
    (hpk : k.getPubkey ctx addr = some pk)
    (hold : timeSub ctx.BlockTime timestamp > k.MaxEvidenceAge ctx) :
    k.handleDoubleSign env ctx addr infractionHeight timestamp power = some k := by
  unfold handleDoubleSign
  simp only [hpk, if_pos hold]

/-- An evidence that is not too old, for a validator the validator set knows and that has
signing info: the state `handleDoubleSign` returns. -/
theorem handleDoubleSign_applied (env : Env) (k : Keeper) (ctx : Context) (addr pk : Bytes)
    (infractionHeight timestamp power : Int) (v : Validator) (info : ValidatorSigningInfo)
    (hpk : k.getPubkey ctx addr = some pk)
    (hage : ¬ timeSub ctx.BlockTime timestamp > k.MaxEvidenceAge ctx)
    (hv : k.validatorSet.ValidatorByConsAddr
      (k.calls ++ [ValidatorSetCall.Slash ctx addr
        (wrapInt64 (infractionHeight - env.ValidatorUpdateDelay)) power
        (env.capBySlashingPeriod ctx addr (k.SlashFractionDoubleSign ctx)
          (wrapInt64 (infractionHeight - env.ValidatorUpdateDelay)))])
      ctx addr = some v)
    (hinfo : k.getValidatorSigningInfo ctx addr = some info) :
    k.handleDoubleSign env ctx addr infractionHeight timestamp power
      = some { k with
          calls := k.calls ++ [ValidatorSetCall.Slash ctx addr
              (wrapInt64 (infractionHeight - env.ValidatorUpdateDelay)) power
              (env.capBySlashingPeriod ctx addr (k.SlashFractionDoubleSign ctx)
                (wrapInt64 (infractionHeight - env.ValidatorUpdateDelay)))]
            ++ (if v.Jailed = true then [] else [ValidatorSetCall.Jail ctx addr])
          signingInfo := fun scope a =>
            if scope = ctx.sideChainScope ∧ a = addr then
              some { info with
                JailedUntil := (ctx.BlockTime + k.DoubleSignUnbondDuration ctx) }
            else k.signingInfo scope a } := by
  have hv' : (k.Slash ctx addr (wrapInt64 (infractionHeight - env.ValidatorUpdateDelay))
      power (env.capBySlashingPeriod ctx addr (k.SlashFractionDoubleSign ctx)
        (wrapInt64 (infractionHeight - env.ValidatorUpdateDelay)))).ValidatorByConsAddr
      ctx addr = some v := hv
  unfold handleDoubleSign
  simp only [hpk, if_neg hage, hv']
  cases hj : v.Jailed
  · have hinfo' : ((k.Slash ctx addr (wrapInt64 (infractionHeight - env.ValidatorUpdateDelay))
        power (env.capBySlashingPeriod ctx addr (k.SlashFractionDoubleSign ctx)
          (wrapInt64 (infractionHeight - env.ValidatorUpdateDelay)))).Jail
        ctx addr).getValidatorSigningInfo ctx addr = some info := hinfo
    simp only [Bool.not_false, if_true, hinfo', Bool.false_eq_true, if_false]
    simp [setValidatorSigningInfo, Jail, Slash, DoubleSignUnbondDuration]
  · have hinfo' : (k.Slash ctx addr (wrapInt64 (infractionHeight - env.ValidatorUpdateDelay))
        power (env.capBySlashingPeriod ctx addr (k.SlashFractionDoubleSign ctx)
          (wrapInt64 (infractionHeight - env.ValidatorUpdateDelay)))).getValidatorSigningInfo
        ctx addr = some info := hinfo
    simp only [Bool.not_true, Bool.false_eq_true, if_false, hinfo', if_true]
    simp [setValidatorSigningInfo, Slash, DoubleSignUnbondDuration]

/-- C21: for an address with a known pubkey and an int64 MaxEvidenceAge below the largest
duration, a double-sign evidence with `blockTime - timestamp > MaxEvidenceAge` leaves the
whole keeper unchanged (no Slash, no Jail, same signing info); an evidence with
`blockTime - timestamp ≤ MaxEvidenceAge`, for a validator the validator set knows and
that has signing info, is applied: `handleDoubleSign` returns with the Slash call made. -/
theorem C21_double_sign_age_threshold (env : Env) (k : Keeper) (ctx : Context)
    (addr pk : Bytes) (infractionHeight power : Int)
    (hpk : k.getPubkey ctx addr = some pk)
    (hmax0 : MinInt64 ≤ k.MaxEvidenceAge ctx) (hmax1 : k.MaxEvidenceAge ctx < MaxInt64) :
    ∀ timestamp : Int,
      (ctx.BlockTime - timestamp > k.MaxEvidenceAge ctx →
        k.handleDoubleSign env ctx addr infractionHeight timestamp power = some k)
      ∧ (ctx.BlockTime - timestamp ≤ k.MaxEvidenceAge ctx →
          ∀ (v : Validator) (info : ValidatorSigningInfo),
            k.validatorSet.ValidatorByConsAddr
              (k.calls ++ [ValidatorSetCall.Slash ctx addr
                (wrapInt64 (infractionHeight - env.ValidatorUpdateDelay)) power
                (env.capBySlashingPeriod ctx addr (k.SlashFractionDoubleSign ctx)
                  (wrapInt64 (infractionHeight - env.ValidatorUpdateDelay)))])
              ctx addr = some v →
            k.getValidatorSigningInfo ctx addr = some info →
            ∃ k', k.handleDoubleSign env ctx addr infractionHeight timestamp power = some k'
              ∧ k'.calls = k.calls ++ [ValidatorSetCall.Slash ctx addr
                    (wrapInt64 (infractionHeight - env.ValidatorUpdateDelay)) power
                    (env.capBySlashingPeriod ctx addr (k.SlashFractionDoubleSign ctx)
                      (wrapInt64 (infractionHeight - env.ValidatorUpdateDelay)))]
                  ++ (if v.Jailed = true then [] else [ValidatorSetCall.Jail ctx addr])) := by
  intro timestamp
  constructor
  · intro hold
    exact handleDoubleSign_dropped env k ctx addr pk infractionHeight timestamp power hpk
      ((timeSub_gt_iff hmax1 hmax0).mpr hold)
  · intro hyoung v info hv hinfo
    have hage : ¬ timeSub ctx.BlockTime timestamp > k.MaxEvidenceAge ctx := by
      rw [timeSub_gt_iff hmax1 hmax0]
      omega
    exact ⟨_, handleDoubleSign_applied env k ctx addr pk infractionHeight timestamp power v
      info hpk hage hv hinfo, rfl⟩

/-- Instance of C21 with MaxEvidenceAge 120 s at block time 1000 s: an evidence of age
120 s + 1 ns is dropped, an evidence of age exactly 120 s is slashed. -/
theorem C21_double_sign_age_threshold_witness :
    freshSmallKeeper.handleDoubleSign exampleEnv exampleBlockCtx [1] 400 879999999999 10
        = some freshSmallKeeper
      ∧ ∃ k', freshSmallKeeper.handleDoubleSign exampleEnv exampleBlockCtx [1] 400
            880000000000 10 = some k'
          ∧ k'.calls = [ValidatorSetCall.Slash exampleBlockCtx [1] 399 10 5000000,
              ValidatorSetCall.Jail exampleBlockCtx [1]] :=
  ⟨(C21_double_sign_age_threshold exampleEnv freshSmallKeeper exampleBlockCtx [1] [1] 400 10
      rfl (by decide) (by decide) 879999999999).1 (by decide),
    (C21_double_sign_age_threshold exampleEnv freshSmallKeeper exampleBlockCtx [1] [1] 400 10
      rfl (by decide) (by decide) 880000000000).2 (by decide) exampleValidator freshInfo
      rfl rfl⟩

/-- C22: a double-sign evidence that is not too old (for a known pubkey, a validator the
validator set knows, existing signing info, and a distribution height within int64) makes
`handleDoubleSign` call Slash exactly once, with the consensus address, the distribution
height `infractionHeight - ValidatorUpdateDelay`, the power and the fraction
`capBySlashingPeriod` returns for SlashFractionDoubleSign at that height, followed by
`Jail(consAddr)` exactly when the validator is not already jailed. -/
theorem C22_double_sign_slash_arguments (env : Env) (k : Keeper) (ctx : Context)
    (addr pk : Bytes) (infractionHeight timestamp power : Int) (v : Validator)
    (info : ValidatorSigningInfo)
    (hpk : k.getPubkey ctx addr = some pk)
    (hage : ¬ timeSub ctx.BlockTime timestamp > k.MaxEvidenceAge ctx)
    (hlo : MinInt64 ≤ infractionHeight - env.ValidatorUpdateDelay)
    (hhi : infractionHeight - env.ValidatorUpdateDelay ≤ MaxInt64)
    (hv : k.validatorSet.ValidatorByConsAddr
      (k.calls ++ [ValidatorSetCall.Slash ctx addr
        (infractionHeight - env.ValidatorUpdateDelay) power
        (env.capBySlashingPeriod ctx addr (k.SlashFractionDoubleSign ctx)
          (infractionHeight - env.ValidatorUpdateDelay))])
      ctx addr = some v)
    (hinfo : k.getValidatorSigningInfo ctx addr = some info) :
    ∃ k', k.handleDoubleSign env ctx addr infractionHeight timestamp power = some k'
      ∧ k'.calls = k.calls ++ [ValidatorSetCall.Slash ctx addr
            (infractionHeight - env.ValidatorUpdateDelay) power
            (env.capBySlashingPeriod ctx addr (k.SlashFractionDoubleSign ctx)
              (infractionHeight - env.ValidatorUpdateDelay))]
          ++ (if v.Jailed = true then [] else [ValidatorSetCall.Jail ctx addr])
      ∧ (ValidatorSetCall.Jail ctx addr ∈ k'.calls.drop k.calls.length
          ↔ v.Jailed = false) := by
  have hw : wrapInt64 (infractionHeight - env.ValidatorUpdateDelay)
      = infractionHeight - env.ValidatorUpdateDelay :=
    wrapInt64_eq_self hlo hhi
  have happ := handleDoubleSign_applied env k ctx addr pk infractionHeight timestamp power v
    info hpk hage (by rw [hw]; exact hv) hinfo
  rw [hw] at happ
  refine ⟨_, happ, rfl, ?_⟩
  cases hj : v.Jailed <;> simp

/-- Instance of C22: an evidence of age 100 s for infraction height 400 against an unjailed
validator. -/
theorem C22_double_sign_slash_arguments_witness :
    ∃ k', freshSmallKeeper.handleDoubleSign exampleEnv exampleBlockCtx [1] 400 900000000000
          10 = some k'
      ∧ k'.calls = [ValidatorSetCall.Slash exampleBlockCtx [1] 399 10 5000000,
          ValidatorSetCall.Jail exampleBlockCtx [1]]
      ∧ (ValidatorSetCall.Jail exampleBlockCtx [1] ∈ k'.calls.drop 0
          ↔ exampleValidator.Jailed = false) :=
  C22_double_sign_slash_arguments exampleEnv freshSmallKeeper exampleBlockCtx [1] [1] 400
    900000000000 10 exampleValidator freshInfo rfl (by decide) (by decide) (by decide) rfl rfl

/-- C23: an applied double-sign evidence (known pubkey, not too old, a validator the
validator set knows) at block time `t` persists the signing info it found with JailedUntil
replaced by `t + DoubleSignUnbondDuration`, whatever JailedUntil was before; StartHeight,
IndexOffset, MissedBlocksCounter and the missed-block bitmap are unchanged. -/
theorem C23_double_sign_overwrites_jail_term (env : Env) (k : Keeper) (ctx : Context)
    (addr pk : Bytes) (infractionHeight timestamp power : Int) (v : Validator)
    (info : ValidatorSigningInfo)
    (hpk : k.getPubkey ctx addr = some pk)
    (hage : ¬ timeSub ctx.BlockTime timestamp > k.MaxEvidenceAge ctx)
    (hv : k.validatorSet.ValidatorByConsAddr
      (k.calls ++ [ValidatorSetCall.Slash ctx addr
        (wrapInt64 (infractionHeight - env.ValidatorUpdateDelay)) power
        (env.capBySlashingPeriod ctx addr (k.SlashFractionDoubleSign ctx)
          (wrapInt64 (infractionHeight - env.ValidatorUpdateDelay)))])
      ctx addr = some v)
    (hinfo : k.getValidatorSigningInfo ctx addr = some info) :
    ∃ k', k.handleDoubleSign env ctx addr infractionHeight timestamp power = some k'
      ∧ k'.getValidatorSigningInfo ctx addr
          = some { StartHeight := info.StartHeight
                   IndexOffset := info.IndexOffset
                   JailedUntil := ctx.BlockTime + k.DoubleSignUnbondDuration ctx
                   MissedBlocksCounter := info.MissedBlocksCounter }
      ∧ k'.missedBlockBitArray = k.missedBlockBitArray := by
  refine ⟨_, handleDoubleSign_applied env k ctx addr pk infractionHeight timestamp power v
    info hpk hage hv hinfo, ?_, rfl⟩
  simp [getValidatorSigningInfo]

/-- Instance of C23: the validator is jailed until 5000 s when an evidence is applied at
block time 1000 s with DoubleSignUnbondDuration 300 s; the jail term becomes 1300 s. -/
theorem C23_double_sign_overwrites_jail_term_witness :
    ∃ k', longJailedKeeper.handleDoubleSign exampleEnv exampleBlockCtx [1] 400 900000000000
          10 = some k'
      ∧ k'.getValidatorSigningInfo exampleBlockCtx [1]
          = some { StartHeight := freshInfo.StartHeight
                   IndexOffset := freshInfo.IndexOffset
                   JailedUntil := 1300000000000
                   MissedBlocksCounter := freshInfo.MissedBlocksCounter }
      ∧ k'.missedBlockBitArray = longJailedKeeper.missedBlockBitArray :=
  C23_double_sign_overwrites_jail_term exampleEnv longJailedKeeper exampleBlockCtx [1] [1]
    400 900000000000 10 exampleValidator { freshInfo with JailedUntil := 5000000000000 }
    rfl (by decide) rfl rfl

end DoubleSign

section FutureEvidence

/-- C28, counterexample to the claim as stated: with MaxEvidenceAge 2 000 000 000 s at
block time 1 700 000 000 s, packets dated at the largest `uint64` (far in the future) have
the wrapped age 1 700 000 001 s, are not expired, and the validator is slashed. -/
theorem C28_far_future_packet_is_slashed_counterexample :
    unixSeconds recentBlockCtx.BlockTime < (farFuturePackage.SideTimestamp : Int)
      ∧ unixSeconds recentBlockCtx.BlockTime < (farFutureVotePackage.SideTimestamp : Int)
      ∧ (longAgeKeeper.slashingSideDowntime exampleEnv recentBlockCtx farFuturePackage).2
        = some none
      ∧ (longAgeKeeper.slashingSideDowntime exampleEnv recentBlockCtx
          farFuturePackage).1.calls
        = [ValidatorSetCall.SlashSideChain recentBlockCtx "bsc" (List.replicate 20 7) 1000,
           ValidatorSetCall.AllocateSlashAmtToValidators
             { recentBlockCtx with sideChainScope := [98, 115, 99] } (List.replicate 20 7)
             900]
      ∧ (longAgeKeeper.slashingSideMaliciousVote exampleEnv recentBlockCtx
          farFutureVotePackage).2 = some none
      ∧ (longAgeKeeper.slashingSideMaliciousVote exampleEnv recentBlockCtx
          farFutureVotePackage).1.calls
        = [ValidatorSetCall.SlashSideChain recentBlockCtx "bsc" (List.replicate 20 7) 2000,
           ValidatorSetCall.AllocateSlashAmtToValidators
             { recentBlockCtx with sideChainScope := [98, 115, 99] } (List.replicate 20 7)
             2000] := by
  refine ⟨by decide, by decide, rfl, ?_, rfl, ?_⟩ <;> decide

/-- C28 (amended): a side-chain packet with a known chain id whose SideTimestamp (a
`uint64`) is later than the side block time in unix seconds (not negative) is rejected
with ExpiredEvidence by both handlers, the keeper unchanged, whenever the threshold of the
code, uint64(MaxEvidenceAge.Seconds()), is at most the block time in unix seconds: the
wrapped age is then above the threshold. -/
theorem C28_future_dated_evidence_is_expired (env : Env) (k : Keeper)
    (ctx sideCtx : Context) (pack : SideSlashPackage) (name : String)
    (hname : k.ScKeeper.GetDestChainName pack.SideChainId = some name)
    (hctx : k.ScKeeper.PrepareCtxForSideChain ctx name = some sideCtx)
    (hunix0 : 0 ≤ unixSeconds sideCtx.BlockTime)
    (hts : pack.SideTimestamp < 18446744073709551616)
    (hfuture : unixSeconds sideCtx.BlockTime < (pack.SideTimestamp : Int))
    (hsmall : (durationSecondsUint64 (k.MaxEvidenceAge sideCtx) : Int)
      ≤ unixSeconds sideCtx.BlockTime) :
    k.slashingSideDowntime env ctx pack
        = (k, some (some (SdkError.ExpiredEvidence env.DefaultCodespace)))
      ∧ k.slashingSideMaliciousVote env ctx pack
        = (k, some (some (SdkError.ExpiredEvidence env.DefaultCodespace))) := by
  have hage : (wrapUint64 ((wrapUint64 (unixSeconds sideCtx.BlockTime) : Int)
      - (pack.SideTimestamp : Int)) : Int)
      = unixSeconds sideCtx.BlockTime - pack.SideTimestamp + 18446744073709551616 := by
    generalize unixSeconds sideCtx.BlockTime = u at hunix0 hfuture
    unfold wrapUint64
    omega
  have hgt : wrapUint64 ((wrapUint64 (unixSeconds sideCtx.BlockTime) : Int)
              - (pack.SideTimestamp : Int))
            > durationSecondsUint64 (k.MaxEvidenceAge sideCtx) := by
    have : (durationSecondsUint64 (k.MaxEvidenceAge sideCtx) : Int)
        < (wrapUint64 ((wrapUint64 (unixSeconds sideCtx.BlockTime) : Int)
              - (pack.SideTimestamp : Int)) : Int) := by
      rw [hage]
      omega
    exact_mod_cast this
  exact ⟨slashingSideDowntime_expired env k ctx sideCtx pack name hname hctx hgt,
    slashingSideMaliciousVote_expired env k ctx sideCtx pack name hname hctx hgt⟩

/-- Instance of C28 (amended): block time 1000 s, side timestamp 2000, MaxEvidenceAge
120 s. -/
theorem C28_future_dated_evidence_is_expired_witness :
    sideKeeper.slashingSideDowntime exampleEnv exampleBlockCtx exampleFuturePackage
        = (sideKeeper, some (some (SdkError.ExpiredEvidence exampleEnv.DefaultCodespace)))
      ∧ sideKeeper.slashingSideMaliciousVote exampleEnv exampleBlockCtx
          exampleFuturePackage
        = (sideKeeper, some (some (SdkError.ExpiredEvidence exampleEnv.DefaultCodespace))) :=
  C28_future_dated_evidence_is_expired exampleEnv sideKeeper exampleBlockCtx exampleSideCtx
    exampleFuturePackage "bsc" rfl rfl (by decide) (by decide) (by decide) (by decide)

end FutureEvidence

section ErrorEffects

/-- C29, counterexample to the claim as stated.  A downtime packet for a validator without
signing info: the handler returns the Internal error after the slash record has been
written and 100 + 900 committed to the fee pool.  A downtime packet when
AllocateSlashAmtToValidators fails: the handler returns FailedToSlash after the fee 100
has been committed. -/
theorem C29_downtime_error_after_writes_counterexample :
    (∃ msg, (noSigningInfoKeeper.slashingSideDowntime exampleEnv exampleBlockCtx
        exampleDowntimePackage).2 = some (some (SdkError.Internal msg)))
      ∧ (noSigningInfoKeeper.slashingSideDowntime exampleEnv exampleBlockCtx
          exampleDowntimePackage).1.slashRecords [98, 115, 99]
        = [{ ConsAddr := List.replicate 20 7, InfractionType := InfractionType.Downtime,
             InfractionHeight := 100, SlashHeight := 500, JailUntil := 1060000000000,
             SlashAmt := 1000, SideChainId := "bsc" }]
      ∧ noSigningInfoKeeper.slashRecords [98, 115, 99] = []
      ∧ (noSigningInfoKeeper.slashingSideDowntime exampleEnv exampleBlockCtx
          exampleDowntimePackage).1.feePool
        = [{ name := "side_downtime_slash", denom := "BNB", amount := 100 },
           { name := "side_downtime_slash_remaining", denom := "BNB", amount := 900 }]
      ∧ (failingAllocationKeeper.slashingSideDowntime exampleEnv exampleBlockCtx
          exampleDowntimePackage).2
        = some (some (SdkError.FailedToSlash 10 "allocation failed"))
      ∧ (failingAllocationKeeper.slashingSideDowntime exampleEnv exampleBlockCtx
          exampleDowntimePackage).1.feePool
        = [{ name := "side_downtime_slash", denom := "BNB", amount := 100 }]
      ∧ failingAllocationKeeper.feePool = [] := by
  refine ⟨⟨_, rfl⟩, ?_, rfl, ?_, rfl, ?_, rfl⟩ <;> decide

/-- The recording step of a downtime slash returns an error only when the signing info is
missing: the error is Internal and the signing-info table is as before. -/
theorem slashingSideDowntimeRecord_error (env : Env) (k : Keeper) (sideCtx : Context)
    (pack : SideSlashPackage) (name : String) (v : Option Validator) (s : Dec) (t : Int)
    (comp : List (String × Int)) (e : SdkError)
    (herr : (slashingSideDowntimeRecord env k sideCtx pack name v s t comp).2
      = some (some e)) :
    (slashingSideDowntimeRecord env k sideCtx pack name v s t comp).1.signingInfo
        = k.signingInfo
      ∧ ∃ msg, e = SdkError.Internal msg := by
  unfold slashingSideDowntimeRecord at herr ⊢
  simp only [] at herr ⊢
  split at herr
  · rename_i h
    simp only [h]
    simp only [Option.some.injEq] at herr
    exact ⟨rfl, _, herr.symm⟩
  · split at herr
    · split at herr
      · simp at herr
      · simp at herr
    · simp at herr

/-- C29 (amended): if `slashingSideDowntime` returns an error then the signing-info table
is unchanged; if the error is not the Internal error (signing info not found) no
SlashRecord was written; and if moreover at most the SlashSideChain call was made (the
error came before AllocateSlashAmtToValidators was called) no fee was committed to the
fee pool. -/
theorem C29_downtime_error_effects (env : Env) (k : Keeper) (ctx : Context)
    (pack : SideSlashPackage) (e : SdkError)
    (herr : (k.slashingSideDowntime env ctx pack).2 = some (some e)) :
    (k.slashingSideDowntime env ctx pack).1.signingInfo = k.signingInfo
      ∧ ((∀ msg, e ≠ SdkError.Internal msg) →
          (k.slashingSideDowntime env ctx pack).1.slashRecords = k.slashRecords
          ∧ ((k.slashingSideDowntime env ctx pack).1.calls.length ≤ k.calls.length + 1 →
              (k.slashingSideDowntime env ctx pack).1.feePool = k.feePool)) := by
  revert herr
  unfold slashingSideDowntime
  simp only []
  repeat' split
  all_goals intro herr
  all_goals first
    | (have hrec := slashingSideDowntimeRecord_error _ _ _ _ _ _ _ _ _ _ herr
       obtain ⟨h1, msg, h2⟩ := hrec
       refine ⟨?_, fun hne => absurd h2 (hne msg)⟩
       rw [h1]
       try split_ifs
       all_goals rfl)
    | (refine ⟨?_, fun _ => ⟨?_, ?_⟩⟩
       · try split_ifs
         all_goals rfl
       · try split_ifs
         all_goals rfl
       · simp)

/-- Instance of C29 (amended): the downtime packet `exampleDowntimePackage` submitted
again after it was applied is rejected as a duplicate; signing info, slash records and fee
pool are as before. -/
theorem C29_downtime_error_effects_witness :
    (downtimeAppliedKeeper.slashingSideDowntime exampleEnv exampleBlockCtx
        exampleDowntimePackage).1.signingInfo = downtimeAppliedKeeper.signingInfo
      ∧ ((∀ msg, SdkError.DuplicateDowntimeClaim 10 ≠ SdkError.Internal msg) →
          (downtimeAppliedKeeper.slashingSideDowntime exampleEnv exampleBlockCtx
              exampleDowntimePackage).1.slashRecords = downtimeAppliedKeeper.slashRecords
          ∧ ((downtimeAppliedKeeper.slashingSideDowntime exampleEnv exampleBlockCtx
                exampleDowntimePackage).1.calls.length
                ≤ downtimeAppliedKeeper.calls.length + 1 →
              (downtimeAppliedKeeper.slashingSideDowntime exampleEnv exampleBlockCtx
                exampleDowntimePackage).1.feePool = downtimeAppliedKeeper.feePool)) :=
  C29_downtime_error_effects exampleEnv downtimeAppliedKeeper exampleBlockCtx
    exampleDowntimePackage (SdkError.DuplicateDowntimeClaim 10) rfl

end ErrorEffects

end Keeper

section SideChainId

/-- C24: `SideChainIdFromText` returns 56, 97 or 714 when the lower-cased name is "bsc",
"chapel" or "rialto", and the error without an id for every other name; two names with
the same lower-casing (re-casings of each other) get the same result. -/
theorem C24_SideChainIdFromText_by_lowercase (env : Env) (s : String) :
    (env.ToLower s = "bsc" → SideChainIdFromText env s = Except.ok 56)
      ∧ (env.ToLower s = "chapel" → SideChainIdFromText env s = Except.ok 97)
      ∧ (env.ToLower s = "rialto" → SideChainIdFromText env s = Except.ok 714)
      ∧ (env.ToLower s ≠ "bsc" → env.ToLower s ≠ "chapel" → env.ToLower s ≠ "rialto" →
          SideChainIdFromText env s
            = Except.error "Provided sidechain name is not supported.")
      ∧ ∀ s' : String, env.ToLower s' = env.ToLower s →
          SideChainIdFromText env s' = SideChainIdFromText env s := by
  refine ⟨?_, ?_, ?_, ?_, ?_⟩
  · intro h
    simp [SideChainIdFromText, h, SideChainIdBsc]
  · intro h
    simp [SideChainIdFromText, h, SideChainIdChapel]
  · intro h
    simp [SideChainIdFromText, h, SideChainIdRialto]
  · intro h1 h2 h3
    simp [SideChainIdFromText, h1, h2, h3]
  · intro s' h
    simp only [SideChainIdFromText, h]

/-- Instance of C24 with the lower-casing of the letters `A` to `Z`: "BSC", "Chapel" and
"rIaLtO" are known, "bnb" is not, and "BsC" gets the result of "bsc". -/
theorem C24_SideChainIdFromText_by_lowercase_witness :
    SideChainIdFromText exampleEnv "BSC" = Except.ok 56
      ∧ SideChainIdFromText exampleEnv "Chapel" = Except.ok 97
      ∧ SideChainIdFromText exampleEnv "rIaLtO" = Except.ok 714
      ∧ SideChainIdFromText exampleEnv "bnb"
          = Except.error "Provided sidechain name is not supported."
      ∧ SideChainIdFromText exampleEnv "BsC" = SideChainIdFromText exampleEnv "bsc" :=
  ⟨(C24_SideChainIdFromText_by_lowercase exampleEnv "BSC").1 (by decide),
    (C24_SideChainIdFromText_by_lowercase exampleEnv "Chapel").2.1 (by decide),
    (C24_SideChainIdFromText_by_lowercase exampleEnv "rIaLtO").2.2.1 (by decide),
    (C24_SideChainIdFromText_by_lowercase exampleEnv "bnb").2.2.2.1 (by decide) (by decide)
      (by decide),
    (C24_SideChainIdFromText_by_lowercase exampleEnv "bsc").2.2.2.2 "BsC" (by decide)⟩

end SideChainId

namespace Stake

section ByteOrder

theorem cons_lt_cons_iff (a b : Nat) (l₁ l₂ : Bytes) :
    a :: l₁ < b :: l₂ ↔ a < b ∨ (a = b ∧ l₁ < l₂) := by
  constructor
  · intro h
    cases h with
    | cons h3 => exact Or.inr ⟨rfl, h3⟩
    | rel hab => exact Or.inl hab
  · intro h
    rcases h with h | ⟨rfl, h⟩
    · exact List.Lex.rel h
    · exact List.Lex.cons h

theorem bytes_lt_irrefl (l : Bytes) : ¬ l < l := by
  induction l with
  | nil => intro h; cases h
  | cons a l ih =>
    rw [cons_lt_cons_iff]
    rintro (h | ⟨_, h⟩)
    · exact lt_irrefl a h
    · exact ih h

/-- Lexicographic order of two concatenations whose first parts have the same length. -/
theorem append_lt_append_iff (a a' x x' : Bytes) (hlen : a.length = a'.length) :
    a ++ x < a' ++ x' ↔ a < a' ∨ (a = a' ∧ x < x') := by
  induction a generalizing a' with
  | nil =>
    cases a' with
    | nil =>
      simp only [List.nil_append, true_and]
      constructor
      · intro h
        exact Or.inr h
      · rintro (h | h)
        · exact absurd h (bytes_lt_irrefl [])
        · exact h
    | cons b l => simp at hlen
  | cons c l ih =>
    cases a' with
    | nil => simp at hlen
    | cons b l' =>
      have hl : l.length = l'.length := by simpa using hlen
      simp only [List.cons_append, cons_lt_cons_iff, ih l' hl, List.cons.injEq]
      tauto

theorem beValue_lt (l : Bytes) (h : ∀ b ∈ l, b < 256) : beValue l < 256 ^ l.length := by
  induction l with
  | nil => simp [beValue]
  | cons a l ih =>
    have ha : a < 256 := h a (List.mem_cons_self a l)
    have hl := ih (fun b hb => h b (List.mem_cons_of_mem a hb))
    simp only [beValue, List.length_cons, pow_succ]
    nlinarith

/-- Byte strings of equal length compare as the numbers they denote. -/
theorem lt_iff_beValue_lt (l₁ l₂ : Bytes) (hlen : l₁.length = l₂.length)
    (h₁ : ∀ b ∈ l₁, b < 256) (h₂ : ∀ b ∈ l₂, b < 256) :
    l₁ < l₂ ↔ beValue l₁ < beValue l₂ := by
  induction l₁ generalizing l₂ with
  | nil =>
    cases l₂ with
    | nil =>
      simp only [beValue, lt_irrefl]
    | cons b l => simp at hlen
  | cons a l ih =>
    cases l₂ with
    | nil => simp at hlen
    | cons b l' =>
      have hl : l.length = l'.length := by simpa using hlen
      have ha : a < 256 := h₁ a (List.mem_cons_self a l)
      have hb : b < 256 := h₂ b (List.mem_cons_self b l')
      have h₁' : ∀ c ∈ l, c < 256 := fun c hc => h₁ c (List.mem_cons_of_mem a hc)
      have h₂' : ∀ c ∈ l', c < 256 := fun c hc => h₂ c (List.mem_cons_of_mem b hc)
      have v1 := beValue_lt l h₁'
      have v2 := beValue_lt l' h₂'
      rw [cons_lt_cons_iff, ih l' hl h₁' h₂']
      simp only [beValue]
      rw [hl] at v1 ⊢
      generalize 256 ^ l'.length = M at v1 v2 ⊢
      constructor
      · rintro (h | ⟨rfl, h⟩)
        · have : (a + 1) * M ≤ b * M := Nat.mul_le_mul_right M h
          nlinarith
        · omega
      · intro h
        rcases Nat.lt_trichotomy a b with hab | hab | hab
        · exact Or.inl hab
        · subst hab
          exact Or.inr ⟨rfl, by omega⟩
        · exfalso
          have : (b + 1) * M ≤ a * M := Nat.mul_le_mul_right M hab
          nlinarith

/-- Byte strings of equal length are equal when they denote the same number. -/
theorem eq_of_beValue_eq (l₁ l₂ : Bytes) (hlen : l₁.length = l₂.length)
    (h₁ : ∀ b ∈ l₁, b < 256) (h₂ : ∀ b ∈ l₂, b < 256)
    (h : beValue l₁ = beValue l₂) : l₁ = l₂ := by
  induction l₁ generalizing l₂ with
  | nil =>
    cases l₂ with
    | nil => rfl
    | cons b l => simp at hlen
  | cons a l ih =>
    cases l₂ with
    | nil => simp at hlen
    | cons b l' =>
      have hl : l.length = l'.length := by simpa using hlen
      have h₁' : ∀ c ∈ l, c < 256 := fun c hc => h₁ c (List.mem_cons_of_mem a hc)
      have h₂' : ∀ c ∈ l', c < 256 := fun c hc => h₂ c (List.mem_cons_of_mem b hc)
      have v1 := beValue_lt l h₁'
      have v2 := beValue_lt l' h₂'
      simp only [beValue] at h
      rw [hl] at v1 h
      generalize 256 ^ l'.length = M at v1 v2 h
      have hab : a = b := by
        rcases Nat.lt_trichotomy a b with hab | hab | hab
        · have : (a + 1) * M ≤ b * M := Nat.mul_le_mul_right M hab
          nlinarith
        · exact hab
        · have : (b + 1) * M ≤ a * M := Nat.mul_le_mul_right M hab
          nlinarith
      subst hab
      rw [ih l' hl h₁' h₂' (by omega)]

theorem bigEndianUint64_bytes (v : Nat) : ∀ b ∈ bigEndianUint64 v, b < 256 := by
  intro b hb
  simp only [bigEndianUint64, List.mem_cons, List.mem_singleton, List.not_mem_nil,
    or_false] at hb
  omega

theorem beValue_bigEndianUint64 (v : Nat) (hv : v < 18446744073709551616) :
    beValue (bigEndianUint64 v) = v := by
  simp only [bigEndianUint64, beValue, List.length_cons, List.length_nil]
  omega

theorem bigEndianUint16_bytes (v : Nat) : ∀ b ∈ bigEndianUint16 v, b < 256 := by
  intro b hb
  simp only [bigEndianUint16, List.mem_cons, List.mem_singleton, List.not_mem_nil,
    or_false] at hb
  omega

theorem beValue_bigEndianUint16 (v : Nat) (hv : v < 65536) :
    beValue (bigEndianUint16 v) = v := by
  simp only [bigEndianUint16, beValue, List.length_cons, List.length_nil]
  omega

theorem bigEndianUint64_lt_iff (a b : Nat) (ha : a < 18446744073709551616)
    (hb : b < 18446744073709551616) :
    bigEndianUint64 a < bigEndianUint64 b ↔ a < b := by
  rw [lt_iff_beValue_lt (bigEndianUint64 a) (bigEndianUint64 b) rfl
      (bigEndianUint64_bytes a) (bigEndianUint64_bytes b),
    beValue_bigEndianUint64 a ha, beValue_bigEndianUint64 b hb]

theorem bigEndianUint64_eq_iff (a b : Nat) (ha : a < 18446744073709551616)
    (hb : b < 18446744073709551616) :
    bigEndianUint64 a = bigEndianUint64 b ↔ a = b := by
  constructor
  · intro h
    have := congrArg beValue h
    rwa [beValue_bigEndianUint64 a ha, beValue_bigEndianUint64 b hb] at this
  · intro h
    rw [h]

theorem bigEndianUint16_lt_iff (a b : Nat) (ha : a < 65536) (hb : b < 65536) :
    bigEndianUint16 a < bigEndianUint16 b ↔ a < b := by
  rw [lt_iff_beValue_lt (bigEndianUint16 a) (bigEndianUint16 b) rfl
      (bigEndianUint16_bytes a) (bigEndianUint16_bytes b),
    beValue_bigEndianUint16 a ha, beValue_bigEndianUint16 b hb]

theorem bigEndianUint16_eq_iff (a b : Nat) (ha : a < 65536) (hb : b < 65536) :
    bigEndianUint16 a = bigEndianUint16 b ↔ a = b := by
  constructor
  · intro h
    have := congrArg beValue h
    rwa [beValue_bigEndianUint16 a ha, beValue_bigEndianUint16 b hb] at this
  · intro h
    rw [h]

/-- Complementing every byte reverses the order of byte strings of equal length. -/
theorem map_complementByte_lt_iff (x y : Bytes) (hlen : x.length = y.length)
    (hx : ∀ b ∈ x, b < 256) (hy : ∀ b ∈ y, b < 256) :
    x.map complementByte < y.map complementByte ↔ y < x := by
  induction x generalizing y with
  | nil =>
    cases y with
    | nil => simp
    | cons b l => simp at hlen
  | cons a l ih =>
    cases y with
    | nil => simp at hlen
    | cons b l' =>
      have hl : l.length = l'.length := by simpa using hlen
      have ha : a < 256 := hx a (List.mem_cons_self a l)
      have hb : b < 256 := hy b (List.mem_cons_self b l')
      have hx' : ∀ c ∈ l, c < 256 := fun c hc => hx c (List.mem_cons_of_mem a hc)
      have hy' : ∀ c ∈ l', c < 256 := fun c hc => hy c (List.mem_cons_of_mem b hc)
      simp only [List.map_cons, cons_lt_cons_iff, ih l' hl hx' hy', complementByte]
      constructor
      · rintro (h | ⟨h1, h⟩)
        · exact Or.inl (by omega)
        · exact Or.inr ⟨by omega, h⟩
      · rintro (h | ⟨h1, h⟩)
        · exact Or.inl (by omega)
        · exact Or.inr ⟨by omega, h⟩

/-- Complementing every byte is injective on byte strings. -/
theorem map_complementByte_injective (x y : Bytes)
    (hx : ∀ b ∈ x, b < 256) (hy : ∀ b ∈ y, b < 256)
    (h : x.map complementByte = y.map complementByte) : x = y := by
  induction x generalizing y with
  | nil =>
    cases y with
    | nil => rfl
    | cons b l => simp at h
  | cons a l ih =>
    cases y with
    | nil => simp at h
    | cons b l' =>
      have ha : a < 256 := hx a (List.mem_cons_self a l)
      have hb : b < 256 := hy b (List.mem_cons_self b l')
      have hx' : ∀ c ∈ l, c < 256 := fun c hc => hx c (List.mem_cons_of_mem a hc)
      have hy' : ∀ c ∈ l', c < 256 := fun c hc => hy c (List.mem_cons_of_mem b hc)
      simp only [List.map_cons, List.cons.injEq, complementByte] at h
      rw [ih l' hx' hy' h.2]
      have : a = b := by omega
      rw [this]

end ByteOrder

section KeyLayout

/-- Copying a source into the window of a key that it fills exactly replaces the
window. -/
theorem copyInto_exact (pre mid post src : Bytes) (lo hi : Nat) (hlo : pre.length = lo)
    (hmid : mid.length = src.length) (hhi : hi = lo + src.length) :
    copyInto (pre ++ mid ++ post) lo hi src = pre ++ src ++ post := by
  subst hlo hhi
  unfold copyInto
  have h1 : pre.length + src.length - pre.length = src.length := by omega
  have h2 : List.take pre.length (pre ++ mid ++ post) = pre := by
    rw [List.append_assoc, List.take_left]
  have h3 : List.drop (pre.length + src.length) (pre ++ mid ++ post) = post := by
    rw [← hmid, ← List.length_append, List.drop_left]
  rw [h1, Nat.min_self, List.take_length, h2, h3]

/-- Three windows: a key made of zero bytes filled by three sources that fit. -/
theorem copyInto_three (a b c : Bytes) (n : Nat) (hn : n = a.length + b.length + c.length) :
    copyInto (copyInto (copyInto (makeBytes n) 0 a.length a) a.length
        (a.length + b.length) b) (a.length + b.length) (a.length + b.length + c.length) c
      = a ++ b ++ c := by
  subst hn
  unfold makeBytes
  rw [List.replicate_add, List.replicate_add]
  have h1 := copyInto_exact [] (List.replicate a.length 0)
    (List.replicate b.length 0 ++ List.replicate c.length 0) a 0 a.length rfl
    (by simp) (by simp)
  simp only [List.nil_append] at h1
  rw [List.append_assoc, h1]
  have h2 := copyInto_exact a (List.replicate b.length 0) (List.replicate c.length 0) b
    a.length (a.length + b.length) rfl (by simp) rfl
  rw [← List.append_assoc, h2]
  have h3 := copyInto_exact (a ++ b) (List.replicate c.length 0) [] c
    (a.length + b.length) (a.length + b.length + c.length) (by simp) (by simp) rfl
  simp only [List.append_nil] at h3
  exact h3

theorem GetREDKey_layout (AddrLen : Nat) (del src dst : Bytes)
    (hdel : del.length = AddrLen) (hsrc : src.length = AddrLen)
    (hdst : dst.length = AddrLen) :
    GetREDKey AddrLen del src dst = RedelegationKey ++ del ++ src ++ dst := by
  have h := copyInto_three (RedelegationKey ++ del) src dst (1 + AddrLen * 3)
    (by simp [RedelegationKey, hdel, hsrc, hdst]; omega)
  have e1 : (RedelegationKey ++ del).length = AddrLen + 1 := by
    simp [RedelegationKey, hdel]
  rw [e1, hsrc, hdst] at h
  have e2 : AddrLen + 1 + AddrLen = 2 * AddrLen + 1 := by omega
  have e3 : 2 * AddrLen + 1 + AddrLen = 3 * AddrLen + 1 := by omega
  rw [e2, e3] at h
  exact h

theorem GetREDByValSrcIndexKey_layout (AddrLen : Nat) (del src dst : Bytes)
    (hdel : del.length = AddrLen) (hdst : dst.length = AddrLen) :
    GetREDByValSrcIndexKey AddrLen del src dst
      = RedelegationByValSrcIndexKey ++ src ++ del ++ dst := by
  have h := copyInto_three (RedelegationByValSrcIndexKey ++ src) del dst
    ((RedelegationByValSrcIndexKey ++ src).length + 2 * AddrLen)
    (by rw [hdel, hdst]; omega)
  rw [hdel, hdst] at h
  have e : (RedelegationByValSrcIndexKey ++ src).length + AddrLen + AddrLen
      = (RedelegationByValSrcIndexKey ++ src).length + 2 * AddrLen := by omega
  rw [e] at h
  exact h

theorem GetREDByValDstIndexKey_layout (AddrLen : Nat) (del src dst : Bytes)
    (hdel : del.length = AddrLen) (hsrc : src.length = AddrLen) :
    GetREDByValDstIndexKey AddrLen del src dst
      = RedelegationByValDstIndexKey ++ dst ++ del ++ src := by
  have h := copyInto_three (RedelegationByValDstIndexKey ++ dst) del src
    ((RedelegationByValDstIndexKey ++ dst).length + 2 * AddrLen)
    (by rw [hdel, hsrc]; omega)
  rw [hdel, hsrc] at h
  have e : (RedelegationByValDstIndexKey ++ dst).length + AddrLen + AddrLen
      = (RedelegationByValDstIndexKey ++ dst).length + 2 * AddrLen := by omega
  rw [e] at h
  exact h

/-- The slice of a key made of four parts that covers exactly the second part, the third
part, the fourth part. -/
theorem sliceBytes_parts (p a b c : Bytes) :
    sliceBytes (p ++ a ++ b ++ c) p.length (p.length + a.length) = a
      ∧ sliceBytes (p ++ a ++ b ++ c) (p.length + a.length)
          (p.length + a.length + b.length) = b
      ∧ sliceBytes (p ++ a ++ b ++ c) (p.length + a.length + b.length)
          (p.length + a.length + b.length + c.length) = c := by
  unfold sliceBytes
  refine ⟨?_, ?_, ?_⟩
  · have h : List.take (p.length + a.length) (p ++ a ++ b ++ c) = p ++ a := by
      rw [← List.length_append, List.append_assoc (p ++ a), List.take_left]
    rw [h, List.drop_left]
  · have h : List.take (p.length + a.length + b.length) (p ++ a ++ b ++ c) = p ++ a ++ b := by
      rw [← List.length_append, ← List.length_append, List.take_left]
    rw [h, ← List.length_append, List.drop_left]
  · have h : List.take (p.length + a.length + b.length + c.length) (p ++ a ++ b ++ c)
        = p ++ a ++ b ++ c := by
      rw [← List.length_append, ← List.length_append, ← List.length_append, List.take_length]
    rw [h, ← List.length_append, ← List.length_append, List.drop_left]

theorem GetUBDKeyFromValIndexKey_index (AddrLen : Nat) (del val : Bytes)
    (hdel : del.length = AddrLen) (hval : val.length = AddrLen) :
    GetUBDKeyFromValIndexKey AddrLen (GetUBDByValIndexKey del val)
      = some (GetUBDKey del val) := by
  unfold GetUBDKeyFromValIndexKey GetUBDByValIndexKey GetUBDsByValIndexKey
    UnbondingDelegationByValIndexKey
  have hlen : ¬ ([0x33] ++ val ++ del).length < 1 := by simp
  have hdrop : List.drop 1 ([0x33] ++ val ++ del) = val ++ del := by simp
  have hlen2 : ¬ (val ++ del).length ≠ 2 * AddrLen := by
    simp only [List.length_append, hval, hdel]
    omega
  simp only [if_neg hlen, hdrop, if_neg hlen2]
  have h1 : sliceBytes (val ++ del) 0 AddrLen = val := by
    unfold sliceBytes
    rw [← hval, List.take_left]
    rfl
  have h2 : sliceBytes (val ++ del) AddrLen (val ++ del).length = del := by
    unfold sliceBytes
    rw [List.take_length, ← hval, List.drop_left]
  rw [h1, h2]

theorem GetREDKeyFromValSrcIndexKey_index (AddrLen : Nat) (del src dst : Bytes)
    (hdel : del.length = AddrLen) (hsrc : src.length = AddrLen)
    (hdst : dst.length = AddrLen) :
    GetREDKeyFromValSrcIndexKey AddrLen (GetREDByValSrcIndexKey AddrLen del src dst)
      = some (GetREDKey AddrLen del src dst) := by
  rw [GetREDByValSrcIndexKey_layout AddrLen del src dst hdel hdst]
  unfold GetREDKeyFromValSrcIndexKey
  have hlen : ¬ (RedelegationByValSrcIndexKey ++ src ++ del ++ dst).length
      ≠ 3 * AddrLen + 1 := by
    simp only [List.length_append, hsrc, hdel, hdst, RedelegationByValSrcIndexKey,
      List.length_singleton]
    omega
  have hp := sliceBytes_parts RedelegationByValSrcIndexKey src del dst
  have e0 : RedelegationByValSrcIndexKey.length = 1 := rfl
  rw [e0, hsrc, hdel, hdst] at hp
  have e1 : 1 + AddrLen = AddrLen + 1 := by omega
  have e2 : AddrLen + 1 + AddrLen = 2 * AddrLen + 1 := by omega
  have e3 : 2 * AddrLen + 1 + AddrLen = 3 * AddrLen + 1 := by omega
  rw [e1, e2, e3] at hp
  simp only [if_neg hlen, hp.1, hp.2.1, hp.2.2]

theorem GetREDKeyFromValDstIndexKey_index (AddrLen : Nat) (del src dst : Bytes)
    (hdel : del.length = AddrLen) (hsrc : src.length = AddrLen)
    (hdst : dst.length = AddrLen) :
    GetREDKeyFromValDstIndexKey AddrLen (GetREDByValDstIndexKey AddrLen del src dst)
      = some (GetREDKey AddrLen del src dst) := by
  rw [GetREDByValDstIndexKey_layout AddrLen del src dst hdel hsrc]
  unfold GetREDKeyFromValDstIndexKey
  have hlen : ¬ (RedelegationByValDstIndexKey ++ dst ++ del ++ src).length
      ≠ 3 * AddrLen + 1 := by
    simp only [List.length_append, hsrc, hdel, hdst, RedelegationByValDstIndexKey,
      List.length_singleton]
    omega
  have hp := sliceBytes_parts RedelegationByValDstIndexKey dst del src
  have e0 : RedelegationByValDstIndexKey.length = 1 := rfl
  rw [e0, hsrc, hdel, hdst] at hp
  have e1 : 1 + AddrLen = AddrLen + 1 := by omega
  have e2 : AddrLen + 1 + AddrLen = 2 * AddrLen + 1 := by omega
  have e3 : 2 * AddrLen + 1 + AddrLen = 3 * AddrLen + 1 := by omega
  rw [e1, e2, e3] at hp
  simp only [if_neg hlen, hp.1, hp.2.1, hp.2.2]

/-- C25: for delegator and validator addresses of `AddrLen` bytes, rearranging an index
key gives back the primary key, and none of the three rearrangements panics:
`GetUBDKeyFromValIndexKey`, `GetREDKeyFromValSrcIndexKey` and
`GetREDKeyFromValDstIndexKey` return the key of `GetUBDKey`, `GetREDKey`, `GetREDKey`. -/
theorem C25_index_keys_rearrange_to_primary_keys (AddrLen : Nat)
    (del val src dst : Bytes)
    (hdel : del.length = AddrLen) (hval : val.length = AddrLen)
    (hsrc : src.length = AddrLen) (hdst : dst.length = AddrLen) :
    GetUBDKeyFromValIndexKey AddrLen (GetUBDByValIndexKey del val)
        = some (GetUBDKey del val)
      ∧ GetREDKeyFromValSrcIndexKey AddrLen (GetREDByValSrcIndexKey AddrLen del src dst)
        = some (GetREDKey AddrLen del src dst)
      ∧ GetREDKeyFromValDstIndexKey AddrLen (GetREDByValDstIndexKey AddrLen del src dst)
        = some (GetREDKey AddrLen del src dst) :=
  ⟨GetUBDKeyFromValIndexKey_index AddrLen del val hdel hval,
    GetREDKeyFromValSrcIndexKey_index AddrLen del src dst hdel hsrc hdst,
    GetREDKeyFromValDstIndexKey_index AddrLen del src dst hdel hsrc hdst⟩

/-- Instance of C25 with 20-byte addresses. -/
theorem C25_index_keys_rearrange_to_primary_keys_witness :
    GetUBDKeyFromValIndexKey 20
        (GetUBDByValIndexKey (List.replicate 20 1) (List.replicate 20 2))
        = some (GetUBDKey (List.replicate 20 1) (List.replicate 20 2))
      ∧ GetREDKeyFromValSrcIndexKey 20 (GetREDByValSrcIndexKey 20 (List.replicate 20 1)
          (List.replicate 20 3) (List.replicate 20 4))
        = some (GetREDKey 20 (List.replicate 20 1) (List.replicate 20 3)
            (List.replicate 20 4))
      ∧ GetREDKeyFromValDstIndexKey 20 (GetREDByValDstIndexKey 20 (List.replicate 20 1)
          (List.replicate 20 3) (List.replicate 20 4))
        = some (GetREDKey 20 (List.replicate 20 1) (List.replicate 20 3)
            (List.replicate 20 4)) :=
  C25_index_keys_rearrange_to_primary_keys 20 (List.replicate 20 1) (List.replicate 20 2)
    (List.replicate 20 3) (List.replicate 20 4) rfl rfl rfl rfl

/-- The key of `getValidatorPowerRank`: prefix, power, inverted bond height, inverted
intra-tx counter. -/
theorem getValidatorPowerRank_layout (v : Validator) :
    getValidatorPowerRank v
      = ValidatorsByPowerIndexKey ++ bigEndianUint64 (wrapUint64 v.Tokens)
        ++ bigEndianUint64 (complementUint64 (wrapUint64 v.BondHeight))
        ++ bigEndianUint16 (complementUint16 (wrapUint16 v.BondIntraTxCounter)) := by
  unfold getValidatorPowerRank
  simp only []
  generalize hP : bigEndianUint64 (wrapUint64 v.Tokens) = P
  generalize hH : bigEndianUint64 (complementUint64 (wrapUint64 v.BondHeight)) = H
  generalize hC :
    bigEndianUint16 (complementUint16 (wrapUint16 v.BondIntraTxCounter)) = C
  have lP : P.length = 8 := by rw [← hP]; rfl
  have lH : H.length = 8 := by rw [← hH]; rfl
  have lC : C.length = 2 := by rw [← hC]; rfl
  have h0 : copyInto (makeBytes 8) 0 8 P = P := by
    have := copyInto_exact [] (makeBytes 8) [] P 0 8 rfl (by simp [makeBytes, lP])
      (by omega)
    simpa using this
  have hk : (makeBytes (1 + 8 + 8 + 2)).set 0 (ValidatorsByPowerIndexKey.getD 0 0)
      = ValidatorsByPowerIndexKey ++ List.replicate 8 0
        ++ (List.replicate 8 0 ++ List.replicate 2 0) := by
    decide
  simp only [h0, lP, hk]
  have h1 := copyInto_exact ValidatorsByPowerIndexKey (List.replicate 8 0)
    (List.replicate 8 0 ++ List.replicate 2 0) P 1 (8 + 1) rfl (by simp [lP]) (by omega)
  rw [h1]
  have h2 := copyInto_exact (ValidatorsByPowerIndexKey ++ P) (List.replicate 8 0)
    (List.replicate 2 0) H (8 + 1) (8 + 9)
    (by simp [ValidatorsByPowerIndexKey, lP]) (by simp [lH]) (by omega)
  rw [← List.append_assoc, h2]
  have h3 := copyInto_exact (ValidatorsByPowerIndexKey ++ P ++ H) (List.replicate 2 0)
    [] C (8 + 9) (8 + 11)
    (by simp [ValidatorsByPowerIndexKey, lP, lH]) (by simp [lC]) (by omega)
  simp only [List.append_nil] at h3
  exact h3

/-- C26: for validators whose Tokens and BondHeight are non-negative `int64` values and
whose BondIntraTxCounter is a non-negative `int16` value, the keys of
`getValidatorPowerRank` are ordered lexicographically as (Tokens ascending, BondHeight
descending, BondIntraTxCounter descending). -/
theorem C26_power_rank_key_order (v₁ v₂ : Validator)
    (ht₁ : 0 ≤ v₁.Tokens ∧ v₁.Tokens ≤ MaxInt64)
    (ht₂ : 0 ≤ v₂.Tokens ∧ v₂.Tokens ≤ MaxInt64)
    (hh₁ : 0 ≤ v₁.BondHeight ∧ v₁.BondHeight ≤ MaxInt64)
    (hh₂ : 0 ≤ v₂.BondHeight ∧ v₂.BondHeight ≤ MaxInt64)
    (hc₁ : 0 ≤ v₁.BondIntraTxCounter ∧ v₁.BondIntraTxCounter ≤ 32767)
    (hc₂ : 0 ≤ v₂.BondIntraTxCounter ∧ v₂.BondIntraTxCounter ≤ 32767) :
    getValidatorPowerRank v₁ < getValidatorPowerRank v₂
      ↔ v₁.Tokens < v₂.Tokens
        ∨ (v₁.Tokens = v₂.Tokens ∧ v₂.BondHeight < v₁.BondHeight)
        ∨ (v₁.Tokens = v₂.Tokens ∧ v₁.BondHeight = v₂.BondHeight
            ∧ v₂.BondIntraTxCounter < v₁.BondIntraTxCounter) := by
  unfold MaxInt64 at ht₁ ht₂ hh₁ hh₂
  have et₁ : (wrapUint64 v₁.Tokens : Int) = v₁.Tokens := by unfold wrapUint64; omega
  have et₂ : (wrapUint64 v₂.Tokens : Int) = v₂.Tokens := by unfold wrapUint64; omega
  have eh₁ : (wrapUint64 v₁.BondHeight : Int) = v₁.BondHeight := by
    unfold wrapUint64; omega
  have eh₂ : (wrapUint64 v₂.BondHeight : Int) = v₂.BondHeight := by
    unfold wrapUint64; omega
  have ec₁ : (wrapUint16 v₁.BondIntraTxCounter : Int) = v₁.BondIntraTxCounter := by
    unfold wrapUint16; omega
  have ec₂ : (wrapUint16 v₂.BondIntraTxCounter : Int) = v₂.BondIntraTxCounter := by
    unfold wrapUint16; omega
  rw [getValidatorPowerRank_layout, getValidatorPowerRank_layout]
  generalize wrapUint64 v₁.Tokens = t₁ at et₁
  generalize wrapUint64 v₂.Tokens = t₂ at et₂
  generalize wrapUint64 v₁.BondHeight = b₁ at eh₁
  generalize wrapUint64 v₂.BondHeight = b₂ at eh₂
  generalize wrapUint16 v₁.BondIntraTxCounter = c₁ at ec₁
  generalize wrapUint16 v₂.BondIntraTxCounter = c₂ at ec₂
  rw [append_lt_append_iff
      (ValidatorsByPowerIndexKey ++ bigEndianUint64 t₁
        ++ bigEndianUint64 (complementUint64 b₁))
      (ValidatorsByPowerIndexKey ++ bigEndianUint64 t₂
        ++ bigEndianUint64 (complementUint64 b₂)) _ _ rfl,
    append_lt_append_iff (ValidatorsByPowerIndexKey ++ bigEndianUint64 t₁)
      (ValidatorsByPowerIndexKey ++ bigEndianUint64 t₂) _ _ rfl,
    append_lt_append_iff ValidatorsByPowerIndexKey ValidatorsByPowerIndexKey _ _ rfl]
  have hp : ¬ ValidatorsByPowerIndexKey < ValidatorsByPowerIndexKey :=
    bytes_lt_irrefl _
  have hT := bigEndianUint64_lt_iff t₁ t₂ (by omega) (by omega)
  have hTe := bigEndianUint64_eq_iff t₁ t₂ (by omega) (by omega)
  have hH := bigEndianUint64_lt_iff (complementUint64 b₁) (complementUint64 b₂)
    (by unfold complementUint64; omega) (by unfold complementUint64; omega)
  have hHe := bigEndianUint64_eq_iff (complementUint64 b₁) (complementUint64 b₂)
    (by unfold complementUint64; omega) (by unfold complementUint64; omega)
  have hC := bigEndianUint16_lt_iff (complementUint16 c₁) (complementUint16 c₂)
    (by unfold complementUint16; omega) (by unfold complementUint16; omega)
  have e1 : ValidatorsByPowerIndexKey ++ bigEndianUint64 t₁
      = ValidatorsByPowerIndexKey ++ bigEndianUint64 t₂ ↔ t₁ = t₂ := by
    rw [List.append_right_inj, hTe]
  have e2 : ValidatorsByPowerIndexKey ++ bigEndianUint64 t₁
        ++ bigEndianUint64 (complementUint64 b₁)
      = ValidatorsByPowerIndexKey ++ bigEndianUint64 t₂
        ++ bigEndianUint64 (complementUint64 b₂) ↔ t₁ = t₂ ∧ b₁ = b₂ := by
    constructor
    · intro h
      have h' := List.append_inj h rfl
      refine ⟨e1.mp h'.1, ?_⟩
      have := hHe.mp h'.2
      unfold complementUint64 at this
      omega
    · rintro ⟨rfl, rfl⟩
      rfl
  rw [e2, e1, hT, hH, hC]
  unfold complementUint64 complementUint16
  constructor
  · rintro ((((h | ⟨_, h⟩) | ⟨h1, h⟩) | ⟨⟨h1, h2⟩, h⟩))
    · exact absurd h hp
    · left
      omega
    · right
      left
      omega
    · right
      right
      omega
  · rintro (h | ⟨h1, h⟩ | ⟨h1, h2, h⟩)
    · left
      left
      right
      exact ⟨rfl, by omega⟩
    · left
      right
      exact ⟨by omega, by omega⟩
    · right
      exact ⟨⟨by omega, by omega⟩, by omega⟩

/-- Instance of C26: at equal power 1000 the validator bonded at height 3 ranks above the
one bonded at height 5. -/
theorem C26_power_rank_key_order_witness :
    getValidatorPowerRank
        { OperatorAddr := List.replicate 20 1, Tokens := 1000, BondHeight := 5,
          BondIntraTxCounter := 2 }
      < getValidatorPowerRank
        { OperatorAddr := List.replicate 20 2, Tokens := 1000, BondHeight := 3,
          BondIntraTxCounter := 7 } :=
  (C26_power_rank_key_order
    { OperatorAddr := List.replicate 20 1, Tokens := 1000, BondHeight := 5,
      BondIntraTxCounter := 2 }
    { OperatorAddr := List.replicate 20 2, Tokens := 1000, BondHeight := 3,
      BondIntraTxCounter := 7 }
    (by decide) (by decide) (by decide) (by decide) (by decide) (by decide)).mpr
    (Or.inr (Or.inl ⟨rfl, by decide⟩))

/-- The key of `getValidatorPowerRankNew` for an operator address of `AddrLen` bytes:
prefix, power, inverted address. -/
theorem getValidatorPowerRankNew_layout (AddrLen : Nat) (v : Validator)
    (ha : v.OperatorAddr.length = AddrLen) :
    getValidatorPowerRankNew AddrLen v
      = ValidatorsByPowerIndexKey ++ bigEndianUint64 (wrapUint64 v.Tokens)
        ++ v.OperatorAddr.map complementByte := by
  unfold getValidatorPowerRankNew
  simp only []
  generalize hP : bigEndianUint64 (wrapUint64 v.Tokens) = P
  have lP : P.length = 8 := by rw [← hP]; rfl
  have h0 : copyInto (makeBytes v.OperatorAddr.length) 0
      (makeBytes v.OperatorAddr.length).length v.OperatorAddr = v.OperatorAddr := by
    have := copyInto_exact [] (makeBytes v.OperatorAddr.length) [] v.OperatorAddr 0
      (makeBytes v.OperatorAddr.length).length rfl (by simp [makeBytes])
      (by simp [makeBytes])
    simpa using this
  rw [h0]
  have h3 := copyInto_three ValidatorsByPowerIndexKey P (v.OperatorAddr.map complementByte)
    (ValidatorsByPowerIndexKey.length + 8 + AddrLen) (by simp [lP, ha])
  have hlen : (copyInto (copyInto (makeBytes (ValidatorsByPowerIndexKey.length + 8 + AddrLen))
      0 ValidatorsByPowerIndexKey.length ValidatorsByPowerIndexKey)
      ValidatorsByPowerIndexKey.length (ValidatorsByPowerIndexKey.length + 8) P).length
      = ValidatorsByPowerIndexKey.length + P.length
        + (v.OperatorAddr.map complementByte).length := by
    simp [copyInto, makeBytes, lP, ha, ValidatorsByPowerIndexKey]
    omega
  rw [hlen]
  rw [lP] at h3 ⊢
  exact h3

/-- C27: for validators whose Tokens are non-negative `int64` values and whose operator
addresses have `AddrLen` bytes, the keys of `getValidatorPowerRankNew` have length
`1 + 8 + AddrLen`, start with the prefix `ValidatorsByPowerIndexKey`, and are ordered
lexicographically by Tokens ascending, then by operator address descending; validators
with the same key have the same Tokens and the same operator address. -/
theorem C27_power_rank_new_key_order (AddrLen : Nat) (v₁ v₂ : Validator)
    (ht₁ : 0 ≤ v₁.Tokens ∧ v₁.Tokens ≤ MaxInt64)
    (ht₂ : 0 ≤ v₂.Tokens ∧ v₂.Tokens ≤ MaxInt64)
    (ha₁ : v₁.OperatorAddr.length = AddrLen) (ha₂ : v₂.OperatorAddr.length = AddrLen)
    (hb₁ : ∀ b ∈ v₁.OperatorAddr, b < 256) (hb₂ : ∀ b ∈ v₂.OperatorAddr, b < 256) :
    (getValidatorPowerRankNew AddrLen v₁).length = 1 + 8 + AddrLen
      ∧ ValidatorsByPowerIndexKey <+: getValidatorPowerRankNew AddrLen v₁
      ∧ (getValidatorPowerRankNew AddrLen v₁ < getValidatorPowerRankNew AddrLen v₂
          ↔ v₁.Tokens < v₂.Tokens
            ∨ (v₁.Tokens = v₂.Tokens ∧ v₂.OperatorAddr < v₁.OperatorAddr))
      ∧ (getValidatorPowerRankNew AddrLen v₁ = getValidatorPowerRankNew AddrLen v₂
          → v₁.Tokens = v₂.Tokens ∧ v₁.OperatorAddr = v₂.OperatorAddr) := by
  unfold MaxInt64 at ht₁ ht₂
  have et₁ : (wrapUint64 v₁.Tokens : Int) = v₁.Tokens := by unfold wrapUint64; omega
  have et₂ : (wrapUint64 v₂.Tokens : Int) = v₂.Tokens := by unfold wrapUint64; omega
  rw [getValidatorPowerRankNew_layout AddrLen v₁ ha₁,
    getValidatorPowerRankNew_layout AddrLen v₂ ha₂]
  generalize wrapUint64 v₁.Tokens = t₁ at et₁
  generalize wrapUint64 v₂.Tokens = t₂ at et₂
  have hT := bigEndianUint64_lt_iff t₁ t₂ (by omega) (by omega)
  have hTe := bigEndianUint64_eq_iff t₁ t₂ (by omega) (by omega)
  have e1 : ValidatorsByPowerIndexKey ++ bigEndianUint64 t₁
      = ValidatorsByPowerIndexKey ++ bigEndianUint64 t₂ ↔ t₁ = t₂ := by
    rw [List.append_right_inj, hTe]
  have hp : ¬ ValidatorsByPowerIndexKey < ValidatorsByPowerIndexKey :=
    bytes_lt_irrefl _
  refine ⟨?_, ?_, ?_, ?_⟩
  · simp [ValidatorsByPowerIndexKey, bigEndianUint64, ha₁]
    omega
  · exact ⟨bigEndianUint64 t₁ ++ v₁.OperatorAddr.map complementByte, by simp⟩
  · rw [append_lt_append_iff (ValidatorsByPowerIndexKey ++ bigEndianUint64 t₁)
        (ValidatorsByPowerIndexKey ++ bigEndianUint64 t₂) _ _ rfl,
      append_lt_append_iff ValidatorsByPowerIndexKey ValidatorsByPowerIndexKey _ _ rfl,
      e1, hT, map_complementByte_lt_iff _ _ (by rw [ha₁, ha₂]) hb₁ hb₂]
    constructor
    · rintro ((h | ⟨_, h⟩) | ⟨h1, h⟩)
      · exact absurd h hp
      · exact Or.inl (by omega)
      · exact Or.inr ⟨by omega, h⟩
    · rintro (h | ⟨h1, h⟩)
      · exact Or.inl (Or.inr ⟨rfl, by omega⟩)
      · exact Or.inr ⟨by omega, h⟩
  · intro h
    have h' := List.append_inj h rfl
    have ht := e1.mp h'.1
    exact ⟨by omega, map_complementByte_injective _ _ hb₁ hb₂ h'.2⟩

/-- Instance of C27 with 20-byte addresses: at equal power 1000 the validator with the
smaller operator address gets the larger key. -/
theorem C27_power_rank_new_key_order_witness :
    (getValidatorPowerRankNew 20
        { OperatorAddr := List.replicate 20 2, Tokens := 1000, BondHeight := 5,
          BondIntraTxCounter := 2 }).length = 1 + 8 + 20
      ∧ getValidatorPowerRankNew 20
          { OperatorAddr := List.replicate 20 2, Tokens := 1000, BondHeight := 5,
            BondIntraTxCounter := 2 }
        < getValidatorPowerRankNew 20
          { OperatorAddr := List.replicate 20 1, Tokens := 1000, BondHeight := 3,
            BondIntraTxCounter := 7 } :=
  ⟨(C27_power_rank_new_key_order 20
      { OperatorAddr := List.replicate 20 2, Tokens := 1000, BondHeight := 5,
        BondIntraTxCounter := 2 }
      { OperatorAddr := List.replicate 20 1, Tokens := 1000, BondHeight := 3,
        BondIntraTxCounter := 7 }
      (by decide) (by decide) rfl rfl (by decide) (by decide)).1,
    (C27_power_rank_new_key_order 20
      { OperatorAddr := List.replicate 20 2, Tokens := 1000, BondHeight := 5,
        BondIntraTxCounter := 2 }
      { OperatorAddr := List.replicate 20 1, Tokens := 1000, BondHeight := 3,
        BondIntraTxCounter := 7 }
      (by decide) (by decide) rfl rfl (by decide) (by decide)).2.2.1.mpr
      (Or.inr ⟨rfl, by decide⟩)⟩

end KeyLayout

end Stake

end Slashing
